import Mathlib

/-!
# Oriented Gaussian interpolation: forward evaluator and adjoint splatter

Shallow embedding of

* `GaussianInterpolateImageFunction` (itkGaussianInterpolateImageFunction3D.hxx):
  `ComputeBoundingBox`, `ComputeErrorFunctionArray`, `EvaluateAtContinuousIndex`;
* `OrientedGaussianInterpolateImageFunction` (itkOrientedGaussianInterpolateImageFunction.h):
  the setters `SetInputImage`, `SetSigma`, `SetCovariance`, `SetAlpha`, `SetParameters`;
* `AdjointOrientedGaussianInterpolateImageFilter`
  (itkAdjointOrientedGaussianInterpolateImageFilter.hxx): `ComputeBoundingBox`,
  `GenerateData`, `BeforeThreadedGenerateData`, `ThreadedGenerateData`,
  `ComputeExponentialFunction`.

Conventions of the embedding.

* `RealType` / `double` is an arbitrary linearly ordered field `K` with a floor function
  (exact arithmetic; instantiate `K := ℚ` to run the definitions, `K := ℝ` for the real
  error function).  The quotient `a / b` is the field quotient, so a division by zero has
  the value `0` in the embedding; wherever that matters the divisor is exposed
  (`sum_m`, `localSum`) and the theorems speak about it explicitly.
* The numeric library the source calls (`vnl_erf`, `std::exp`, `sqrt`, `vnl_math::sqrt2`,
  `vnl_math::two_over_sqrtpi`) is the parameter `Numerics K`; `realNumerics` is its
  instance with the true functions on `ℝ`, `doubleRangeNumerics` the instance in which
  `exp` has underflowed to `0` and `erf` has reached `±1` as they do on `double`.
* `int` is `ℤ`, which is exact as long as the values stay within the 32-bit range of
  `int` (grid sizes and index offsets far below `2^31`).  The conversions
  `static_cast<int>( std::floor( .. ) )` and `static_cast<int>( std::ceil( .. ) )` leave
  that range for a centre beyond `±2^31`; `rangeBeginInt`, `rangeEndInt`, `boxBeginInt`
  and `boxEndInt` keep the conversion explicit for that case.
* A region handed to an image iterator has a size `≥ 0` on every axis.  `SetSize` takes an
  unsigned value, so a negative `end - begin` never reaches the iterator as such;
  `regionIndices` lists no index for it, and the theorems on the value an evaluator
  returns assume `begin ≤ end` on every axis.
* `FixedArray<RealType, D>` is `Fin D → K`; the `D*D` row-major square array
  `cov[i*D + j]` is `Matrix (Fin D) (Fin D) K`.
* A `vnl_vector` obtained from `set_size` holds no value at any position until written:
  it is `ℤ → Option K`, `none` meaning "never written".
* An image buffer is a function from discrete indices to pixel values; loops over an image
  region are folds over the list of its indices in iteration order (axis 0 fastest).
* The setters of the oriented interpolator call the virtual `ComputeBoundingBox`, whose
  body for that class is not among the sources: it is a parameter of the setters, and
  `forwardComputeBoundingBox` instantiates it with the body of
  `GaussianInterpolateImageFunction::ComputeBoundingBox`.
* Worker threads are run one after another over the list of split regions; the read and
  the write of one update of the shared buffer are the separate steps `readModify` and
  `writeBack`, so that an interleaving of two workers can be written down explicitly.
-/

set_option autoImplicit false
set_option linter.unusedSectionVars false

namespace itk

/-! ## Collaborators -/

/-- Numeric library used by the source: `vnl_erf`, `std::exp`, `sqrt`,
`vnl_math::sqrt2`, `vnl_math::two_over_sqrtpi`. -/
structure Numerics (K : Type) where
  erf : K → K
  exp : K → K
  sqrt : K → K
  sqrt2 : K
  two_over_sqrtpi : K

/-- The part of an image the code consults: buffered-region size, spacing and the
pixel buffer. -/
structure Image (K : Type) (D : ℕ) where
  size : Fin D → ℕ
  spacing : Fin D → K
  pixel : (Fin D → ℤ) → K

/-- An `ImageRegion`: start index and size on every axis.  The size is kept signed
because the source passes the `int` value `end - begin` to `SetSize`. -/
structure ImageRegion (D : ℕ) where
  index : Fin D → ℤ
  size : Fin D → ℤ

/-- The integers `b, b+1, ..., b+sz-1` (none when `sz ≤ 0`). -/
def intRange (b sz : ℤ) : List ℤ :=
  (List.range sz.toNat).map (fun (k : ℕ) => b + (k : ℤ))

/-- Indices visited by an `ImageRegion(Const)IteratorWithIndex` over a region whose size
is `≥ 0` on every axis, in iteration order: axis 0 runs fastest; a size `0` on some axis
yields no index.  A negative size is no input of the iterator (`SetSize` stores an
unsigned value): the list is empty for it by convention only. -/
def regionIndices : {D : ℕ} → ImageRegion D → List (Fin D → ℤ)
  | 0, _ => [fun i => i.elim0]
  | n + 1, r =>
    (regionIndices (D := n) ⟨Fin.tail r.index, Fin.tail r.size⟩).flatMap
      (fun tl => (intRange (r.index 0) (r.size 0)).map
        (fun j => (Fin.cons j tl : Fin (n + 1) → ℤ)))

section Generic

variable {K : Type} [LinearOrderedField K] [FloorRing K] {D : ℕ}

/-- The conversion `static_cast<int>(x)` of a real number: truncation toward zero. -/
def static_cast_int (x : K) : ℤ := if 0 ≤ x then ⌊x⌋ else ⌈x⌉

/-- The expression
`static_cast<int>( m_BoundingBoxEnd[d] - m_BoundingBoxStart[d] + 0.5 )`. -/
def boundingBoxSize (bbStart bbEnd : K) : ℤ :=
  static_cast_int (bbEnd - bbStart + 1 / 2)

/-- The expression
`vnl_math_max( 0, static_cast<int>( std::floor( cindex - start - cutoff ) ) )`, for a
floor value that `int` can hold (the conversion is then exact); `rangeBeginInt` is the
same expression with the conversion kept. -/
def rangeBegin (bbStart cutoff cindex : K) : ℤ :=
  max 0 ⌊cindex - bbStart - cutoff⌋

/-- The expression
`vnl_math_min( boundingBoxSize, static_cast<int>( std::ceil( cindex - start + cutoff ) ) )`,
for a ceiling value that `int` can hold (the conversion is then exact); `rangeEndInt` is
the same expression with the conversion kept. -/
def rangeEnd (bbSize : ℤ) (bbStart cutoff cindex : K) : ℤ :=
  min bbSize ⌈cindex - bbStart + cutoff⌉

/-- The conversion `static_cast<int>( z )` of an integral `double` value `z` with the
32-bit range of `int` made explicit: `z` itself when `-2^31 ≤ z ≤ 2^31 - 1`.  Outside that
range the conversion is undefined in C++; `overflow` is the value the machine conversion
delivers (`INT_MIN = -2^31` with the x86-64 conversion instructions). -/
def static_cast_int32 (overflow z : ℤ) : ℤ :=
  if -2147483648 ≤ z ∧ z ≤ 2147483647 then z else overflow

/-- The expression
`vnl_math_max( 0, static_cast<int>( std::floor( cindex - start - cutoff ) ) )` with the
conversion to a 32-bit `int`. -/
def rangeBeginInt (overflow : ℤ) (bbStart cutoff cindex : K) : ℤ :=
  max 0 (static_cast_int32 overflow ⌊cindex - bbStart - cutoff⌋)

/-- The expression
`vnl_math_min( boundingBoxSize, static_cast<int>( std::ceil( cindex - start + cutoff ) ) )`
with the conversion to a 32-bit `int`. -/
def rangeEndInt (overflow bbSize : ℤ) (bbStart cutoff cindex : K) : ℤ :=
  min bbSize (static_cast_int32 overflow ⌈cindex - bbStart + cutoff⌉)

/-! ## GaussianInterpolateImageFunction (forward evaluator) -/

/-- Member state of `GaussianInterpolateImageFunction`. -/
structure GaussianInterpolateImageFunction (K : Type) (D : ℕ) where
  inputImage : Option (Image K D)
  m_Sigma : Fin D → K
  m_Alpha : K
  m_BoundingBoxStart : Fin D → K
  m_BoundingBoxEnd : Fin D → K
  m_ScalingFactor : Fin D → K
  m_CutoffDistance : Fin D → K

namespace GaussianInterpolateImageFunction

/-- `GaussianInterpolateImageFunction::ComputeBoundingBox`: returns at once when no
input image is bound, otherwise sets the four derived arrays on every axis. -/
def ComputeBoundingBox (N : Numerics K) (self : GaussianInterpolateImageFunction K D) :
    GaussianInterpolateImageFunction K D :=
  match self.inputImage with
  | none => self
  | some input =>
    { self with
      m_BoundingBoxStart := fun _ => -(1 / 2)
      m_BoundingBoxEnd := fun d => (input.size d : K) - 1 / 2
      m_ScalingFactor := fun d => 1 / (N.sqrt2 * self.m_Sigma d / input.spacing d)
      m_CutoffDistance := fun d => self.m_Sigma d * self.m_Alpha / input.spacing d }

/-- Loop-carried variables of `ComputeErrorFunctionArray`. -/
structure ErfLoop (K : Type) where
  t : K
  e_last : K
  g_last : K
  erfArray : ℤ → Option K
  gerfArray : ℤ → Option K

/-- One iteration `i` of the loop of `ComputeErrorFunctionArray`. -/
def erfLoopBody (N : Numerics K) (sf : K) (evaluateGradient : Bool)
    (s : ErfLoop K) (i : ℤ) : ErfLoop K :=
  let t := s.t + sf
  let e_now := N.erf t
  let erfArray := Function.update s.erfArray i (some (e_now - s.e_last))
  if evaluateGradient then
    let g_now := N.two_over_sqrtpi * N.exp (-(t * t))
    { t := t, e_last := e_now, g_last := g_now, erfArray := erfArray,
      gerfArray := Function.update s.gerfArray i (some (g_now - s.g_last)) }
  else
    { t := t, e_last := e_now, g_last := s.g_last, erfArray := erfArray,
      gerfArray := s.gerfArray }

/-- State of `ComputeErrorFunctionArray` on entry to its loop: both arrays freshly
sized (nothing written), `t` at the lower boundary of voxel `begin`. -/
def erfLoopInit (N : Numerics K) (self : GaussianInterpolateImageFunction K D)
    (dimension : Fin D) (cindex : K) (evaluateGradient : Bool) : ErfLoop K :=
  let begin_ := rangeBegin (self.m_BoundingBoxStart dimension)
    (self.m_CutoffDistance dimension) cindex
  let t := (self.m_BoundingBoxStart dimension - cindex + (begin_ : K)) *
    self.m_ScalingFactor dimension
  { t := t
    e_last := N.erf t
    g_last := if evaluateGradient then N.two_over_sqrtpi * N.exp (-(t * t)) else 0
    erfArray := fun _ => none
    gerfArray := fun _ => none }

/-- `GaussianInterpolateImageFunction::ComputeErrorFunctionArray`: the final loop
state; its `erfArray` and `gerfArray` are the two output vectors. -/
def ComputeErrorFunctionArray (N : Numerics K) (self : GaussianInterpolateImageFunction K D)
    (dimension : Fin D) (cindex : K) (evaluateGradient : Bool) : ErfLoop K :=
  let bbSize := boundingBoxSize (self.m_BoundingBoxStart dimension)
    (self.m_BoundingBoxEnd dimension)
  let begin_ := rangeBegin (self.m_BoundingBoxStart dimension)
    (self.m_CutoffDistance dimension) cindex
  let end_ := rangeEnd bbSize (self.m_BoundingBoxStart dimension)
    (self.m_CutoffDistance dimension) cindex
  (intRange begin_ (end_ - begin_)).foldl
    (erfLoopBody N (self.m_ScalingFactor dimension) evaluateGradient)
    (erfLoopInit N self dimension cindex evaluateGradient)

/-- Reading `array[j]` from a `vnl_vector`.  The evaluator only reads positions that
`ComputeErrorFunctionArray` has written; a position never written reads as `0` here. -/
def readArray (a : ℤ → Option K) (j : ℤ) : K := (a j).getD 0

/-- The region built by `EvaluateAtContinuousIndex`: index `begin` and size
`end - begin` on every axis. -/
def activeRegion (self : GaussianInterpolateImageFunction K D) (cindex : Fin D → K) :
    ImageRegion D where
  index := fun d => rangeBegin (self.m_BoundingBoxStart d) (self.m_CutoffDistance d) (cindex d)
  size := fun d =>
    rangeEnd (boundingBoxSize (self.m_BoundingBoxStart d) (self.m_BoundingBoxEnd d))
        (self.m_BoundingBoxStart d) (self.m_CutoffDistance d) (cindex d) -
      rangeBegin (self.m_BoundingBoxStart d) (self.m_CutoffDistance d) (cindex d)

/-- Accumulators of the voxel loop of `EvaluateAtContinuousIndex`. -/
structure Sums (K : Type) (D : ℕ) where
  sum_me : K
  sum_m : K
  dsum_me : Fin D → K
  dsum_m : Fin D → K

/-- The weight `w` of one voxel as the loop computes it: `erfArray[0][j]`, then
`w *= erfArray[d][j]` for `d = 1 .. D-1`. -/
def voxelWeight [NeZero D] (erfArray : Fin D → ℤ → Option K) (idx : Fin D → ℤ) : K :=
  (List.finRange D).tail.foldl (fun w d => w * readArray (erfArray d) (idx d))
    (readArray (erfArray 0) (idx 0))

/-- The derivative weights `dw` of one voxel as the loop computes them when a gradient
is requested: `dw[0] = gerfArray[0][j]`, `dw[d] = erfArray[0][j]` for `d ≥ 1`, then for
`d = 1 .. D-1` every `dw[q]` is multiplied by `gerfArray[d][j]` if `d = q` and by
`erfArray[d][j]` otherwise. -/
def voxelGradWeight [NeZero D] (erfArray gerfArray : Fin D → ℤ → Option K)
    (idx : Fin D → ℤ) : Fin D → K :=
  (List.finRange D).tail.foldl
    (fun dw d => fun q =>
      if d = q then dw q * readArray (gerfArray d) (idx d)
      else dw q * readArray (erfArray d) (idx d))
    (fun q => if q = 0 then readArray (gerfArray 0) (idx 0)
      else readArray (erfArray 0) (idx 0))

/-- One iteration of the voxel loop of `EvaluateAtContinuousIndex`. -/
def voxelBody [NeZero D] (image : Image K D) (erfArray gerfArray : Fin D → ℤ → Option K)
    (grad : Bool) (s : Sums K D) (idx : Fin D → ℤ) : Sums K D :=
  let w := voxelWeight erfArray idx
  let V := image.pixel idx
  if grad then
    let dw := voxelGradWeight erfArray gerfArray idx
    { sum_me := s.sum_me + V * w
      sum_m := s.sum_m + w
      dsum_me := fun q => s.dsum_me q + V * dw q
      dsum_m := fun q => s.dsum_m q + dw q }
  else
    { s with sum_me := s.sum_me + V * w, sum_m := s.sum_m + w }

/-- The accumulators of `EvaluateAtContinuousIndex` after its voxel loop. -/
def evaluateSums [NeZero D] (N : Numerics K) (self : GaussianInterpolateImageFunction K D)
    (image : Image K D) (cindex : Fin D → K) (grad : Bool) : Sums K D :=
  let erfArray := fun d => (ComputeErrorFunctionArray N self d (cindex d) grad).erfArray
  let gerfArray := fun d => (ComputeErrorFunctionArray N self d (cindex d) grad).gerfArray
  (regionIndices (activeRegion self cindex)).foldl
    (voxelBody image erfArray gerfArray grad)
    { sum_me := 0, sum_m := 0, dsum_me := fun _ => 0, dsum_m := fun _ => 0 }

/-- `GaussianInterpolateImageFunction::EvaluateAtContinuousIndex( cindex, grad )` on the
bound input image: the returned value `rc = sum_me / sum_m`. -/
def EvaluateAtContinuousIndex [NeZero D] (N : Numerics K)
    (self : GaussianInterpolateImageFunction K D) (image : Image K D)
    (cindex : Fin D → K) (grad : Bool) : K :=
  let s := evaluateSums N self image cindex grad
  s.sum_me / s.sum_m

/-- The array written through the pointer `grad` by `EvaluateAtContinuousIndex` when it
is not null. -/
def EvaluateGradient [NeZero D] (N : Numerics K)
    (self : GaussianInterpolateImageFunction K D) (image : Image K D)
    (cindex : Fin D → K) : Fin D → K :=
  let s := evaluateSums N self image cindex true
  let rc := s.sum_me / s.sum_m
  fun q => (s.dsum_me q - rc * s.dsum_m q) / s.sum_m / (-N.sqrt2 * self.m_Sigma q)

end GaussianInterpolateImageFunction

/-! ## OrientedGaussianInterpolateImageFunction (setters of the header) -/

/-- Member state of `OrientedGaussianInterpolateImageFunction`. -/
structure OrientedGaussianInterpolateImageFunction (K : Type) (D : ℕ) where
  inputImage : Option (Image K D)
  m_Covariance : Matrix (Fin D) (Fin D) K
  m_Sigma : Fin D → K
  m_Alpha : K
  m_BoundingBoxStart : Fin D → K
  m_BoundingBoxEnd : Fin D → K
  m_CutoffDistance : Fin D → K

namespace OrientedGaussianInterpolateImageFunction

/-! The setters call the virtual member `ComputeBoundingBox`, whose body for this class
is not part of the header; it is the parameter `computeBoundingBox`.  `Modified()` only
touches the modification time stamp, which is not part of the state here. -/

/-- `SetInputImage( image )`: binds the image, then `ComputeBoundingBox()`. -/
def SetInputImage
    (computeBoundingBox : OrientedGaussianInterpolateImageFunction K D →
      OrientedGaussianInterpolateImageFunction K D)
    (self : OrientedGaussianInterpolateImageFunction K D) (image : Option (Image K D)) :
    OrientedGaussianInterpolateImageFunction K D :=
  computeBoundingBox { self with inputImage := image }

/-- `SetSigma( const ArrayType s )`: only when `m_Sigma != s`, stores `s`, refills the
covariance with zeros and `s[d]*s[d]` on the diagonal, then `ComputeBoundingBox()`. -/
def SetSigma
    (computeBoundingBox : OrientedGaussianInterpolateImageFunction K D →
      OrientedGaussianInterpolateImageFunction K D)
    (self : OrientedGaussianInterpolateImageFunction K D) (s : Fin D → K) :
    OrientedGaussianInterpolateImageFunction K D :=
  if self.m_Sigma ≠ s then
    computeBoundingBox
      { self with
        m_Sigma := s
        m_Covariance := fun i j => if i = j then s i * s i else 0 }
  else self

/-- `SetCovariance( const SquareArrayType cov )`: only when `m_Covariance != cov`, stores
`cov`, sets `m_Sigma[d] = sqrt( cov[d*D + d] )`, then `ComputeBoundingBox()`. -/
def SetCovariance (N : Numerics K)
    (computeBoundingBox : OrientedGaussianInterpolateImageFunction K D →
      OrientedGaussianInterpolateImageFunction K D)
    (self : OrientedGaussianInterpolateImageFunction K D) (cov : Matrix (Fin D) (Fin D) K) :
    OrientedGaussianInterpolateImageFunction K D :=
  if self.m_Covariance ≠ cov then
    computeBoundingBox
      { self with
        m_Covariance := cov
        m_Sigma := fun d => N.sqrt (cov d d) }
  else self

/-- `SetAlpha( const RealType a )`: only when `m_Alpha` and `a` are not exactly equal,
stores `a`, then `ComputeBoundingBox()`. -/
def SetAlpha
    (computeBoundingBox : OrientedGaussianInterpolateImageFunction K D →
      OrientedGaussianInterpolateImageFunction K D)
    (self : OrientedGaussianInterpolateImageFunction K D) (a : K) :
    OrientedGaussianInterpolateImageFunction K D :=
  if self.m_Alpha ≠ a then computeBoundingBox { self with m_Alpha := a } else self

/-- `SetParameters( sigma, alpha )`: `SetSigma( sigma )` then `SetAlpha( alpha )`. -/
def SetParameters
    (computeBoundingBox : OrientedGaussianInterpolateImageFunction K D →
      OrientedGaussianInterpolateImageFunction K D)
    (self : OrientedGaussianInterpolateImageFunction K D) (sigma : Fin D → K) (alpha : K) :
    OrientedGaussianInterpolateImageFunction K D :=
  SetAlpha computeBoundingBox (SetSigma computeBoundingBox self sigma) alpha

end OrientedGaussianInterpolateImageFunction

/-! ## AdjointOrientedGaussianInterpolateImageFilter (adjoint splatter) -/

/-- The three external coordinate maps `ThreadedGenerateData` composes for every source
sample: `inputPtr->TransformIndexToPhysicalPoint`, `transformPtr->TransformPoint` and
`outputPtr->TransformPhysicalPointToContinuousIndex`. -/
structure Geometry (K : Type) (D : ℕ) where
  TransformIndexToPhysicalPoint : (Fin D → ℤ) → (Fin D → K)
  TransformPoint : (Fin D → K) → (Fin D → K)
  TransformPhysicalPointToContinuousIndex : (Fin D → K) → (Fin D → K)

/-- The destination continuous index `outputCIndex` of the source sample `inputIndex`. -/
def Geometry.outputCIndex (g : Geometry K D) (inputIndex : Fin D → ℤ) : Fin D → K :=
  g.TransformPhysicalPointToContinuousIndex
    (g.TransformPoint (g.TransformIndexToPhysicalPoint inputIndex))

/-- Member state of `AdjointOrientedGaussianInterpolateImageFilter` used by the splatting
pass; `output` is the allocated output image (`GetOutput()`, never null once
`AllocateOutputs` has run). -/
structure AdjointOrientedGaussianInterpolateImageFilter (K : Type) (D : ℕ) where
  output : Image K D
  m_DefaultPixelValue : K
  m_Alpha : K
  m_Sigma : Fin D → K
  m_Covariance : Matrix (Fin D) (Fin D) K
  m_BoundingBoxStart : Fin D → K
  m_BoundingBoxEnd : Fin D → K
  m_CutoffDistance : Fin D → K

/-- The matrix returned by `itk::Matrix::GetInverse` for a non-singular matrix:
`det⁻¹ • adjugate` (for a singular matrix the library call raises instead). -/
def GetInverse (A : Matrix (Fin D) (Fin D) K) : Matrix (Fin D) (Fin D) K :=
  (A.det)⁻¹ • A.adjugate

namespace AdjointOrientedGaussianInterpolateImageFilter

/-- `AdjointOrientedGaussianInterpolateImageFilter::ComputeBoundingBox`.  Its early return
`if( !this->GetOutput() )` is not taken, the output being allocated. -/
def ComputeBoundingBox (self : AdjointOrientedGaussianInterpolateImageFilter K D) :
    AdjointOrientedGaussianInterpolateImageFilter K D :=
  { self with
    m_BoundingBoxStart := fun _ => -(1 / 2)
    m_BoundingBoxEnd := fun d => (self.output.size d : K) - 1 / 2
    m_CutoffDistance := fun d => self.m_Sigma d * self.m_Alpha / self.output.spacing d }

/-- `BeforeThreadedGenerateData`: fills the output buffer with `NumericTraits::Zero`,
then computes the bounding box. -/
def BeforeThreadedGenerateData (self : AdjointOrientedGaussianInterpolateImageFilter K D) :
    AdjointOrientedGaussianInterpolateImageFilter K D :=
  ComputeBoundingBox { self with output := { self.output with pixel := fun _ => 0 } }

/-- `ComputeExponentialFunction( point, center, CovScaledInv )`. -/
def ComputeExponentialFunction (N : Numerics K) (point : Fin D → ℤ) (center : Fin D → K)
    (CovScaledInv : Matrix (Fin D) (Fin D) K) : K :=
  let diff : Fin D → K := fun i => (point i : K) - center i
  let tmp := CovScaledInv.mulVec diff
  let result := Matrix.dotProduct diff tmp
  N.exp (-(1 / 2) * result)

/-- The matrix `CovScaledInv = S * covariance.GetInverse() * S` with
`S = diag( output spacing )` set up at the start of `ThreadedGenerateData`. -/
def CovScaledInv (self : AdjointOrientedGaussianInterpolateImageFilter K D) :
    Matrix (Fin D) (Fin D) K :=
  let S : Matrix (Fin D) (Fin D) K := fun i j => if i = j then self.output.spacing i else 0
  S * GetInverse self.m_Covariance * S

/-- The value of `begin` on axis `d` after the clamp
`begin = vnl_math_min( begin, boundingBoxSize )`. -/
def boxBegin (self : AdjointOrientedGaussianInterpolateImageFilter K D)
    (outputCIndex : Fin D → K) (d : Fin D) : ℤ :=
  min (rangeBegin (self.m_BoundingBoxStart d) (self.m_CutoffDistance d) (outputCIndex d))
    (boundingBoxSize (self.m_BoundingBoxStart d) (self.m_BoundingBoxEnd d))

/-- The value of `end` on axis `d` after the clamp `end = vnl_math_max( end, 0 )`. -/
def boxEnd (self : AdjointOrientedGaussianInterpolateImageFilter K D)
    (outputCIndex : Fin D → K) (d : Fin D) : ℤ :=
  max (rangeEnd (boundingBoxSize (self.m_BoundingBoxStart d) (self.m_BoundingBoxEnd d))
    (self.m_BoundingBoxStart d) (self.m_CutoffDistance d) (outputCIndex d)) 0

/-- The value of `begin` on axis `d` after the clamp
`begin = vnl_math_min( begin, boundingBoxSize )`, with the conversion to a 32-bit `int`. -/
def boxBeginInt (overflow : ℤ) (self : AdjointOrientedGaussianInterpolateImageFilter K D)
    (outputCIndex : Fin D → K) (d : Fin D) : ℤ :=
  min (rangeBeginInt overflow (self.m_BoundingBoxStart d) (self.m_CutoffDistance d)
      (outputCIndex d))
    (boundingBoxSize (self.m_BoundingBoxStart d) (self.m_BoundingBoxEnd d))

/-- The value of `end` on axis `d` after the clamp `end = vnl_math_max( end, 0 )`, with
the conversion to a 32-bit `int`. -/
def boxEndInt (overflow : ℤ) (self : AdjointOrientedGaussianInterpolateImageFilter K D)
    (outputCIndex : Fin D → K) (d : Fin D) : ℤ :=
  max (rangeEndInt overflow
    (boundingBoxSize (self.m_BoundingBoxStart d) (self.m_BoundingBoxEnd d))
    (self.m_BoundingBoxStart d) (self.m_CutoffDistance d) (outputCIndex d)) 0

/-- The region `outputRegion` built for one source sample: index `begin`, size
`end - begin` on every axis. -/
def outputRegion (self : AdjointOrientedGaussianInterpolateImageFilter K D)
    (outputCIndex : Fin D → K) : ImageRegion D where
  index := boxBegin self outputCIndex
  size := fun d => boxEnd self outputCIndex d - boxBegin self outputCIndex d

/-- First loop over `outputRegion`: `sum_m += w` for every voxel. -/
def localSum (N : Numerics K) (self : AdjointOrientedGaussianInterpolateImageFilter K D)
    (outputCIndex : Fin D → K) : K :=
  (regionIndices (outputRegion self outputCIndex)).foldl
    (fun sum_m idx => sum_m + ComputeExponentialFunction N idx outputCIndex (CovScaledInv self))
    0

/-- Body of the `while` loop for one source sample with value `inValue = inIt.Get()` and
destination continuous index `outputCIndex`: the first loop computes `sum_m`, the second
performs `outIt.Set( outIt.Get() + inIt.Get()*w/sum_m )` at every voxel of the region. -/
def splatSample (N : Numerics K) (self : AdjointOrientedGaussianInterpolateImageFilter K D)
    (outputCIndex : Fin D → K) (inValue : K) (buffer : (Fin D → ℤ) → K) :
    (Fin D → ℤ) → K :=
  let sum_m := localSum N self outputCIndex
  (regionIndices (outputRegion self outputCIndex)).foldl
    (fun buf idx => Function.update buf idx
      (buf idx +
        inValue * ComputeExponentialFunction N idx outputCIndex (CovScaledInv self) / sum_m))
    buffer

/-- The `while ( !inIt.IsAtEnd() )` loop run over a list of source indices. -/
def splatSamples (N : Numerics K) (self : AdjointOrientedGaussianInterpolateImageFilter K D)
    (g : Geometry K D) (input : Image K D) (samples : List (Fin D → ℤ))
    (buffer : (Fin D → ℤ) → K) : (Fin D → ℤ) → K :=
  samples.foldl
    (fun buf inputIndex => splatSample N self (g.outputCIndex inputIndex)
      (input.pixel inputIndex) buf)
    buffer

/-- `ThreadedGenerateData( inputRegionForThread, threadId )`: walks the input region and
splats every sample into the output buffer. -/
def ThreadedGenerateData (N : Numerics K)
    (self : AdjointOrientedGaussianInterpolateImageFilter K D) (g : Geometry K D)
    (input : Image K D) (inputRegionForThread : ImageRegion D) :
    AdjointOrientedGaussianInterpolateImageFilter K D :=
  { self with
    output := { self.output with
      pixel := splatSamples N self g input (regionIndices inputRegionForThread)
        self.output.pixel } }

end AdjointOrientedGaussianInterpolateImageFilter

end Generic

/-! ## Inner products and concrete inputs -/

section Examples

variable {K : Type} [LinearOrderedField K] [FloorRing K] {D : ℕ}

/-- Inner product of two vectors on a grid of the given size: the sum of `a v * y v`
over all voxels `v` of the grid. -/
def innerProduct (size : Fin D → ℕ) (a y : (Fin D → ℤ) → K) : K :=
  ((regionIndices ⟨fun _ => 0, fun d => (size d : ℤ)⟩).map (fun v => a v * y v)).sum

/-- The value `⟨Adjoint(x), y⟩`: inner product, on the destination grid, of `y.pixel` with
the buffer produced by `BeforeThreadedGenerateData` followed by the splatting pass over
the source samples (the source vector `x` is `input.pixel`). -/
def adjointInnerProduct (N : Numerics K)
    (flt : AdjointOrientedGaussianInterpolateImageFilter K D) (g : Geometry K D)
    (input : Image K D) (samples : List (Fin D → ℤ)) (y : Image K D) : K :=
  innerProduct flt.output.size
    ((flt.BeforeThreadedGenerateData).splatSamples N g input samples
      (flt.BeforeThreadedGenerateData).output.pixel)
    y.pixel

/-- The value `⟨x, Forward(y)⟩`: the sum over the source samples of the source value times
`EvaluateAtContinuousIndex` of the image `y` at the sample's destination continuous
index. -/
def forwardInnerProduct [NeZero D] (N : Numerics K)
    (fwd : GaussianInterpolateImageFunction K D) (g : Geometry K D)
    (input : Image K D) (samples : List (Fin D → ℤ)) (y : Image K D) : K :=
  (samples.map (fun i =>
    input.pixel i * fwd.EvaluateAtContinuousIndex N y (g.outputCIndex i) false)).sum

/-- The locally normalised kernel average of a destination-grid vector `y` around the
continuous index `c`: `(Σ_{v ∈ box(c)} w_c(v) * y v) / localSum(c)`, with the splatter's box,
weights and local sum.  It is a mathematical device, not a function of the source: the
linear functional of `y` that the splatting pass transposes. -/
def kernelAverage (N : Numerics K) (flt : AdjointOrientedGaussianInterpolateImageFilter K D)
    (c : Fin D → K) (y : (Fin D → ℤ) → K) : K :=
  ((regionIndices (flt.outputRegion c)).map
    (fun v => AdjointOrientedGaussianInterpolateImageFilter.ComputeExponentialFunction N v c
      flt.CovScaledInv * y v)).sum / flt.localSum N c

/-- A destination grid of two voxels on a line, unit spacing, holding `y = (0, 1)`. -/
def lineImage : Image K 1 where
  size := fun _ => 2
  spacing := fun _ => 1
  pixel := fun v => if v 0 = 1 then 1 else 0

/-- A source grid of one voxel holding `x = (1)`. -/
def pointImage : Image K 1 where
  size := fun _ => 1
  spacing := fun _ => 1
  pixel := fun _ => 1

/-- Identity geometry: the source index `i` lands on the destination continuous
index `i`. -/
def identityGeometry : Geometry K 1 where
  TransformIndexToPhysicalPoint := fun idx d => (idx d : K)
  TransformPoint := fun q => q
  TransformPhysicalPointToContinuousIndex := fun q => q

/-- Forward interpolator bound to `lineImage` with the given sigma and alpha, before
`ComputeBoundingBox` has run (derived arrays still zero). -/
def lineInterpolatorInit (sigma alpha : K) : GaussianInterpolateImageFunction K 1 where
  inputImage := some lineImage
  m_Sigma := fun _ => sigma
  m_Alpha := alpha
  m_BoundingBoxStart := fun _ => 0
  m_BoundingBoxEnd := fun _ => 0
  m_ScalingFactor := fun _ => 0
  m_CutoffDistance := fun _ => 0

/-- Forward interpolator bound to `lineImage` with the given sigma and alpha, after
`ComputeBoundingBox`. -/
def lineInterpolator (N : Numerics K) (sigma alpha : K) : GaussianInterpolateImageFunction K 1 :=
  GaussianInterpolateImageFunction.ComputeBoundingBox N (lineInterpolatorInit sigma alpha)

/-- Adjoint filter whose output grid is that of `lineImage`, with the given sigma and
alpha and the diagonal covariance `sigma²`. -/
def lineFilter (sigma alpha : K) : AdjointOrientedGaussianInterpolateImageFilter K 1 where
  output := lineImage
  m_DefaultPixelValue := 0
  m_Alpha := alpha
  m_Sigma := fun _ => sigma
  m_Covariance := fun _ _ => sigma * sigma
  m_BoundingBoxStart := fun _ => 0
  m_BoundingBoxEnd := fun _ => 0
  m_CutoffDistance := fun _ => 0

/-- An `OrientedGaussianInterpolateImageFunction` with unit sigma, covariance and alpha
and no image bound. -/
def unitOriented : OrientedGaussianInterpolateImageFunction K 1 where
  inputImage := none
  m_Covariance := fun _ _ => 1
  m_Sigma := fun _ => 1
  m_Alpha := 1
  m_BoundingBoxStart := fun _ => 0
  m_BoundingBoxEnd := fun _ => 0
  m_CutoffDistance := fun _ => 0

end Examples

/-! ## Worker scheduling, call traces and further concrete inputs -/

section Threads

variable {K : Type} [LinearOrderedField K] [FloorRing K] {D : ℕ}

namespace AdjointOrientedGaussianInterpolateImageFilter

/-- `GenerateData` under a sequential schedule of the workers:
`BeforeThreadedGenerateData`, then `ThreadedGenerateData` on each split region in turn,
then the empty `AfterThreadedGenerateData`.  `ThreaderCallback` hands worker `threadId` the
region computed by `SplitRequestedRegion( threadId, threadCount, splitRegion )`; the
region splitter is external, so the list of split regions is a parameter. -/
def GenerateData (N : Numerics K) (self : AdjointOrientedGaussianInterpolateImageFilter K D)
    (g : Geometry K D) (input : Image K D) (splitRegions : List (ImageRegion D)) :
    AdjointOrientedGaussianInterpolateImageFilter K D :=
  splitRegions.foldl (fun flt region => flt.ThreadedGenerateData N g input region)
    self.BeforeThreadedGenerateData

/-- First half of one iteration of the second loop,
`value = outIt.Get() + inIt.Get()*w/sum_m`: the worker reads the shared voxel and forms
the new value in its local variable `value`. -/
def readModify (buffer : (Fin D → ℤ) → K) (idx : Fin D → ℤ) (inValue w sum_m : K) : K :=
  buffer idx + inValue * w / sum_m

/-- Second half of one iteration of the second loop, `outIt.Set( value )`: the worker
stores its local `value` into the shared voxel. -/
def writeBack (buffer : (Fin D → ℤ) → K) (idx : Fin D → ℤ) (value : K) : (Fin D → ℤ) → K :=
  Function.update buffer idx value

end AdjointOrientedGaussianInterpolateImageFilter

namespace GaussianInterpolateImageFunction

/-- One iteration `i` of the loop of `ComputeErrorFunctionArray` with the library call
`e_now = vnl_erf( t )` made through `erf`, a version of the library function that also
threads a state of type `σ` (a counter or a log of its calls).  Nothing but that call
touches the state. -/
def erfLoopBodyWith {σ : Type} (N : Numerics K) (erf : K → σ → K × σ) (sf : K)
    (evaluateGradient : Bool) (s : ErfLoop K × σ) (i : ℤ) : ErfLoop K × σ :=
  let t := s.1.t + sf
  let e_now := erf t s.2
  let erfArray := Function.update s.1.erfArray i (some (e_now.1 - s.1.e_last))
  if evaluateGradient then
    let g_now := N.two_over_sqrtpi * N.exp (-(t * t))
    ({ t := t, e_last := e_now.1, g_last := g_now, erfArray := erfArray,
        gerfArray := Function.update s.1.gerfArray i (some (g_now - s.1.g_last)) },
      e_now.2)
  else
    ({ t := t, e_last := e_now.1, g_last := s.1.g_last, erfArray := erfArray,
        gerfArray := s.1.gerfArray },
      e_now.2)

/-- State of `ComputeErrorFunctionArray` on entry to its loop, with the library call
`e_last = vnl_erf( t )` made through the state-threading `erf`. -/
def erfLoopInitWith {σ : Type} (N : Numerics K) (erf : K → σ → K × σ)
    (self : GaussianInterpolateImageFunction K D) (dimension : Fin D) (cindex : K)
    (evaluateGradient : Bool) (s0 : σ) : ErfLoop K × σ :=
  let begin_ := rangeBegin (self.m_BoundingBoxStart dimension)
    (self.m_CutoffDistance dimension) cindex
  let t := (self.m_BoundingBoxStart dimension - cindex + (begin_ : K)) *
    self.m_ScalingFactor dimension
  let e_last := erf t s0
  ({ t := t
     e_last := e_last.1
     g_last := if evaluateGradient then N.two_over_sqrtpi * N.exp (-(t * t)) else 0
     erfArray := fun _ => none
     gerfArray := fun _ => none },
    e_last.2)

/-- `ComputeErrorFunctionArray` with every call of `vnl_erf` made through the
state-threading `erf`: the final loop state and the final state of `erf`. -/
def ComputeErrorFunctionArrayWith {σ : Type} (N : Numerics K) (erf : K → σ → K × σ)
    (self : GaussianInterpolateImageFunction K D) (dimension : Fin D) (cindex : K)
    (evaluateGradient : Bool) (s0 : σ) : ErfLoop K × σ :=
  let bbSize := boundingBoxSize (self.m_BoundingBoxStart dimension)
    (self.m_BoundingBoxEnd dimension)
  let begin_ := rangeBegin (self.m_BoundingBoxStart dimension)
    (self.m_CutoffDistance dimension) cindex
  let end_ := rangeEnd bbSize (self.m_BoundingBoxStart dimension)
    (self.m_CutoffDistance dimension) cindex
  (intRange begin_ (end_ - begin_)).foldl
    (erfLoopBodyWith N erf (self.m_ScalingFactor dimension) evaluateGradient)
    (erfLoopInitWith N erf self dimension cindex evaluateGradient s0)

/-- The library function `vnl_erf` keeping a log: it returns `N.erf t` and appends its
argument `t` to the log of the calls made so far. -/
def loggedErf (N : Numerics K) (t : K) (log : List K) : K × List K :=
  (N.erf t, log ++ [t])

/-- `ComputeErrorFunctionArray` run with the logging `vnl_erf` from an empty log: the
final loop state and the arguments of all calls of `vnl_erf`, in call order. -/
def erfCalls (N : Numerics K) (self : GaussianInterpolateImageFunction K D)
    (dimension : Fin D) (cindex : K) (evaluateGradient : Bool) : ErfLoop K × List K :=
  ComputeErrorFunctionArrayWith N (loggedErf N) self dimension cindex evaluateGradient []

/-- The sum of the entries `erfArray[begin .. end-1]` written by
`ComputeErrorFunctionArray` on one axis. -/
def weightArraySum (N : Numerics K) (self : GaussianInterpolateImageFunction K D)
    (dimension : Fin D) (cindex : K) : K :=
  ((intRange
      (rangeBegin (self.m_BoundingBoxStart dimension) (self.m_CutoffDistance dimension) cindex)
      (rangeEnd (boundingBoxSize (self.m_BoundingBoxStart dimension)
          (self.m_BoundingBoxEnd dimension))
          (self.m_BoundingBoxStart dimension) (self.m_CutoffDistance dimension) cindex -
        rangeBegin (self.m_BoundingBoxStart dimension) (self.m_CutoffDistance dimension)
          cindex)).map
    (fun i => readArray (ComputeErrorFunctionArray N self dimension cindex false).erfArray i)).sum

end GaussianInterpolateImageFunction

/-- A grid of `n` voxels on a line with unit spacing; the intensity of a voxel is its
index. -/
def rowImage (n : ℕ) : Image K 1 where
  size := fun _ => n
  spacing := fun _ => 1
  pixel := fun v => (v 0 : K)

/-- Forward interpolator bound to `rowImage n` with the given sigma and alpha, after
`ComputeBoundingBox`. -/
def rowInterpolator (N : Numerics K) (n : ℕ) (sigma alpha : K) :
    GaussianInterpolateImageFunction K 1 :=
  GaussianInterpolateImageFunction.ComputeBoundingBox N
    { inputImage := some (rowImage n)
      m_Sigma := fun _ => sigma
      m_Alpha := alpha
      m_BoundingBoxStart := fun _ => 0
      m_BoundingBoxEnd := fun _ => 0
      m_ScalingFactor := fun _ => 0
      m_CutoffDistance := fun _ => 0 }

/-- The filter `lineFilter sigma alpha` with the default pixel value set to
`defaultValue`. -/
def defaultFilter (sigma alpha defaultValue : K) :
    AdjointOrientedGaussianInterpolateImageFilter K 1 :=
  { (lineFilter sigma alpha : AdjointOrientedGaussianInterpolateImageFilter K 1) with
    m_DefaultPixelValue := defaultValue }

/-- The region of a line holding the single index `j`. -/
def voxelRegion (j : ℤ) : ImageRegion 1 where
  index := fun _ => j
  size := fun _ => 1

/-- The region of a line holding the two indices `0` and `1`. -/
def lineRegion : ImageRegion 1 where
  index := fun _ => 0
  size := fun _ => 2

/-- A source grid of two voxels on a line, unit spacing, holding `x = (1, 1)`. -/
def onesImage : Image K 1 where
  size := fun _ => 2
  spacing := fun _ => 1
  pixel := fun _ => 1

/-- A symmetric positive-definite covariance in the plane that is not diagonal: ones on
the diagonal, `1/2` off it. -/
def skewCovariance : Matrix (Fin 2) (Fin 2) K :=
  fun i j => if i = j then 1 else 1 / 2

/-- A planar `OrientedGaussianInterpolateImageFunction` with unit sigma, identity
covariance, unit alpha and no image bound. -/
def planarOriented : OrientedGaussianInterpolateImageFunction K 2 where
  inputImage := none
  m_Covariance := fun i j => if i = j then 1 else 0
  m_Sigma := fun _ => 1
  m_Alpha := 1
  m_BoundingBoxStart := fun _ => 0
  m_BoundingBoxEnd := fun _ => 0
  m_CutoffDistance := fun _ => 0

/-- The state of `planarOriented` once its covariance is `skewCovariance` (its sigma, the
square roots of the diagonal, is still the unit vector). -/
def skewOriented : OrientedGaussianInterpolateImageFunction K 2 :=
  { (planarOriented : OrientedGaussianInterpolateImageFunction K 2) with
    m_Covariance := skewCovariance }

/-- One call of a public setter of `OrientedGaussianInterpolateImageFunction` together
with its argument; `SetInputImage` may be handed a null pointer. -/
inductive SetterCall (K : Type) (D : ℕ) where
  | SetInputImage (image : Option (Image K D))
  | SetSigma (s : Fin D → K)
  | SetCovariance (cov : Matrix (Fin D) (Fin D) K)
  | SetAlpha (a : K)
  | SetParameters (sigma : Fin D → K) (alpha : K)

namespace OrientedGaussianInterpolateImageFunction

/-- The members the oriented interpolator has in common with
`GaussianInterpolateImageFunction` (image, sigma, alpha, bounding box and cutoff distance);
the scaling factor, which only the latter has, is set to zero. -/
def sharedMembers (self : OrientedGaussianInterpolateImageFunction K D) :
    GaussianInterpolateImageFunction K D where
  inputImage := self.inputImage
  m_Sigma := self.m_Sigma
  m_Alpha := self.m_Alpha
  m_BoundingBoxStart := self.m_BoundingBoxStart
  m_BoundingBoxEnd := self.m_BoundingBoxEnd
  m_ScalingFactor := fun _ => 0
  m_CutoffDistance := self.m_CutoffDistance

/-- The virtual `ComputeBoundingBox` of the setters, taken with the body of
`GaussianInterpolateImageFunction::ComputeBoundingBox` (the body of the oriented class's
own member is not part of the header): that body runs on the shared members, and the
bounding box and the cutoff distance it computes are stored. -/
def forwardComputeBoundingBox (N : Numerics K)
    (self : OrientedGaussianInterpolateImageFunction K D) :
    OrientedGaussianInterpolateImageFunction K D :=
  { self with
    m_BoundingBoxStart := (self.sharedMembers.ComputeBoundingBox N).m_BoundingBoxStart
    m_BoundingBoxEnd := (self.sharedMembers.ComputeBoundingBox N).m_BoundingBoxEnd
    m_CutoffDistance := (self.sharedMembers.ComputeBoundingBox N).m_CutoffDistance }

/-- The effect of one setter call. -/
def call (N : Numerics K)
    (computeBoundingBox : OrientedGaussianInterpolateImageFunction K D →
      OrientedGaussianInterpolateImageFunction K D)
    (self : OrientedGaussianInterpolateImageFunction K D) :
    SetterCall K D → OrientedGaussianInterpolateImageFunction K D
  | SetterCall.SetInputImage image => self.SetInputImage computeBoundingBox image
  | SetterCall.SetSigma s => self.SetSigma computeBoundingBox s
  | SetterCall.SetCovariance cov => self.SetCovariance N computeBoundingBox cov
  | SetterCall.SetAlpha a => self.SetAlpha computeBoundingBox a
  | SetterCall.SetParameters sigma alpha => self.SetParameters computeBoundingBox sigma alpha

/-- The effect of a sequence of setter calls, first call first. -/
def calls (N : Numerics K)
    (computeBoundingBox : OrientedGaussianInterpolateImageFunction K D →
      OrientedGaussianInterpolateImageFunction K D)
    (self : OrientedGaussianInterpolateImageFunction K D) (l : List (SetterCall K D)) :
    OrientedGaussianInterpolateImageFunction K D :=
  l.foldl (call N computeBoundingBox) self

end OrientedGaussianInterpolateImageFunction

end Threads

/-- The error function on the reals, `erf t = 2/√π · ∫₀ᵗ exp(-x²) dx`. -/
noncomputable def realErf (t : ℝ) : ℝ :=
  2 / Real.sqrt Real.pi * ∫ x in (0 : ℝ)..t, Real.exp (-(x * x))

/-- The numeric library on the reals: the true `erf`, `exp`, `sqrt` and constants. -/
noncomputable def realNumerics : Numerics ℝ where
  erf := realErf
  exp := Real.exp
  sqrt := Real.sqrt
  sqrt2 := Real.sqrt 2
  two_over_sqrtpi := 2 / Real.sqrt Real.pi

/-- The numeric library with the two range effects of double precision that change a
result from non-zero to zero: `std::exp` returns `0` for an argument below `-746`
(underflow), and `vnl_erf` returns exactly `1` from `6` on and exactly `-1` up to `-6`
(saturation).  Elsewhere the functions are the true ones. -/
noncomputable def doubleRangeNumerics : Numerics ℝ where
  erf := fun t => if 6 ≤ t then 1 else if t ≤ -6 then -1 else realErf t
  exp := fun t => if t < -746 then 0 else Real.exp t
  sqrt := Real.sqrt
  sqrt2 := Real.sqrt 2
  two_over_sqrtpi := 2 / Real.sqrt Real.pi

/-! ## Iteration over regions -/

theorem mem_intRange (b sz i : ℤ) : i ∈ intRange b sz ↔ b ≤ i ∧ i < b + sz := by
  unfold intRange
  simp only [List.mem_map, List.mem_range]
  constructor
  · rintro ⟨k, hk, rfl⟩
    omega
  · rintro ⟨h1, h2⟩
    exact ⟨(i - b).toNat, by omega, by omega⟩

theorem nodup_intRange (b sz : ℤ) : (intRange b sz).Nodup := by
  unfold intRange
  refine (List.nodup_range _).map ?_
  intro a c h
  simpa using h

theorem intRange_eq_nil (b sz : ℤ) (h : sz ≤ 0) : intRange b sz = [] := by
  unfold intRange
  have : sz.toNat = 0 := by omega
  simp [this]

theorem mem_regionIndices : ∀ {D : ℕ} (r : ImageRegion D) (v : Fin D → ℤ),
    v ∈ regionIndices r ↔ ∀ d, r.index d ≤ v d ∧ v d < r.index d + r.size d
  | 0, r, v => by
    simp only [regionIndices, List.mem_singleton]
    constructor
    · intro _ d
      exact d.elim0
    · intro _
      funext d
      exact d.elim0
  | n + 1, r, v => by
    simp only [regionIndices, List.mem_flatMap, List.mem_map, mem_intRange]
    rw [Fin.forall_fin_succ]
    constructor
    · rintro ⟨tl, htl, j, hj, rfl⟩
      rw [mem_regionIndices] at htl
      refine ⟨by simpa using hj, fun d => ?_⟩
      simpa [Fin.tail] using htl d
    · rintro ⟨h0, hs⟩
      refine ⟨Fin.tail v, (mem_regionIndices _ _).2 ?_, v 0, h0, Fin.cons_self_tail v⟩
      intro d
      exact hs d

theorem nodup_regionIndices : ∀ {D : ℕ} (r : ImageRegion D), (regionIndices r).Nodup
  | 0, r => by simp [regionIndices]
  | n + 1, r => by
    rw [regionIndices, List.nodup_flatMap]
    refine ⟨fun tl _ => (nodup_intRange _ _).map ?_, ?_⟩
    · intro a c h
      exact (Fin.cons_injective2 h).1
    · refine (nodup_regionIndices _).imp ?_
      intro a c hac
      show List.Disjoint _ _
      rw [List.disjoint_left]
      intro v hva hvc
      rw [List.mem_map] at hva hvc
      obtain ⟨j, _, rfl⟩ := hva
      obtain ⟨j2, _, h2⟩ := hvc
      exact hac (Fin.cons_injective2 h2).2.symm

/-- A region that is empty on some axis has no index. -/
theorem regionIndices_eq_nil {D : ℕ} (r : ImageRegion D) (d : Fin D) (h : r.size d ≤ 0) :
    regionIndices r = [] := by
  rw [List.eq_nil_iff_forall_not_mem]
  intro v hv
  have := (mem_regionIndices r v).1 hv d
  omega

/-! ## Bounding box -/

section BoundingBox

variable {K : Type} [LinearOrderedField K] [FloorRing K] {D : ℕ}

/-- With `BoundingBoxStart = -0.5` and `BoundingBoxEnd = size - 0.5` the expression
`static_cast<int>( End - Start + 0.5 )` is the grid size. -/
theorem boundingBoxSize_eq_size (n : ℕ) :
    boundingBoxSize (-(1 / 2) : K) ((n : K) - 1 / 2) = (n : ℤ) := by
  have hn : (0 : K) ≤ (n : K) := Nat.cast_nonneg n
  have e : (n : K) - 1 / 2 - -(1 / 2) + 1 / 2 = (n : K) + 1 / 2 := by ring
  unfold boundingBoxSize static_cast_int
  rw [e, if_pos (by linarith), Int.floor_eq_iff]
  constructor
  · push_cast
    linarith
  · push_cast
    linarith

theorem floor_sub_le_ceil_add (a cutoff : K) (h : 0 ≤ cutoff) :
    ⌊a - cutoff⌋ ≤ ⌈a + cutoff⌉ := by
  have h1 : ((⌊a - cutoff⌋ : ℤ) : K) ≤ a - cutoff := Int.floor_le _
  have h2 : a + cutoff ≤ ((⌈a + cutoff⌉ : ℤ) : K) := Int.le_ceil _
  have h3 : ((⌊a - cutoff⌋ : ℤ) : K) ≤ ((⌈a + cutoff⌉ : ℤ) : K) := by linarith
  exact_mod_cast h3

namespace AdjointOrientedGaussianInterpolateImageFilter

theorem boundingBoxSize_ComputeBoundingBox
    (self : AdjointOrientedGaussianInterpolateImageFilter K D) (d : Fin D) :
    boundingBoxSize ((ComputeBoundingBox self).m_BoundingBoxStart d)
      ((ComputeBoundingBox self).m_BoundingBoxEnd d) = (self.output.size d : ℤ) := by
  simp only [ComputeBoundingBox]
  exact boundingBoxSize_eq_size _

theorem boxBegin_nonneg_of (self : AdjointOrientedGaussianInterpolateImageFilter K D)
    (c : Fin D → K) (d : Fin D)
    (h : 0 ≤ boundingBoxSize (self.m_BoundingBoxStart d) (self.m_BoundingBoxEnd d)) :
    0 ≤ boxBegin self c d := by
  unfold boxBegin rangeBegin
  omega

theorem boxEnd_le_of (self : AdjointOrientedGaussianInterpolateImageFilter K D)
    (c : Fin D → K) (d : Fin D)
    (h : 0 ≤ boundingBoxSize (self.m_BoundingBoxStart d) (self.m_BoundingBoxEnd d)) :
    boxEnd self c d ≤ boundingBoxSize (self.m_BoundingBoxStart d) (self.m_BoundingBoxEnd d) := by
  unfold boxEnd rangeEnd
  omega

theorem boxBegin_le_boxEnd_of (self : AdjointOrientedGaussianInterpolateImageFilter K D)
    (c : Fin D → K) (d : Fin D)
    (h : 0 ≤ boundingBoxSize (self.m_BoundingBoxStart d) (self.m_BoundingBoxEnd d))
    (hc : 0 ≤ self.m_CutoffDistance d) :
    boxBegin self c d ≤ boxEnd self c d := by
  have hfc := floor_sub_le_ceil_add (c d - self.m_BoundingBoxStart d) (self.m_CutoffDistance d) hc
  unfold boxBegin boxEnd rangeBegin rangeEnd
  omega

/-- Membership in the list of voxels of a sample's destination region. -/
theorem mem_outputRegion (self : AdjointOrientedGaussianInterpolateImageFilter K D)
    (c : Fin D → K) (v : Fin D → ℤ) :
    v ∈ regionIndices (outputRegion self c) ↔
      ∀ d, boxBegin self c d ≤ v d ∧ v d < boxEnd self c d := by
  rw [mem_regionIndices]
  simp only [outputRegion]
  constructor
  · intro h d
    have := h d
    omega
  · intro h d
    have := h d
    omega

end AdjointOrientedGaussianInterpolateImageFilter

end BoundingBox

/-! ## Error-function arrays -/

section ErfArrays

variable {K : Type} [LinearOrderedField K] [FloorRing K] {D : ℕ}

theorem intRange_natCast (b : ℤ) (n : ℕ) :
    intRange b (n : ℤ) = (List.range n).map (fun (k : ℕ) => b + (k : ℤ)) := by
  simp [intRange]

theorem intRange_toNat (b sz : ℤ) : intRange b sz = intRange b (sz.toNat : ℤ) := by
  have h : ((sz.toNat : ℤ)).toNat = sz.toNat := by omega
  unfold intRange
  rw [h]

namespace GaussianInterpolateImageFunction

/-- Loop invariant of `ComputeErrorFunctionArray` after `n` iterations started at index `b`
from a state `s0` whose `e_last`, `g_last` belong to `s0.t`: the running `t` equals
`s0.t + n * sf`, and exactly the entries `b ≤ i < b + n` have been written, with the
closed-form differences. -/
theorem erfLoop_invariant (N : Numerics K) (sf : K) (g : Bool) (b : ℤ) (s0 : ErfLoop K)
    (he : s0.e_last = N.erf s0.t)
    (n : ℕ) :
    ((intRange b (n : ℤ)).foldl (erfLoopBody N sf g) s0).t = s0.t + (n : K) * sf ∧
    ((intRange b (n : ℤ)).foldl (erfLoopBody N sf g) s0).e_last = N.erf (s0.t + (n : K) * sf) ∧
    (∀ i : ℤ, ((intRange b (n : ℤ)).foldl (erfLoopBody N sf g) s0).erfArray i =
      if b ≤ i ∧ i < b + n then
        some (N.erf (s0.t + ((i - b : ℤ) + 1 : K) * sf) - N.erf (s0.t + ((i - b : ℤ) : K) * sf))
      else s0.erfArray i) := by
  induction n with
  | zero =>
    have h0 : intRange b ((0 : ℕ) : ℤ) = [] := by simp [intRange]
    rw [h0]
    simp only [List.foldl_nil]
    refine ⟨by simp, by simp [he], fun i => ?_⟩
    rw [if_neg]
    omega
  | succ n ih =>
    obtain ⟨ht, hel, harr⟩ := ih
    have hsplit : intRange b ((n + 1 : ℕ) : ℤ) = intRange b (n : ℤ) ++ [b + (n : ℤ)] := by
      rw [intRange_natCast, intRange_natCast, List.range_succ, List.map_append]
      rfl
    rw [hsplit, List.foldl_append]
    simp only [List.foldl_cons, List.foldl_nil]
    have hbody : ∀ s : ErfLoop K, (erfLoopBody N sf g s (b + (n : ℤ))).t = s.t + sf ∧
        (erfLoopBody N sf g s (b + (n : ℤ))).e_last = N.erf (s.t + sf) ∧
        (erfLoopBody N sf g s (b + (n : ℤ))).erfArray =
          Function.update s.erfArray (b + (n : ℤ)) (some (N.erf (s.t + sf) - s.e_last)) := by
      intro s
      unfold erfLoopBody
      cases g <;> simp
    obtain ⟨h1, h2, h3⟩ := hbody ((intRange b (n : ℤ)).foldl (erfLoopBody N sf g) s0)
    have et : s0.t + (n : K) * sf + sf = s0.t + ((n + 1 : ℕ) : K) * sf := by
      push_cast
      ring
    refine ⟨?_, ?_, fun i => ?_⟩
    · rw [h1, ht, et]
    · rw [h2, ht, et]
    · rw [h3, ht, hel, et]
      by_cases hi : i = b + (n : ℤ)
      · subst hi
        have hc : b ≤ b + (n : ℤ) ∧ b + (n : ℤ) < b + ((n + 1 : ℕ) : ℤ) := by
          push_cast
          omega
        rw [Function.update_same, if_pos hc]
        have e1 : (((b + (n : ℤ) - b : ℤ) : K)) = (n : K) := by
          push_cast
          ring
        rw [e1]
        push_cast
        rfl
      · rw [Function.update_noteq hi, harr i]
        have hiff : (b ≤ i ∧ i < b + ((n + 1 : ℕ) : ℤ)) ↔
            (b ≤ i ∧ i < b + (n : ℤ)) := by
          push_cast
          omega
        by_cases hc : b ≤ i ∧ i < b + (n : ℤ)
        · rw [if_pos hc, if_pos (hiff.2 hc)]
        · rw [if_neg hc, if_neg (fun h => hc (hiff.1 h))]

/-- Every entry of the array `erfArray` returned by `ComputeErrorFunctionArray`: written
with the closed-form difference inside `[begin, end)`, never written outside. -/
theorem erfArray_closed_form (N : Numerics K) (self : GaussianInterpolateImageFunction K D)
    (d : Fin D) (c : K) (g : Bool) (i : ℤ) :
    (ComputeErrorFunctionArray N self d c g).erfArray i =
      if rangeBegin (self.m_BoundingBoxStart d) (self.m_CutoffDistance d) c ≤ i ∧
          i < rangeEnd (boundingBoxSize (self.m_BoundingBoxStart d) (self.m_BoundingBoxEnd d))
            (self.m_BoundingBoxStart d) (self.m_CutoffDistance d) c then
        some (N.erf ((self.m_BoundingBoxStart d - c + (i : K) + 1) * self.m_ScalingFactor d) -
          N.erf ((self.m_BoundingBoxStart d - c + (i : K)) * self.m_ScalingFactor d))
      else none := by
  unfold ComputeErrorFunctionArray
  simp only []
  rw [intRange_toNat]
  have hinv := erfLoop_invariant N (self.m_ScalingFactor d) g
    (rangeBegin (self.m_BoundingBoxStart d) (self.m_CutoffDistance d) c)
    (erfLoopInit N self d c g) (by simp [erfLoopInit])
    ((rangeEnd (boundingBoxSize (self.m_BoundingBoxStart d) (self.m_BoundingBoxEnd d))
      (self.m_BoundingBoxStart d) (self.m_CutoffDistance d) c -
      rangeBegin (self.m_BoundingBoxStart d) (self.m_CutoffDistance d) c).toNat)
  rw [hinv.2.2 i]
  set b := rangeBegin (self.m_BoundingBoxStart d) (self.m_CutoffDistance d) c with hb
  set e := rangeEnd (boundingBoxSize (self.m_BoundingBoxStart d) (self.m_BoundingBoxEnd d))
      (self.m_BoundingBoxStart d) (self.m_CutoffDistance d) c with he
  have hiff : (b ≤ i ∧ i < b + ((e - b).toNat : ℤ)) ↔ (b ≤ i ∧ i < e) := by
    omega
  by_cases hc : b ≤ i ∧ i < e
  · rw [if_pos hc, if_pos (hiff.2 hc)]
    have e1 : (erfLoopInit N self d c g).t + (((i - b : ℤ) : K) + 1) * self.m_ScalingFactor d =
        (self.m_BoundingBoxStart d - c + (i : K) + 1) * self.m_ScalingFactor d := by
      simp only [erfLoopInit, ← hb]
      push_cast
      ring
    have e2 : (erfLoopInit N self d c g).t + ((i - b : ℤ) : K) * self.m_ScalingFactor d =
        (self.m_BoundingBoxStart d - c + (i : K)) * self.m_ScalingFactor d := by
      simp only [erfLoopInit, ← hb]
      push_cast
      ring
    rw [e1, e2]
  · rw [if_neg hc, if_neg (fun h => hc (hiff.1 h))]
    simp [erfLoopInit]

end GaussianInterpolateImageFunction

end ErfArrays

/-! ## Sums over regions -/

section RegionSums

variable {K : Type} [LinearOrderedField K] [FloorRing K] {D : ℕ}

/-- The voxels of a region as a finite set: the product of the per-axis intervals. -/
theorem regionIndices_toFinset (r : ImageRegion D) :
    (regionIndices r).toFinset =
      Fintype.piFinset (fun d => Finset.Ico (r.index d) (r.index d + r.size d)) := by
  ext v
  simp [mem_regionIndices, Fintype.mem_piFinset, Finset.mem_Ico]

theorem sum_map_regionIndices (r : ImageRegion D) (f : (Fin D → ℤ) → K) :
    ((regionIndices r).map f).sum =
      ∑ v in Fintype.piFinset (fun d => Finset.Ico (r.index d) (r.index d + r.size d)), f v := by
  rw [← regionIndices_toFinset, List.sum_toFinset f (nodup_regionIndices r)]

theorem foldl_add_eq_sum {α : Type} (l : List α) (f : α → K) (a : K) :
    l.foldl (fun s x => s + f x) a = a + (l.map f).sum := by
  induction l generalizing a with
  | nil => simp
  | cons x xs ih =>
    simp only [List.foldl_cons, List.map_cons, List.sum_cons]
    rw [ih]
    ring

theorem foldl_mul_eq_prod {α : Type} (l : List α) (f : α → K) (a : K) :
    l.foldl (fun w x => w * f x) a = a * (l.map f).prod := by
  induction l generalizing a with
  | nil => simp
  | cons x xs ih =>
    simp only [List.foldl_cons, List.map_cons, List.prod_cons]
    rw [ih]
    ring

namespace GaussianInterpolateImageFunction

/-- The voxel weight the loop builds by repeated multiplication is the product of the
per-axis array entries over all axes. -/
theorem voxelWeight_eq_prod [NeZero D] (erfArray : Fin D → ℤ → Option K)
    (idx : Fin D → ℤ) :
    voxelWeight erfArray idx = ∏ d, readArray (erfArray d) (idx d) := by
  unfold voxelWeight
  rw [foldl_mul_eq_prod]
  rcases D with _ | n
  · exact absurd rfl (NeZero.ne 0)
  · rw [List.finRange_succ_eq_map, List.tail_cons, List.map_map, Fin.prod_univ_succ,
      Fin.prod_univ_def]
    rfl

theorem foldl_voxelBody_sum_me [NeZero D] (image : Image K D)
    (erfArray gerfArray : Fin D → ℤ → Option K) (g : Bool) (l : List (Fin D → ℤ))
    (s : Sums K D) :
    (l.foldl (voxelBody image erfArray gerfArray g) s).sum_me =
      s.sum_me + (l.map (fun idx => image.pixel idx * voxelWeight erfArray idx)).sum := by
  induction l generalizing s with
  | nil => simp
  | cons x xs ih =>
    simp only [List.foldl_cons, List.map_cons, List.sum_cons]
    rw [ih]
    cases g <;> simp [voxelBody, add_assoc]

theorem foldl_voxelBody_sum_m [NeZero D] (image : Image K D)
    (erfArray gerfArray : Fin D → ℤ → Option K) (g : Bool) (l : List (Fin D → ℤ))
    (s : Sums K D) :
    (l.foldl (voxelBody image erfArray gerfArray g) s).sum_m =
      s.sum_m + (l.map (fun idx => voxelWeight erfArray idx)).sum := by
  induction l generalizing s with
  | nil => simp
  | cons x xs ih =>
    simp only [List.foldl_cons, List.map_cons, List.sum_cons]
    rw [ih]
    cases g <;> simp [voxelBody, add_assoc]

end GaussianInterpolateImageFunction

end RegionSums

/-! ## Adjoint splatting -/

section Splat

variable {K : Type} [LinearOrderedField K] [FloorRing K] {D : ℕ}

/-- The model of `GetInverse` is the matrix inverse. -/
theorem GetInverse_eq_inv (A : Matrix (Fin D) (Fin D) K) : GetInverse A = A⁻¹ := by
  rw [Matrix.inv_def, Ring.inverse_eq_inv']
  rfl

/-- Folding `buf[idx] += a idx` over a duplicate-free list of indices adds `a v` at
every listed position `v` and leaves the other positions alone. -/
theorem foldl_update_add {α : Type} [DecidableEq α] (a : α → K) :
    ∀ (l : List α), l.Nodup → ∀ (buf : α → K) (v : α),
      (l.foldl (fun buf idx => Function.update buf idx (buf idx + a idx)) buf) v =
        if v ∈ l then buf v + a v else buf v
  | [], _, buf, v => by simp
  | x :: xs, hl, buf, v => by
    rw [List.nodup_cons] at hl
    simp only [List.foldl_cons]
    rw [foldl_update_add a xs hl.2]
    by_cases hvx : v = x
    · subst hvx
      simp [hl.1]
    · have hm : v ∈ x :: xs ↔ v ∈ xs := by simp [hvx]
      by_cases hv : v ∈ xs
      · simp [hv, hvx, Function.update_noteq hvx]
      · simp [hv, hvx, Function.update_noteq hvx]

namespace AdjointOrientedGaussianInterpolateImageFilter

theorem localSum_eq_sum (N : Numerics K)
    (self : AdjointOrientedGaussianInterpolateImageFilter K D)
    (c : Fin D → K) :
    localSum N self c =
      ((regionIndices (outputRegion self c)).map
        (fun u => ComputeExponentialFunction N u c (CovScaledInv self))).sum := by
  unfold localSum
  rw [foldl_add_eq_sum, zero_add]

/-- The effect of one source sample on one destination voxel. -/
theorem splatSample_apply (N : Numerics K)
    (self : AdjointOrientedGaussianInterpolateImageFilter K D)
    (c : Fin D → K) (x : K) (buf : (Fin D → ℤ) → K) (v : Fin D → ℤ) :
    splatSample N self c x buf v =
      if v ∈ regionIndices (outputRegion self c) then
        buf v + x * ComputeExponentialFunction N v c (CovScaledInv self) / localSum N self c
      else buf v := by
  unfold splatSample
  exact foldl_update_add
    (fun idx => x * ComputeExponentialFunction N idx c (CovScaledInv self) / localSum N self c)
    _ (nodup_regionIndices _) buf v

/-- The effect of a list of source samples on one destination voxel. -/
theorem splatSamples_apply (N : Numerics K)
    (self : AdjointOrientedGaussianInterpolateImageFilter K D)
    (g : Geometry K D) (input : Image K D) :
    ∀ (samples : List (Fin D → ℤ)) (buf : (Fin D → ℤ) → K) (v : Fin D → ℤ),
      splatSamples N self g input samples buf v =
        buf v + (samples.map (fun i =>
          if v ∈ regionIndices (outputRegion self (g.outputCIndex i)) then
            input.pixel i *
              ComputeExponentialFunction N v (g.outputCIndex i) (CovScaledInv self) /
              localSum N self (g.outputCIndex i)
          else 0)).sum
  | [], buf, v => by simp [splatSamples]
  | i :: rest, buf, v => by
    have h := splatSamples_apply N self g input rest
      (splatSample N self (g.outputCIndex i) (input.pixel i) buf) v
    unfold splatSamples at h ⊢
    simp only [List.foldl_cons, List.map_cons, List.sum_cons]
    rw [h, splatSample_apply]
    by_cases hv : v ∈ regionIndices (outputRegion self (g.outputCIndex i))
    · simp only [if_pos hv]
      ring
    · simp only [if_neg hv]
      ring

end AdjointOrientedGaussianInterpolateImageFilter

end Splat

/-! ## Kernel weight -/

section KernelWeight

variable {K : Type} [LinearOrderedField K] [FloorRing K] {D : ℕ}

/-- The kernel weight as a quadratic form, and its value for a diagonal covariance. -/
theorem kernel_weight_forms (N : Numerics K)
    (self : AdjointOrientedGaussianInterpolateImageFilter K D) (p : Fin D → ℤ)
    (c : Fin D → K) :
    AdjointOrientedGaussianInterpolateImageFilter.ComputeExponentialFunction N p c
        self.CovScaledInv =
      N.exp (-(1 / 2) * Matrix.dotProduct (fun i => (p i : K) - c i)
        ((Matrix.diagonal self.output.spacing * self.m_Covariance⁻¹ *
          Matrix.diagonal self.output.spacing).mulVec (fun i => (p i : K) - c i))) ∧
    ∀ sigma : Fin D → K, (∀ d, sigma d ≠ 0) →
      self.m_Covariance = Matrix.diagonal (fun d => sigma d ^ 2) →
      AdjointOrientedGaussianInterpolateImageFilter.ComputeExponentialFunction N p c
          self.CovScaledInv =
        N.exp (-(1 / 2) * ∑ d, (((p d : K) - c d) * self.output.spacing d / sigma d) ^ 2) := by
  have hS : (fun i j => if i = j then self.output.spacing i else 0 :
      Matrix (Fin D) (Fin D) K) = Matrix.diagonal self.output.spacing := by
    ext i j
    simp [Matrix.diagonal_apply]
  have hM : self.CovScaledInv = Matrix.diagonal self.output.spacing * self.m_Covariance⁻¹ *
      Matrix.diagonal self.output.spacing := by
    unfold AdjointOrientedGaussianInterpolateImageFilter.CovScaledInv
    simp only []
    rw [hS, GetInverse_eq_inv]
  refine ⟨?_, ?_⟩
  · rw [hM]
    rfl
  · intro sigma hsigma hcov
    rw [hM, hcov, Matrix.inv_diagonal, Matrix.diagonal_mul_diagonal, Matrix.diagonal_mul_diagonal]
    unfold AdjointOrientedGaussianInterpolateImageFilter.ComputeExponentialFunction
    simp only [Matrix.mulVec_diagonal, Matrix.dotProduct]
    congr 2
    refine Finset.sum_congr rfl (fun d _ => ?_)
    have hne : sigma d ^ 2 ≠ 0 := pow_ne_zero 2 (hsigma d)
    have hinv : Ring.inverse (fun d => sigma d ^ 2) d = (sigma d ^ 2)⁻¹ := by
      have hu : Ring.inverse (fun d => sigma d ^ 2) = fun d => (sigma d ^ 2)⁻¹ :=
        Ring.inverse_unit
          (⟨fun d => sigma d ^ 2, fun d => (sigma d ^ 2)⁻¹,
            by funext i; simp [hsigma i], by funext i; simp [hsigma i]⟩ : (Fin D → K)ˣ)
      rw [hu]
    rw [hinv]
    field_simp
    ring

end KernelWeight

/-! ## Transposition -/

section Transposition

variable {K : Type} [LinearOrderedField K] [FloorRing K] {D : ℕ}

theorem sum_list_sum_comm {ι α : Type} (s : Finset α) (l : List ι) (F : ι → α → K) :
    ∑ v in s, (l.map (fun i => F i v)).sum = (l.map (fun i => ∑ v in s, F i v)).sum := by
  induction l with
  | nil => simp
  | cons i rest ih => simp [Finset.sum_add_distrib, ih]

namespace AdjointOrientedGaussianInterpolateImageFilter

/-- After `BeforeThreadedGenerateData` every sample's region lies inside the output
grid. -/
theorem outputRegion_subset_grid (self : AdjointOrientedGaussianInterpolateImageFilter K D)
    (c : Fin D → K) :
    (regionIndices ((self.BeforeThreadedGenerateData).outputRegion c)).toFinset ⊆
      (regionIndices ⟨fun _ => 0, fun d => (self.output.size d : ℤ)⟩).toFinset := by
  intro v hv
  rw [List.mem_toFinset] at hv ⊢
  rw [mem_regionIndices]
  intro d
  have hm := (mem_outputRegion _ c v).1 hv d
  have hsz : boundingBoxSize ((self.BeforeThreadedGenerateData).m_BoundingBoxStart d)
      ((self.BeforeThreadedGenerateData).m_BoundingBoxEnd d) = (self.output.size d : ℤ) :=
    boundingBoxSize_ComputeBoundingBox
      { self with output := { self.output with pixel := fun _ => 0 } } d
  have h0 : 0 ≤ boundingBoxSize ((self.BeforeThreadedGenerateData).m_BoundingBoxStart d)
      ((self.BeforeThreadedGenerateData).m_BoundingBoxEnd d) := by
    rw [hsz]
    exact Int.natCast_nonneg _
  have hb := boxBegin_nonneg_of (self.BeforeThreadedGenerateData) c d h0
  have he := boxEnd_le_of (self.BeforeThreadedGenerateData) c d h0
  simp only []
  omega

end AdjointOrientedGaussianInterpolateImageFilter

/-- The inner product of the splatted buffer with `y` is the sum over the samples of the
source value times the kernel average of `y` around the sample. -/
theorem adjointInnerProduct_eq (N : Numerics K)
    (flt : AdjointOrientedGaussianInterpolateImageFilter K D) (g : Geometry K D)
    (input : Image K D) (samples : List (Fin D → ℤ)) (y : Image K D) :
    adjointInnerProduct N flt g input samples y =
      (samples.map (fun i =>
        input.pixel i *
          kernelAverage N (flt.BeforeThreadedGenerateData) (g.outputCIndex i) y.pixel)).sum := by
  unfold adjointInnerProduct innerProduct
  rw [← List.sum_toFinset _ (nodup_regionIndices _)]
  have hterm : ∀ v : Fin D → ℤ,
      (flt.BeforeThreadedGenerateData).splatSamples N g input samples
          (flt.BeforeThreadedGenerateData).output.pixel v * y.pixel v =
        (samples.map (fun i =>
          (if v ∈ (regionIndices
              ((flt.BeforeThreadedGenerateData).outputRegion (g.outputCIndex i))).toFinset then
            input.pixel i *
              AdjointOrientedGaussianInterpolateImageFilter.ComputeExponentialFunction N v
                (g.outputCIndex i) (flt.BeforeThreadedGenerateData).CovScaledInv /
              (flt.BeforeThreadedGenerateData).localSum N (g.outputCIndex i) * y.pixel v
          else 0))).sum := by
    intro v
    rw [AdjointOrientedGaussianInterpolateImageFilter.splatSamples_apply]
    have h0 : (flt.BeforeThreadedGenerateData).output.pixel v = 0 := rfl
    rw [h0, zero_add, ← List.sum_map_mul_right]
    congr 1
    refine List.map_congr_left (fun i _ => ?_)
    by_cases hv : v ∈ regionIndices
        ((flt.BeforeThreadedGenerateData).outputRegion (g.outputCIndex i))
    · rw [if_pos hv, if_pos (List.mem_toFinset.2 hv)]
    · rw [if_neg hv, if_neg (fun h => hv (List.mem_toFinset.1 h)), zero_mul]
  rw [Finset.sum_congr rfl (fun v _ => hterm v), sum_list_sum_comm]
  congr 1
  refine List.map_congr_left (fun i _ => ?_)
  rw [Finset.sum_ite_mem, Finset.inter_eq_right.2
    (AdjointOrientedGaussianInterpolateImageFilter.outputRegion_subset_grid flt _),
    List.sum_toFinset _ (nodup_regionIndices _)]
  unfold kernelAverage
  rw [div_eq_mul_inv, ← List.sum_map_mul_right, ← List.sum_map_mul_left]
  congr 1
  refine List.map_congr_left (fun v _ => ?_)
  ring

end Transposition

/-! ## The real error function -/

section RealErf

theorem gauss_intervalIntegrable (a b : ℝ) :
    IntervalIntegrable (fun x : ℝ => Real.exp (-(x * x))) MeasureTheory.volume a b :=
  (Real.continuous_exp.comp (continuous_id.mul continuous_id).neg).intervalIntegrable a b

theorem realErf_sub (a b : ℝ) :
    realErf b - realErf a =
      2 / Real.sqrt Real.pi * ∫ x in a..b, Real.exp (-(x * x)) := by
  unfold realErf
  rw [← mul_sub, intervalIntegral.integral_interval_sub_left (gauss_intervalIntegrable 0 b)
    (gauss_intervalIntegrable 0 a)]

theorem gauss_integral_le (a b : ℝ) (hab : a ≤ b) :
    ∫ x in a..b, Real.exp (-(x * x)) ≤ b - a := by
  have h := intervalIntegral.integral_mono_on hab (gauss_intervalIntegrable a b)
    (intervalIntegrable_const (c := (1 : ℝ)) (μ := MeasureTheory.volume) (a := a) (b := b))
    (fun x _ => by
      rw [Real.exp_le_one_iff]
      nlinarith [mul_self_nonneg x])
  simpa using h

theorem gauss_integral_ge (a b c d : ℝ) (hac : a ≤ c) (hcd : c ≤ d) (hdb : d ≤ b)
    (hc : 0 ≤ c) :
    (d - c) * Real.exp (-(d * d)) ≤ ∫ x in a..b, Real.exp (-(x * x)) := by
  have hnn : ∀ u v : ℝ, u ≤ v → 0 ≤ ∫ x in u..v, Real.exp (-(x * x)) := fun u v huv =>
    intervalIntegral.integral_nonneg huv (fun x _ => (Real.exp_pos _).le)
  have h1 : ∫ x in a..b, Real.exp (-(x * x)) =
      (∫ x in a..c, Real.exp (-(x * x))) + ((∫ x in c..d, Real.exp (-(x * x))) +
        ∫ x in d..b, Real.exp (-(x * x))) := by
    rw [intervalIntegral.integral_add_adjacent_intervals (gauss_intervalIntegrable c d)
      (gauss_intervalIntegrable d b),
      intervalIntegral.integral_add_adjacent_intervals (gauss_intervalIntegrable a c)
      (gauss_intervalIntegrable c b)]
  have h2 : (d - c) * Real.exp (-(d * d)) ≤ ∫ x in c..d, Real.exp (-(x * x)) := by
    have h := intervalIntegral.integral_mono_on hcd
      (intervalIntegrable_const (c := Real.exp (-(d * d))) (μ := MeasureTheory.volume)
        (a := c) (b := d))
      (gauss_intervalIntegrable c d)
      (fun x hx => by
        rw [Real.exp_le_exp]
        have hx1 : c ≤ x := hx.1
        have hx2 : x ≤ d := hx.2
        nlinarith)
    simpa using h
  have := hnn a c hac
  have := hnn d b hdb
  linarith

theorem erf_gap (s : ℝ) (h1 : 8 / 3 ≤ s) (h2 : s ≤ 6) :
    Real.exp (-32) * (realErf (1 / 2 * s) - realErf (-(1 / 2) * s)) <
      realErf (3 / 2 * s) - realErf (1 / 2 * s) := by
  rw [realErf_sub, realErf_sub]
  have hk : 0 < 2 / Real.sqrt Real.pi := by positivity
  have hw0 := gauss_integral_le (-(1 / 2) * s) (1 / 2 * s) (by linarith)
  have hw1 := gauss_integral_ge (1 / 2 * s) (3 / 2 * s) 3 4 (by linarith) (by norm_num)
    (by linarith) (by norm_num)
  have he : Real.exp (-32) * 6 < Real.exp (-(4 * 4)) := by
    have h16 : (17 : ℝ) ≤ Real.exp 16 := by
      have := Real.add_one_le_exp (16 : ℝ)
      linarith
    have e1 : Real.exp (-(4 * 4 : ℝ)) = Real.exp (-32) * Real.exp 16 := by
      rw [← Real.exp_add]
      norm_num
    rw [e1]
    have := Real.exp_pos (-32)
    nlinarith
  have hI0 : (∫ x in (-(1 / 2) * s)..(1 / 2 * s), Real.exp (-(x * x))) ≤ 6 := by linarith
  have hI1 : Real.exp (-(4 * 4)) ≤ ∫ x in (1 / 2 * s)..(3 / 2 * s), Real.exp (-(x * x)) := by
    linarith
  have hpos := Real.exp_pos (-32)
  have : Real.exp (-32) * (∫ x in (-(1 / 2) * s)..(1 / 2 * s), Real.exp (-(x * x))) <
      ∫ x in (1 / 2 * s)..(3 / 2 * s), Real.exp (-(x * x)) := by
    have hm := mul_le_mul_of_nonneg_left hI0 hpos.le
    exact lt_of_le_of_lt hm (lt_of_lt_of_le he hI1)
  calc Real.exp (-32) * (2 / Real.sqrt Real.pi *
        ∫ x in (-(1 / 2) * s)..(1 / 2 * s), Real.exp (-(x * x)))
      = 2 / Real.sqrt Real.pi * (Real.exp (-32) *
        ∫ x in (-(1 / 2) * s)..(1 / 2 * s), Real.exp (-(x * x))) := by ring
    _ < 2 / Real.sqrt Real.pi * ∫ x in (1 / 2 * s)..(3 / 2 * s), Real.exp (-(x * x)) :=
        mul_lt_mul_of_pos_left this hk

end RealErf

/-! ## Evaluations on a two-voxel line -/

section Concrete

variable {K : Type} [LinearOrderedField K] [FloorRing K]

/-- On a line, the indices of a region are its integer range. -/
theorem regionIndices_line (r : ImageRegion 1) :
    regionIndices r = (intRange (r.index 0) (r.size 0)).map (fun j => fun _ => j) := by
  have h : ∀ j : ℤ, (Fin.cons j (fun i : Fin 0 => i.elim0) : Fin 1 → ℤ) = fun _ => j := by
    intro j
    funext i
    refine Fin.cases ?_ (fun k => k.elim0) i
    rfl
  simp [regionIndices, h]

theorem intRange_zero_two : intRange 0 2 = [0, 1] := by
  simp [intRange, List.range_succ]

theorem lineInterpolator_far_begin (N : Numerics K) :
    rangeBegin ((lineInterpolator N (1 / 8) 8).m_BoundingBoxStart 0)
      ((lineInterpolator N (1 / 8) 8).m_CutoffDistance 0) (100 : K) = 99 := by
  have h : ⌊(100 : K) - -(1 / 2) - 1 / 8 * 8 / 1⌋ = 99 := by
    rw [Int.floor_eq_iff]
    constructor <;> norm_num
  simp only [lineInterpolator, lineInterpolatorInit,
    GaussianInterpolateImageFunction.ComputeBoundingBox, lineImage,
    rangeBegin, h]
  rfl

theorem lineInterpolator_far_end (N : Numerics K) :
    rangeEnd (boundingBoxSize ((lineInterpolator N (1 / 8) 8).m_BoundingBoxStart 0)
        ((lineInterpolator N (1 / 8) 8).m_BoundingBoxEnd 0))
      ((lineInterpolator N (1 / 8) 8).m_BoundingBoxStart 0)
      ((lineInterpolator N (1 / 8) 8).m_CutoffDistance 0) (100 : K) = 2 := by
  have h : ⌈(100 : K) - -(1 / 2) + 1 / 8 * 8 / 1⌉ = 102 := by
    rw [Int.ceil_eq_iff]
    constructor <;> norm_num
  have hs : boundingBoxSize (-(1 / 2) : K) (((2 : ℕ) : K) - 1 / 2) = ((2 : ℕ) : ℤ) :=
    boundingBoxSize_eq_size 2
  simp only [lineInterpolator, lineInterpolatorInit,
    GaussianInterpolateImageFunction.ComputeBoundingBox, lineImage,
    rangeEnd, h, hs]
  rfl

theorem lineInterpolator_origin_begin (N : Numerics K) :
    rangeBegin ((lineInterpolator N (1 / 8) 8).m_BoundingBoxStart 0)
      ((lineInterpolator N (1 / 8) 8).m_CutoffDistance 0) (0 : K) = 0 := by
  have h : ⌊(0 : K) - -(1 / 2) - 1 / 8 * 8 / 1⌋ = -1 := by
    rw [Int.floor_eq_iff]
    constructor <;> norm_num
  simp only [lineInterpolator, lineInterpolatorInit,
    GaussianInterpolateImageFunction.ComputeBoundingBox, lineImage,
    rangeBegin, h]
  rfl

theorem lineInterpolator_origin_end (N : Numerics K) :
    rangeEnd (boundingBoxSize ((lineInterpolator N (1 / 8) 8).m_BoundingBoxStart 0)
        ((lineInterpolator N (1 / 8) 8).m_BoundingBoxEnd 0))
      ((lineInterpolator N (1 / 8) 8).m_BoundingBoxStart 0)
      ((lineInterpolator N (1 / 8) 8).m_CutoffDistance 0) (0 : K) = 2 := by
  have h : ⌈(0 : K) - -(1 / 2) + 1 / 8 * 8 / 1⌉ = 2 := by
    rw [Int.ceil_eq_iff]
    constructor <;> norm_num
  have hs : boundingBoxSize (-(1 / 2) : K) (((2 : ℕ) : K) - 1 / 2) = ((2 : ℕ) : ℤ) :=
    boundingBoxSize_eq_size 2
  simp only [lineInterpolator, lineInterpolatorInit,
    GaussianInterpolateImageFunction.ComputeBoundingBox, lineImage,
    rangeEnd, h, hs]
  rfl

theorem lineInterpolator_origin_region (N : Numerics K) :
    regionIndices ((lineInterpolator N (1 / 8) 8).activeRegion (fun _ => (0 : K))) =
      [fun _ => 0, fun _ => 1] := by
  rw [regionIndices_line]
  simp only [GaussianInterpolateImageFunction.activeRegion, lineInterpolator_origin_begin,
    lineInterpolator_origin_end]
  norm_num [intRange_zero_two]

/-- The forward evaluator on the two-voxel line at the continuous index `0`
(`sigma = 1/8`, `alpha = 8`): both voxels are active and, for `y = (0, 1)`, the value is
`W1 / (W0 + W1)` with the two error-function differences `W0`, `W1`. -/
theorem lineInterpolator_origin_value (N : Numerics K) :
    (lineInterpolator N (1 / 8) 8).EvaluateAtContinuousIndex N lineImage
        (fun _ => (0 : K)) false =
      (N.erf (3 / 2 * (1 / (N.sqrt2 * (1 / 8) / 1))) -
          N.erf (1 / 2 * (1 / (N.sqrt2 * (1 / 8) / 1)))) /
        ((N.erf (1 / 2 * (1 / (N.sqrt2 * (1 / 8) / 1))) -
            N.erf (-(1 / 2) * (1 / (N.sqrt2 * (1 / 8) / 1)))) +
          (N.erf (3 / 2 * (1 / (N.sqrt2 * (1 / 8) / 1))) -
            N.erf (1 / 2 * (1 / (N.sqrt2 * (1 / 8) / 1))))) := by
  unfold GaussianInterpolateImageFunction.EvaluateAtContinuousIndex
    GaussianInterpolateImageFunction.evaluateSums
  simp only []
  rw [GaussianInterpolateImageFunction.foldl_voxelBody_sum_me,
    GaussianInterpolateImageFunction.foldl_voxelBody_sum_m, lineInterpolator_origin_region]
  simp only [GaussianInterpolateImageFunction.voxelWeight_eq_prod, Fin.prod_univ_one,
    GaussianInterpolateImageFunction.readArray,
    GaussianInterpolateImageFunction.erfArray_closed_form, lineInterpolator_origin_begin,
    lineInterpolator_origin_end, List.map_cons, List.map_nil, List.sum_cons, List.sum_nil]
  norm_num [lineImage, lineInterpolator, lineInterpolatorInit,
    GaussianInterpolateImageFunction.ComputeBoundingBox]

theorem identityGeometry_origin :
    (identityGeometry : Geometry K 1).outputCIndex (fun _ => 0) = fun _ => (0 : K) := by
  funext d
  simp [identityGeometry, Geometry.outputCIndex]

theorem lineFilter_origin_begin :
    ((lineFilter (1 / 8 : K) 8).BeforeThreadedGenerateData).boxBegin (fun _ => (0 : K)) 0 = 0 := by
  have h : ⌊(0 : K) - -(1 / 2) - 1 / 8 * 8 / 1⌋ = -1 := by
    rw [Int.floor_eq_iff]
    constructor <;> norm_num
  have hs : boundingBoxSize (-(1 / 2) : K) (((2 : ℕ) : K) - 1 / 2) = ((2 : ℕ) : ℤ) :=
    boundingBoxSize_eq_size 2
  simp only [AdjointOrientedGaussianInterpolateImageFilter.boxBegin,
    AdjointOrientedGaussianInterpolateImageFilter.BeforeThreadedGenerateData,
    AdjointOrientedGaussianInterpolateImageFilter.ComputeBoundingBox, lineFilter, lineImage,
    rangeBegin, h, hs]
  rfl

theorem lineFilter_origin_end :
    ((lineFilter (1 / 8 : K) 8).BeforeThreadedGenerateData).boxEnd (fun _ => (0 : K)) 0 = 2 := by
  have h : ⌈(0 : K) - -(1 / 2) + 1 / 8 * 8 / 1⌉ = 2 := by
    rw [Int.ceil_eq_iff]
    constructor <;> norm_num
  have hs : boundingBoxSize (-(1 / 2) : K) (((2 : ℕ) : K) - 1 / 2) = ((2 : ℕ) : ℤ) :=
    boundingBoxSize_eq_size 2
  simp only [AdjointOrientedGaussianInterpolateImageFilter.boxEnd,
    AdjointOrientedGaussianInterpolateImageFilter.BeforeThreadedGenerateData,
    AdjointOrientedGaussianInterpolateImageFilter.ComputeBoundingBox, lineFilter, lineImage,
    rangeEnd, h, hs]
  rfl

theorem lineFilter_origin_region :
    regionIndices (((lineFilter (1 / 8 : K) 8).BeforeThreadedGenerateData).outputRegion
      (fun _ => (0 : K))) = [fun _ => 0, fun _ => 1] := by
  rw [regionIndices_line]
  simp only [AdjointOrientedGaussianInterpolateImageFilter.outputRegion,
    lineFilter_origin_begin, lineFilter_origin_end]
  norm_num [intRange_zero_two]

theorem lineFilter_weight (N : Numerics K) (p : Fin 1 → ℤ) :
    AdjointOrientedGaussianInterpolateImageFilter.ComputeExponentialFunction N p
        (fun _ => (0 : K)) ((lineFilter (1 / 8 : K) 8).BeforeThreadedGenerateData).CovScaledInv =
      N.exp (-(1 / 2) * ((p 0 : K) * 8) ^ 2) := by
  have hcov : ((lineFilter (1 / 8 : K) 8).BeforeThreadedGenerateData).m_Covariance =
      Matrix.diagonal (fun _ : Fin 1 => (1 / 8 : K) ^ 2) := by
    ext i j
    have hi : i = 0 := Subsingleton.elim _ _
    have hj : j = 0 := Subsingleton.elim _ _
    subst hi hj
    simp [AdjointOrientedGaussianInterpolateImageFilter.BeforeThreadedGenerateData,
      AdjointOrientedGaussianInterpolateImageFilter.ComputeBoundingBox, lineFilter]
    norm_num
  rw [(kernel_weight_forms N _ p (fun _ => (0 : K))).2 (fun _ => (1 / 8 : K))
    (fun _ => by norm_num) hcov]
  simp [AdjointOrientedGaussianInterpolateImageFilter.BeforeThreadedGenerateData,
    AdjointOrientedGaussianInterpolateImageFilter.ComputeBoundingBox, lineFilter, lineImage]

/-- The adjoint pass on the two-voxel line for the single source sample `x = 1` landing on
the continuous index `0` (`sigma = 1/8`, `alpha = 8`): for `y = (0, 1)` the inner product
`⟨Adjoint(x), y⟩` is `e1 / (e0 + e1)` with `e0 = exp(-0.5 * 0)` and
`e1 = exp(-0.5 * 8²)`. -/
theorem lineFilter_origin_value (N : Numerics K) :
    adjointInnerProduct N (lineFilter (1 / 8 : K) 8) identityGeometry pointImage
        [fun _ => 0] lineImage =
      N.exp (-(1 / 2) * 8 ^ 2) / (N.exp (-(1 / 2) * 0 ^ 2) + N.exp (-(1 / 2) * 8 ^ 2)) := by
  rw [adjointInnerProduct_eq]
  simp only [List.map_cons, List.map_nil, List.sum_cons, List.sum_nil, identityGeometry_origin]
  unfold kernelAverage
  rw [AdjointOrientedGaussianInterpolateImageFilter.localSum_eq_sum, lineFilter_origin_region]
  simp only [List.map_cons, List.map_nil, List.sum_cons, List.sum_nil, lineFilter_weight]
  norm_num [lineImage, pointImage]

theorem lineFilter_far_begin :
    ((lineFilter (1 / 8 : K) 8).BeforeThreadedGenerateData).boxBegin
      (fun _ => (100 : K)) 0 = 2 := by
  have h : ⌊(100 : K) - -(1 / 2) - 1 / 8 * 8 / 1⌋ = 99 := by
    rw [Int.floor_eq_iff]
    constructor <;> norm_num
  have hs : boundingBoxSize (-(1 / 2) : K) (((2 : ℕ) : K) - 1 / 2) = ((2 : ℕ) : ℤ) :=
    boundingBoxSize_eq_size 2
  simp only [AdjointOrientedGaussianInterpolateImageFilter.boxBegin,
    AdjointOrientedGaussianInterpolateImageFilter.BeforeThreadedGenerateData,
    AdjointOrientedGaussianInterpolateImageFilter.ComputeBoundingBox, lineFilter, lineImage,
    rangeBegin, h, hs]
  rfl

theorem lineFilter_far_end :
    ((lineFilter (1 / 8 : K) 8).BeforeThreadedGenerateData).boxEnd (fun _ => (100 : K)) 0 = 2 := by
  have h : ⌈(100 : K) - -(1 / 2) + 1 / 8 * 8 / 1⌉ = 102 := by
    rw [Int.ceil_eq_iff]
    constructor <;> norm_num
  have hs : boundingBoxSize (-(1 / 2) : K) (((2 : ℕ) : K) - 1 / 2) = ((2 : ℕ) : ℤ) :=
    boundingBoxSize_eq_size 2
  simp only [AdjointOrientedGaussianInterpolateImageFilter.boxEnd,
    AdjointOrientedGaussianInterpolateImageFilter.BeforeThreadedGenerateData,
    AdjointOrientedGaussianInterpolateImageFilter.ComputeBoundingBox, lineFilter, lineImage,
    rangeEnd, h, hs]
  rfl

theorem lineFilter_covariance :
    (lineFilter (1 / 8 : K) 8).m_Covariance =
      Matrix.diagonal (fun _ : Fin 1 => (1 / 8 : K) ^ 2) := by
  ext i j
  have hi : i = 0 := Subsingleton.elim _ _
  have hj : j = 0 := Subsingleton.elim _ _
  subst hi hj
  simp [lineFilter]
  norm_num

theorem lineFilter_cutoff :
    ((lineFilter (1 / 8 : K) 8).ComputeBoundingBox).m_CutoffDistance 0 = 1 := by
  simp [AdjointOrientedGaussianInterpolateImageFilter.ComputeBoundingBox, lineFilter, lineImage]

end Concrete

/-! ## Claims -/

section Claims

variable {K : Type} [LinearOrderedField K] [FloorRing K] {D : ℕ}

/-- C1 (counterexample): on a two-voxel line with unit spacing, `sigma = 1/8`, `alpha = 8`
on both sides, the single source sample `x = 1` landing on the destination continuous
index `0` and `y = (0, 1)`, the inner product `⟨Adjoint(x), y⟩ = e⁻³² / (1 + e⁻³²)`
differs from `⟨x, Forward(y)⟩ = W1 / (W0 + W1)`, the value of
`EvaluateAtContinuousIndex`, whose weights are differences of the error function. -/
theorem C1_counterexample :
    adjointInnerProduct realNumerics (lineFilter (1 / 8 : ℝ) 8) identityGeometry pointImage
        [fun _ => 0] lineImage ≠
      forwardInnerProduct realNumerics (lineInterpolator realNumerics (1 / 8) 8)
        identityGeometry pointImage [fun _ => 0] lineImage := by
  rw [lineFilter_origin_value]
  unfold forwardInnerProduct
  simp only [List.map_cons, List.map_nil, List.sum_cons, List.sum_nil, identityGeometry_origin]
  rw [lineInterpolator_origin_value]
  have hsq : Real.sqrt 2 * Real.sqrt 2 = 2 := Real.mul_self_sqrt (by norm_num)
  have hpos : 0 < Real.sqrt 2 := Real.sqrt_pos.2 (by norm_num)
  have hlo : 4 / 3 ≤ Real.sqrt 2 := by nlinarith
  have hhi : Real.sqrt 2 ≤ 3 := by nlinarith
  have hs : (1 : ℝ) / (Real.sqrt 2 * (1 / 8) / 1) = 8 / Real.sqrt 2 := by
    field_simp
  have hs1 : 8 / 3 ≤ 8 / Real.sqrt 2 := by
    rw [le_div_iff₀ hpos]
    linarith
  have hs2 : 8 / Real.sqrt 2 ≤ 6 := by
    rw [div_le_iff₀ hpos]
    linarith
  have hgap := erf_gap (8 / Real.sqrt 2) hs1 hs2
  have hW0 : 0 ≤
      realErf (1 / 2 * (8 / Real.sqrt 2)) - realErf (-(1 / 2) * (8 / Real.sqrt 2)) := by
    rw [realErf_sub]
    have hk : 0 < 2 / Real.sqrt Real.pi := by positivity
    have hI : 0 ≤ ∫ x in (-(1 / 2) * (8 / Real.sqrt 2))..(1 / 2 * (8 / Real.sqrt 2)),
        Real.exp (-(x * x)) :=
      intervalIntegral.integral_nonneg (by linarith) (fun x _ => (Real.exp_pos _).le)
    exact mul_nonneg hk.le hI
  have he0 : Real.exp (-(1 / 2) * 0 ^ 2) = 1 := by norm_num
  have he1 : Real.exp (-(1 / 2) * 8 ^ 2) = Real.exp (-32) := by norm_num
  have hepos := Real.exp_pos (-32)
  show Real.exp (-(1 / 2) * 8 ^ 2) / (Real.exp (-(1 / 2) * 0 ^ 2) + Real.exp (-(1 / 2) * 8 ^ 2)) ≠
    (1 : ℝ) * ((realErf (3 / 2 * (1 / (Real.sqrt 2 * (1 / 8) / 1))) -
          realErf (1 / 2 * (1 / (Real.sqrt 2 * (1 / 8) / 1)))) /
        ((realErf (1 / 2 * (1 / (Real.sqrt 2 * (1 / 8) / 1))) -
            realErf (-(1 / 2) * (1 / (Real.sqrt 2 * (1 / 8) / 1)))) +
          (realErf (3 / 2 * (1 / (Real.sqrt 2 * (1 / 8) / 1))) -
            realErf (1 / 2 * (1 / (Real.sqrt 2 * (1 / 8) / 1)))))) + 0
  rw [he0, he1, hs]
  set W0 := realErf (1 / 2 * (8 / Real.sqrt 2)) - realErf (-(1 / 2) * (8 / Real.sqrt 2))
  set W1 := realErf (3 / 2 * (8 / Real.sqrt 2)) - realErf (1 / 2 * (8 / Real.sqrt 2))
  have hW1 : 0 < W1 := lt_of_le_of_lt (mul_nonneg hepos.le hW0) hgap
  intro h
  rw [one_mul, add_zero, div_eq_div_iff (by positivity) (by positivity)] at h
  nlinarith

/-- C1 (amended): the adjoint pass is the exact transpose of the locally normalised
average with its own point-sampled kernel.  For every source vector `x` (`input.pixel`),
destination vector `y`, transform and list of source samples,
`⟨Adjoint(x), y⟩ = Σ_i x_i * F_i(y)`, where
`F_i(y) = (Σ_{v ∈ box_i} w_i(v) * y(v)) / (Σ_{v ∈ box_i} w_i(v))` uses the weights
`w_i(v) = ComputeExponentialFunction(v, c_i, CovScaledInv)` over sample `i`'s clamped box
(not the error-function differences of `EvaluateAtContinuousIndex`). -/
theorem C1_adjoint_transposes_kernel_average (N : Numerics K)
    (flt : AdjointOrientedGaussianInterpolateImageFilter K D) (g : Geometry K D)
    (input : Image K D) (samples : List (Fin D → ℤ)) (y : Image K D) :
    adjointInnerProduct N flt g input samples y =
      (samples.map (fun i =>
        input.pixel i *
          ((∑ v in Fintype.piFinset (fun d => Finset.Ico
              ((flt.BeforeThreadedGenerateData).boxBegin (g.outputCIndex i) d)
              ((flt.BeforeThreadedGenerateData).boxEnd (g.outputCIndex i) d)),
            AdjointOrientedGaussianInterpolateImageFilter.ComputeExponentialFunction N v
              (g.outputCIndex i) (flt.BeforeThreadedGenerateData).CovScaledInv * y.pixel v) /
          (∑ v in Fintype.piFinset (fun d => Finset.Ico
              ((flt.BeforeThreadedGenerateData).boxBegin (g.outputCIndex i) d)
              ((flt.BeforeThreadedGenerateData).boxEnd (g.outputCIndex i) d)),
            AdjointOrientedGaussianInterpolateImageFilter.ComputeExponentialFunction N v
              (g.outputCIndex i) (flt.BeforeThreadedGenerateData).CovScaledInv)))).sum := by
  rw [adjointInnerProduct_eq]
  congr 1
  refine List.map_congr_left (fun i _ => ?_)
  unfold kernelAverage
  rw [AdjointOrientedGaussianInterpolateImageFilter.localSum_eq_sum, sum_map_regionIndices,
    sum_map_regionIndices]
  simp only [AdjointOrientedGaussianInterpolateImageFilter.outputRegion, add_sub_cancel]

/-- C2: closed form of a whole adjoint pass run sequentially over any list of source
samples.  Starting from the zero-filled buffer left by `BeforeThreadedGenerateData`, after
the pass every destination voxel `v` holds the sum, over the samples `i` whose clamped box
contains `v`, of `sourceValue_i * w_i(v) / localSum_i`, where `w_i` is the kernel weight
around sample `i`'s destination continuous index and `localSum_i` is the sum of `w_i` over
sample `i`'s box; `ThreadedGenerateData` is this pass over the indices of its region. -/
theorem C2_adjoint_pass_closed_form (N : Numerics K)
    (self : AdjointOrientedGaussianInterpolateImageFilter K D) (g : Geometry K D)
    (input : Image K D) (samples : List (Fin D → ℤ)) (v : Fin D → ℤ) :
    (self.BeforeThreadedGenerateData).splatSamples N g input samples
        (self.BeforeThreadedGenerateData).output.pixel v =
      (samples.map (fun i =>
        if v ∈ regionIndices ((self.BeforeThreadedGenerateData).outputRegion (g.outputCIndex i))
        then
          input.pixel i *
            AdjointOrientedGaussianInterpolateImageFilter.ComputeExponentialFunction N v
              (g.outputCIndex i) (self.BeforeThreadedGenerateData).CovScaledInv /
            (self.BeforeThreadedGenerateData).localSum N (g.outputCIndex i)
        else 0)).sum ∧
    (∀ (c : Fin D → K) (u : Fin D → ℤ),
      u ∈ regionIndices ((self.BeforeThreadedGenerateData).outputRegion c) ↔
        ∀ d, (self.BeforeThreadedGenerateData).boxBegin c d ≤ u d ∧
          u d < (self.BeforeThreadedGenerateData).boxEnd c d) ∧
    (∀ c : Fin D → K,
      (self.BeforeThreadedGenerateData).localSum N c =
        ∑ u in Fintype.piFinset (fun d => Finset.Ico
            ((self.BeforeThreadedGenerateData).boxBegin c d)
            ((self.BeforeThreadedGenerateData).boxEnd c d)),
          AdjointOrientedGaussianInterpolateImageFilter.ComputeExponentialFunction N u c
            (self.BeforeThreadedGenerateData).CovScaledInv) ∧
    (∀ region : ImageRegion D,
      ((self.BeforeThreadedGenerateData).ThreadedGenerateData N g input region).output.pixel =
        (self.BeforeThreadedGenerateData).splatSamples N g input (regionIndices region)
          (self.BeforeThreadedGenerateData).output.pixel) := by
  refine ⟨?_, ?_, ?_, ?_⟩
  · rw [AdjointOrientedGaussianInterpolateImageFilter.splatSamples_apply]
    have h0 : (self.BeforeThreadedGenerateData).output.pixel v = 0 := rfl
    rw [h0, zero_add]
  · intro c u
    exact AdjointOrientedGaussianInterpolateImageFilter.mem_outputRegion _ c u
  · intro c
    rw [AdjointOrientedGaussianInterpolateImageFilter.localSum_eq_sum, sum_map_regionIndices]
    simp only [AdjointOrientedGaussianInterpolateImageFilter.outputRegion, add_sub_cancel]
  · intro region
    rfl

/-- C3: for every continuous index with `begin_d ≤ end_d` on every axis (the size
`end_d - begin_d` handed to `region.SetSize` is then non-negative, so the voxel iterator
exists and the function returns), `EvaluateAtContinuousIndex` returns
`sum_value / sum_weight`, where `sum_value` is the sum over the voxels `j` of the active
region (the product of the per-axis ranges `[begin_d, end_d)`) of `W(j) * V(j)`,
`sum_weight` is the sum of `W(j)` over the same voxels, `V(j)` is the stored intensity and
`W(j)` is the product over all axes of the array entries `erfArray[d][j_d]`, each of which
has been written by `ComputeErrorFunctionArray`. -/
theorem C3_EvaluateAtContinuousIndex_closed_form [NeZero D] (N : Numerics K)
    (self : GaussianInterpolateImageFunction K D) (image : Image K D) (cindex : Fin D → K)
    (g : Bool)
    (hrange : ∀ d,
      rangeBegin (self.m_BoundingBoxStart d) (self.m_CutoffDistance d) (cindex d) ≤
        rangeEnd (boundingBoxSize (self.m_BoundingBoxStart d) (self.m_BoundingBoxEnd d))
          (self.m_BoundingBoxStart d) (self.m_CutoffDistance d) (cindex d)) :
    (∀ d, 0 ≤ (self.activeRegion cindex).size d) ∧
    self.EvaluateAtContinuousIndex N image cindex g =
      (∑ j in Fintype.piFinset (fun d => Finset.Ico
          (rangeBegin (self.m_BoundingBoxStart d) (self.m_CutoffDistance d) (cindex d))
          (rangeEnd (boundingBoxSize (self.m_BoundingBoxStart d) (self.m_BoundingBoxEnd d))
            (self.m_BoundingBoxStart d) (self.m_CutoffDistance d) (cindex d))),
        (∏ d, GaussianInterpolateImageFunction.readArray
          (self.ComputeErrorFunctionArray N d (cindex d) g).erfArray (j d)) * image.pixel j) /
      (∑ j in Fintype.piFinset (fun d => Finset.Ico
          (rangeBegin (self.m_BoundingBoxStart d) (self.m_CutoffDistance d) (cindex d))
          (rangeEnd (boundingBoxSize (self.m_BoundingBoxStart d) (self.m_BoundingBoxEnd d))
            (self.m_BoundingBoxStart d) (self.m_CutoffDistance d) (cindex d))),
        ∏ d, GaussianInterpolateImageFunction.readArray
          (self.ComputeErrorFunctionArray N d (cindex d) g).erfArray (j d)) ∧
    ∀ j ∈ Fintype.piFinset (fun d => Finset.Ico
          (rangeBegin (self.m_BoundingBoxStart d) (self.m_CutoffDistance d) (cindex d))
          (rangeEnd (boundingBoxSize (self.m_BoundingBoxStart d) (self.m_BoundingBoxEnd d))
            (self.m_BoundingBoxStart d) (self.m_CutoffDistance d) (cindex d))),
      ∀ d, (self.ComputeErrorFunctionArray N d (cindex d) g).erfArray (j d) =
        some (GaussianInterpolateImageFunction.readArray
          (self.ComputeErrorFunctionArray N d (cindex d) g).erfArray (j d)) := by
  refine ⟨fun d => ?_, ?_⟩
  · have hd := hrange d
    simp only [GaussianInterpolateImageFunction.activeRegion]
    omega
  constructor
  · unfold GaussianInterpolateImageFunction.EvaluateAtContinuousIndex
      GaussianInterpolateImageFunction.evaluateSums
    simp only []
    rw [GaussianInterpolateImageFunction.foldl_voxelBody_sum_me,
      GaussianInterpolateImageFunction.foldl_voxelBody_sum_m, sum_map_regionIndices,
      sum_map_regionIndices]
    simp only [GaussianInterpolateImageFunction.activeRegion, zero_add, add_sub_cancel,
      GaussianInterpolateImageFunction.voxelWeight_eq_prod]
    congr 1
    refine Finset.sum_congr rfl (fun j _ => ?_)
    ring
  · intro j hj d
    have hjd := (Fintype.mem_piFinset.1 hj) d
    rw [Finset.mem_Ico] at hjd
    rw [GaussianInterpolateImageFunction.readArray,
      GaussianInterpolateImageFunction.erfArray_closed_form, if_pos hjd]
    rfl

/-- Instance of C3 on the two-voxel line (dimension 1) at the continuous index `0`. -/
theorem C3_witness :
    (lineInterpolator realNumerics (1 / 8) 8).EvaluateAtContinuousIndex realNumerics lineImage
        (fun _ => (0 : ℝ)) false =
      (∑ j in Fintype.piFinset (fun d => Finset.Ico
          (rangeBegin ((lineInterpolator realNumerics (1 / 8) 8).m_BoundingBoxStart d)
            ((lineInterpolator realNumerics (1 / 8) 8).m_CutoffDistance d) (0 : ℝ))
          (rangeEnd
            (boundingBoxSize ((lineInterpolator realNumerics (1 / 8) 8).m_BoundingBoxStart d)
              ((lineInterpolator realNumerics (1 / 8) 8).m_BoundingBoxEnd d))
            ((lineInterpolator realNumerics (1 / 8) 8).m_BoundingBoxStart d)
            ((lineInterpolator realNumerics (1 / 8) 8).m_CutoffDistance d) (0 : ℝ))),
        (∏ d, GaussianInterpolateImageFunction.readArray
          ((lineInterpolator realNumerics (1 / 8) 8).ComputeErrorFunctionArray realNumerics d 0
            false).erfArray (j d)) * (lineImage : Image ℝ 1).pixel j) /
      (∑ j in Fintype.piFinset (fun d => Finset.Ico
          (rangeBegin ((lineInterpolator realNumerics (1 / 8) 8).m_BoundingBoxStart d)
            ((lineInterpolator realNumerics (1 / 8) 8).m_CutoffDistance d) (0 : ℝ))
          (rangeEnd
            (boundingBoxSize ((lineInterpolator realNumerics (1 / 8) 8).m_BoundingBoxStart d)
              ((lineInterpolator realNumerics (1 / 8) 8).m_BoundingBoxEnd d))
            ((lineInterpolator realNumerics (1 / 8) 8).m_BoundingBoxStart d)
            ((lineInterpolator realNumerics (1 / 8) 8).m_CutoffDistance d) (0 : ℝ))),
        ∏ d, GaussianInterpolateImageFunction.readArray
          ((lineInterpolator realNumerics (1 / 8) 8).ComputeErrorFunctionArray realNumerics d 0
            false).erfArray (j d)) :=
  (C3_EvaluateAtContinuousIndex_closed_form realNumerics (lineInterpolator realNumerics (1 / 8) 8)
    lineImage (fun _ => (0 : ℝ)) false
    (fun d => by
      have hd : d = 0 := Subsingleton.elim _ _
      subst hd
      show rangeBegin _ _ (0 : ℝ) ≤ rangeEnd _ _ _ (0 : ℝ)
      rw [lineInterpolator_origin_begin, lineInterpolator_origin_end]
      norm_num)).2.1

/-- C4: for every discrete index `p`, continuous centre `c`, output spacing and covariance,
the weight the adjoint filter uses is `exp(-0.5 * (p - c)ᵀ M (p - c))` with
`M = S * Σ⁻¹ * S`, `S = diag(spacing)`; for a diagonal covariance `diag(σ_d²)` with every
`σ_d ≠ 0` it equals `exp(-0.5 * Σ_d ((p_d - c_d) * spacing_d / σ_d)²)`. -/
theorem C4_kernel_weight (N : Numerics K)
    (self : AdjointOrientedGaussianInterpolateImageFilter K D) (p : Fin D → ℤ)
    (c : Fin D → K) :
    AdjointOrientedGaussianInterpolateImageFilter.ComputeExponentialFunction N p c
        self.CovScaledInv =
      N.exp (-(1 / 2) * Matrix.dotProduct (fun i => (p i : K) - c i)
        ((Matrix.diagonal self.output.spacing * self.m_Covariance⁻¹ *
          Matrix.diagonal self.output.spacing).mulVec (fun i => (p i : K) - c i))) ∧
    ∀ sigma : Fin D → K, (∀ d, sigma d ≠ 0) →
      self.m_Covariance = Matrix.diagonal (fun d => sigma d ^ 2) →
      AdjointOrientedGaussianInterpolateImageFilter.ComputeExponentialFunction N p c
          self.CovScaledInv =
        N.exp (-(1 / 2) * ∑ d, (((p d : K) - c d) * self.output.spacing d / sigma d) ^ 2) :=
  kernel_weight_forms N self p c

/-- Instance of C4 on the two-voxel line: voxel `1`, centre `0`, `sigma = 1/8`. -/
theorem C4_witness :
    (1 / 8 : ℝ) ≠ 0 ∧
    (lineFilter (1 / 8 : ℝ) 8).m_Covariance =
      Matrix.diagonal (fun _ : Fin 1 => (1 / 8 : ℝ) ^ 2) ∧
    AdjointOrientedGaussianInterpolateImageFilter.ComputeExponentialFunction realNumerics
        (fun _ : Fin 1 => (1 : ℤ)) (fun _ => (0 : ℝ))
        (lineFilter (1 / 8 : ℝ) 8).CovScaledInv =
      realNumerics.exp (-(1 / 2) * ∑ d : Fin 1,
        ((((1 : ℤ) : ℝ) - 0) * (lineFilter (1 / 8 : ℝ) 8).output.spacing d / (1 / 8)) ^ 2) :=
  have h8 : (1 / 8 : ℝ) ≠ 0 := by norm_num
  ⟨h8, lineFilter_covariance,
    (C4_kernel_weight realNumerics (lineFilter (1 / 8 : ℝ) 8) (fun _ => 1) (fun _ => 0)).2
      (fun _ => 1 / 8) (fun _ => h8) lineFilter_covariance⟩

/-- C5: for every axis `d`, coordinate `c` and index `i` with `begin ≤ i < end`,
`ComputeErrorFunctionArray` stores
`erfArray[i] = erf((start - c + i + 1) * sf) - erf((start - c + i) * sf)` with
`start = m_BoundingBoxStart[d]` and `sf = m_ScalingFactor[d]`; the running value `t`,
advanced by repeated addition of `sf`, ends at the closed form
`(start - c + begin) * sf + (end - begin) * sf`; and `start` is `-0.5` once
`ComputeBoundingBox` has run on a bound image. -/
theorem C5_erfArray_entry (N : Numerics K) (self : GaussianInterpolateImageFunction K D)
    (d : Fin D) (c : K) (g : Bool) (i : ℤ)
    (hbegin : rangeBegin (self.m_BoundingBoxStart d) (self.m_CutoffDistance d) c ≤ i)
    (hend : i < rangeEnd (boundingBoxSize (self.m_BoundingBoxStart d) (self.m_BoundingBoxEnd d))
      (self.m_BoundingBoxStart d) (self.m_CutoffDistance d) c) :
    (self.ComputeErrorFunctionArray N d c g).erfArray i =
      some (N.erf ((self.m_BoundingBoxStart d - c + (i : K) + 1) * self.m_ScalingFactor d) -
        N.erf ((self.m_BoundingBoxStart d - c + (i : K)) * self.m_ScalingFactor d)) ∧
    (self.ComputeErrorFunctionArray N d c g).t =
      (self.m_BoundingBoxStart d - c +
          (rangeBegin (self.m_BoundingBoxStart d) (self.m_CutoffDistance d) c : K)) *
        self.m_ScalingFactor d +
      ((rangeEnd (boundingBoxSize (self.m_BoundingBoxStart d) (self.m_BoundingBoxEnd d))
          (self.m_BoundingBoxStart d) (self.m_CutoffDistance d) c -
        rangeBegin (self.m_BoundingBoxStart d) (self.m_CutoffDistance d) c : ℤ) : K) *
        self.m_ScalingFactor d ∧
    (∀ input, self.inputImage = some input →
      (self.ComputeBoundingBox N).m_BoundingBoxStart d = -(1 / 2)) := by
  refine ⟨?_, ?_, ?_⟩
  · rw [GaussianInterpolateImageFunction.erfArray_closed_form, if_pos ⟨hbegin, hend⟩]
  · unfold GaussianInterpolateImageFunction.ComputeErrorFunctionArray
    simp only []
    rw [intRange_toNat]
    set b := rangeBegin (self.m_BoundingBoxStart d) (self.m_CutoffDistance d) c with hb
    set e := rangeEnd (boundingBoxSize (self.m_BoundingBoxStart d) (self.m_BoundingBoxEnd d))
      (self.m_BoundingBoxStart d) (self.m_CutoffDistance d) c with he
    have hinv := GaussianInterpolateImageFunction.erfLoop_invariant N (self.m_ScalingFactor d) g
      b (GaussianInterpolateImageFunction.erfLoopInit N self d c g)
      (by simp [GaussianInterpolateImageFunction.erfLoopInit]) ((e - b).toNat)
    rw [hinv.1]
    have hnat : (((e - b).toNat : ℤ)) = e - b := by omega
    have hK : (((e - b).toNat : ℕ) : K) = ((e - b : ℤ) : K) := by
      rw [← Int.cast_natCast, hnat]
    rw [hK]
    simp [GaussianInterpolateImageFunction.erfLoopInit, ← hb]
  · intro input himage
    simp [GaussianInterpolateImageFunction.ComputeBoundingBox, himage]

/-- Instance of C5 on the two-voxel line at the continuous index `0`, entry `i = 1`. -/
theorem C5_witness :
    rangeBegin ((lineInterpolator realNumerics (1 / 8) 8).m_BoundingBoxStart 0)
      ((lineInterpolator realNumerics (1 / 8) 8).m_CutoffDistance 0) (0 : ℝ) ≤ 1 ∧
    1 < rangeEnd (boundingBoxSize ((lineInterpolator realNumerics (1 / 8) 8).m_BoundingBoxStart 0)
        ((lineInterpolator realNumerics (1 / 8) 8).m_BoundingBoxEnd 0))
      ((lineInterpolator realNumerics (1 / 8) 8).m_BoundingBoxStart 0)
      ((lineInterpolator realNumerics (1 / 8) 8).m_CutoffDistance 0) (0 : ℝ) ∧
    ((lineInterpolator realNumerics (1 / 8) 8).ComputeErrorFunctionArray realNumerics 0 0
        false).erfArray 1 =
      some (realNumerics.erf (((lineInterpolator realNumerics (1 / 8) 8).m_BoundingBoxStart 0 - 0 +
            ((1 : ℤ) : ℝ) + 1) * (lineInterpolator realNumerics (1 / 8) 8).m_ScalingFactor 0) -
        realNumerics.erf (((lineInterpolator realNumerics (1 / 8) 8).m_BoundingBoxStart 0 - 0 +
            ((1 : ℤ) : ℝ)) * (lineInterpolator realNumerics (1 / 8) 8).m_ScalingFactor 0)) :=
  have hb : rangeBegin ((lineInterpolator realNumerics (1 / 8) 8).m_BoundingBoxStart 0)
      ((lineInterpolator realNumerics (1 / 8) 8).m_CutoffDistance 0) (0 : ℝ) ≤ 1 := by
    rw [lineInterpolator_origin_begin]
    norm_num
  have he : 1 < rangeEnd
      (boundingBoxSize ((lineInterpolator realNumerics (1 / 8) 8).m_BoundingBoxStart 0)
        ((lineInterpolator realNumerics (1 / 8) 8).m_BoundingBoxEnd 0))
      ((lineInterpolator realNumerics (1 / 8) 8).m_BoundingBoxStart 0)
      ((lineInterpolator realNumerics (1 / 8) 8).m_CutoffDistance 0) (0 : ℝ) := by
    rw [lineInterpolator_origin_end]
    norm_num
  ⟨hb, he, (C5_erfArray_entry realNumerics (lineInterpolator realNumerics (1 / 8) 8) 0 0 false 1
    hb he).1⟩

/-- C6: on every axis `ComputeBoundingBox` of the forward interpolator (with an input image
bound) sets `BoundingBoxStart = -0.5`, `BoundingBoxEnd = size - 0.5`,
`CutoffDistance = sigma * alpha / spacing` and
`ScalingFactor = 1 / (sqrt2 * sigma / spacing)`; the adjoint filter's `ComputeBoundingBox`
computes the same start, end and cutoff from the same size, spacing, sigma and alpha. -/
theorem C6_ComputeBoundingBox_values (N : Numerics K)
    (self : GaussianInterpolateImageFunction K D)
    (flt : AdjointOrientedGaussianInterpolateImageFilter K D) (input : Image K D)
    (himage : self.inputImage = some input)
    (hsize : flt.output.size = input.size) (hspacing : flt.output.spacing = input.spacing)
    (hsigma : flt.m_Sigma = self.m_Sigma) (halpha : flt.m_Alpha = self.m_Alpha) :
    (∀ d,
      (self.ComputeBoundingBox N).m_BoundingBoxStart d = -(1 / 2) ∧
      (self.ComputeBoundingBox N).m_BoundingBoxEnd d = (input.size d : K) - 1 / 2 ∧
      (self.ComputeBoundingBox N).m_CutoffDistance d =
        self.m_Sigma d * self.m_Alpha / input.spacing d ∧
      (self.ComputeBoundingBox N).m_ScalingFactor d =
        1 / (N.sqrt2 * self.m_Sigma d / input.spacing d)) ∧
    flt.ComputeBoundingBox.m_BoundingBoxStart = (self.ComputeBoundingBox N).m_BoundingBoxStart ∧
    flt.ComputeBoundingBox.m_BoundingBoxEnd = (self.ComputeBoundingBox N).m_BoundingBoxEnd ∧
    flt.ComputeBoundingBox.m_CutoffDistance = (self.ComputeBoundingBox N).m_CutoffDistance := by
  refine ⟨fun d => ?_, ?_, ?_, ?_⟩ <;>
    simp [GaussianInterpolateImageFunction.ComputeBoundingBox, himage,
      AdjointOrientedGaussianInterpolateImageFilter.ComputeBoundingBox, hsize, hspacing,
      hsigma, halpha]

/-- Instance of C6 on the two-voxel line with `sigma = 1/8`, `alpha = 8`. -/
theorem C6_witness :
    (lineInterpolatorInit (1 / 8 : ℝ) 8).inputImage = some lineImage ∧
    (lineFilter (1 / 8 : ℝ) 8).output.size = (lineImage : Image ℝ 1).size ∧
    (lineFilter (1 / 8 : ℝ) 8).output.spacing = (lineImage : Image ℝ 1).spacing ∧
    (lineFilter (1 / 8 : ℝ) 8).m_Sigma = (lineInterpolatorInit (1 / 8 : ℝ) 8).m_Sigma ∧
    (lineFilter (1 / 8 : ℝ) 8).m_Alpha = (lineInterpolatorInit (1 / 8 : ℝ) 8).m_Alpha ∧
    ((lineInterpolatorInit (1 / 8 : ℝ) 8).ComputeBoundingBox realNumerics).m_CutoffDistance 0 =
      (lineInterpolatorInit (1 / 8 : ℝ) 8).m_Sigma 0 *
        (lineInterpolatorInit (1 / 8 : ℝ) 8).m_Alpha / (lineImage : Image ℝ 1).spacing 0 ∧
    ((lineFilter (1 / 8 : ℝ) 8).ComputeBoundingBox).m_CutoffDistance =
      ((lineInterpolatorInit (1 / 8 : ℝ) 8).ComputeBoundingBox realNumerics).m_CutoffDistance :=
  ⟨rfl, rfl, rfl, rfl, rfl,
    ((C6_ComputeBoundingBox_values realNumerics (lineInterpolatorInit (1 / 8 : ℝ) 8)
      (lineFilter (1 / 8 : ℝ) 8) lineImage rfl rfl rfl rfl rfl).1 0).2.2.1,
    (C6_ComputeBoundingBox_values realNumerics (lineInterpolatorInit (1 / 8 : ℝ) 8)
      (lineFilter (1 / 8 : ℝ) 8) lineImage rfl rfl rfl rfl rfl).2.2.2⟩

/-- With exact conversions to `int`: once `ComputeBoundingBox` has run, for every
destination continuous index `c` and every axis `d` with non-negative cutoff distance the
clamped box satisfies `0 ≤ begin ≤ end ≤ boundingBoxSize = size[d]`; hence the region size
`end - begin` is non-negative and every voxel of the region lies inside the grid. -/
theorem outputRegion_inside_grid (self : AdjointOrientedGaussianInterpolateImageFilter K D)
    (c : Fin D → K) (d : Fin D)
    (hcut : 0 ≤ (self.ComputeBoundingBox).m_CutoffDistance d) :
    0 ≤ (self.ComputeBoundingBox).boxBegin c d ∧
    (self.ComputeBoundingBox).boxBegin c d ≤ (self.ComputeBoundingBox).boxEnd c d ∧
    (self.ComputeBoundingBox).boxEnd c d ≤
      boundingBoxSize ((self.ComputeBoundingBox).m_BoundingBoxStart d)
        ((self.ComputeBoundingBox).m_BoundingBoxEnd d) ∧
    boundingBoxSize ((self.ComputeBoundingBox).m_BoundingBoxStart d)
        ((self.ComputeBoundingBox).m_BoundingBoxEnd d) = (self.output.size d : ℤ) ∧
    0 ≤ ((self.ComputeBoundingBox).outputRegion c).size d ∧
    ∀ v ∈ regionIndices ((self.ComputeBoundingBox).outputRegion c),
      0 ≤ v d ∧ v d < (self.output.size d : ℤ) := by
  have hsz := AdjointOrientedGaussianInterpolateImageFilter.boundingBoxSize_ComputeBoundingBox
    self d
  have h0 : 0 ≤ boundingBoxSize ((self.ComputeBoundingBox).m_BoundingBoxStart d)
      ((self.ComputeBoundingBox).m_BoundingBoxEnd d) := by
    rw [hsz]
    exact Int.natCast_nonneg _
  have hb := AdjointOrientedGaussianInterpolateImageFilter.boxBegin_nonneg_of
    (self.ComputeBoundingBox) c d h0
  have he := AdjointOrientedGaussianInterpolateImageFilter.boxEnd_le_of
    (self.ComputeBoundingBox) c d h0
  have hbe := AdjointOrientedGaussianInterpolateImageFilter.boxBegin_le_boxEnd_of
    (self.ComputeBoundingBox) c d h0 hcut
  refine ⟨hb, hbe, he, hsz, ?_, ?_⟩
  · simp only [AdjointOrientedGaussianInterpolateImageFilter.outputRegion]
    omega
  · intro v hv
    have := (AdjointOrientedGaussianInterpolateImageFilter.mem_outputRegion _ c v).1 hv d
    omega

/-- C8 (evaluation at the failing input): for the forward interpolator on a two-voxel line
(`sigma = 1/8`, `alpha = 8`, unit spacing, so cutoff `1`) and the continuous index `100`,
far outside `[BoundingBoxStart - cutoff, BoundingBoxEnd + cutoff]`, the evaluator builds a
region of size `end - begin = 2 - 99 = -97`, visits no voxel, and ends with
`sum_me = 0` and `sum_m = 0`, which it then divides: `rc = sum_me / sum_m`. -/
theorem C8_far_outside_zero_weight_sum (N : Numerics K) :
    ((lineInterpolator N (1 / 8) 8).activeRegion (fun _ => (100 : K))).index 0 = 99 ∧
    ((lineInterpolator N (1 / 8) 8).activeRegion (fun _ => (100 : K))).size 0 = -97 ∧
    regionIndices ((lineInterpolator N (1 / 8) 8).activeRegion (fun _ => (100 : K))) = [] ∧
    ((lineInterpolator N (1 / 8) 8).evaluateSums N lineImage
      (fun _ => (100 : K)) false).sum_me = 0 ∧
    ((lineInterpolator N (1 / 8) 8).evaluateSums N lineImage
      (fun _ => (100 : K)) false).sum_m = 0 := by
  have hb := lineInterpolator_far_begin (K := K) N
  have he := lineInterpolator_far_end (K := K) N
  have hsize : ((lineInterpolator N (1 / 8) 8).activeRegion (fun _ => (100 : K))).size 0 = -97 := by
    simp only [GaussianInterpolateImageFunction.activeRegion, hb, he]
    norm_num
  have hnil : regionIndices ((lineInterpolator N (1 / 8) 8).activeRegion
      (fun _ => (100 : K))) = [] :=
    regionIndices_eq_nil _ 0 (by rw [hsize]; norm_num)
  refine ⟨?_, hsize, hnil, ?_, ?_⟩
  · simp only [GaussianInterpolateImageFunction.activeRegion, hb]
  · unfold GaussianInterpolateImageFunction.evaluateSums
    simp only [hnil, List.foldl_nil]
  · unfold GaussianInterpolateImageFunction.evaluateSums
    simp only [hnil, List.foldl_nil]

/-- C10 (counterexample): the bounding-box calculation accepts `sigma = -1` (and
`alpha = 8`, unit spacing): the forward `ComputeBoundingBox` and the adjoint filter's
`ComputeBoundingBox` both complete and store the cutoff distance `-8` computed from it. -/
theorem C10_counterexample :
    (lineInterpolator realNumerics (-1) 8).m_Sigma 0 = -1 ∧
    (lineInterpolator realNumerics (-1) 8).m_CutoffDistance 0 = -8 ∧
    (lineInterpolator realNumerics (-1) 8).m_BoundingBoxEnd 0 = 3 / 2 ∧
    ((lineFilter (-1 : ℝ) 8).ComputeBoundingBox).m_CutoffDistance 0 = -8 := by
  refine ⟨?_, ?_, ?_, ?_⟩
  · simp [lineInterpolator, lineInterpolatorInit,
      GaussianInterpolateImageFunction.ComputeBoundingBox]
  · simp [lineInterpolator, lineInterpolatorInit,
      GaussianInterpolateImageFunction.ComputeBoundingBox, lineImage]
  · simp [lineInterpolator, lineInterpolatorInit,
      GaussianInterpolateImageFunction.ComputeBoundingBox, lineImage]
    norm_num
  · simp [lineFilter, AdjointOrientedGaussianInterpolateImageFilter.ComputeBoundingBox,
      lineImage]

/-- C10 (amended): kernel configuration validates nothing.  For every argument, also a
sigma `≤ 0`, a covariance that is not positive-definite and an alpha `≤ 0`, the setters
`SetSigma`, `SetCovariance` and `SetAlpha` store an argument that differs from the stored
value and hand the state to `ComputeBoundingBox`, and change nothing when it equals the
stored value; for every sigma, alpha and spacing, also `≤ 0`, `ComputeBoundingBox` on a
bound image stores `CutoffDistance = sigma * alpha / spacing` and
`ScalingFactor = 1 / (sqrt2 * sigma / spacing)` and leaves sigma and alpha as they are. -/
theorem C10_configuration_unvalidated (N : Numerics K)
    (computeBoundingBox : OrientedGaussianInterpolateImageFunction K D →
      OrientedGaussianInterpolateImageFunction K D)
    (self : OrientedGaussianInterpolateImageFunction K D)
    (fwd : GaussianInterpolateImageFunction K D) :
    (∀ s : Fin D → K, self.m_Sigma ≠ s →
      self.SetSigma computeBoundingBox s =
        computeBoundingBox { self with
          m_Sigma := s
          m_Covariance := fun i j => if i = j then s i * s i else 0 }) ∧
    (∀ cov : Matrix (Fin D) (Fin D) K, self.m_Covariance ≠ cov →
      self.SetCovariance N computeBoundingBox cov =
        computeBoundingBox { self with
          m_Covariance := cov
          m_Sigma := fun d => N.sqrt (cov d d) }) ∧
    (∀ a : K, self.m_Alpha ≠ a →
      self.SetAlpha computeBoundingBox a = computeBoundingBox { self with m_Alpha := a }) ∧
    self.SetSigma computeBoundingBox self.m_Sigma = self ∧
    self.SetCovariance N computeBoundingBox self.m_Covariance = self ∧
    self.SetAlpha computeBoundingBox self.m_Alpha = self ∧
    (∀ input : Image K D, fwd.inputImage = some input →
      (fwd.ComputeBoundingBox N).m_Sigma = fwd.m_Sigma ∧
      (fwd.ComputeBoundingBox N).m_Alpha = fwd.m_Alpha ∧
      ∀ d, (fwd.ComputeBoundingBox N).m_CutoffDistance d =
          fwd.m_Sigma d * fwd.m_Alpha / input.spacing d ∧
        (fwd.ComputeBoundingBox N).m_ScalingFactor d =
          1 / (N.sqrt2 * fwd.m_Sigma d / input.spacing d)) := by
  refine ⟨?_, ?_, ?_, ?_, ?_, ?_, ?_⟩
  · intro s hs
    simp [OrientedGaussianInterpolateImageFunction.SetSigma, hs]
  · intro cov hcov
    simp [OrientedGaussianInterpolateImageFunction.SetCovariance, hcov]
  · intro a ha
    simp [OrientedGaussianInterpolateImageFunction.SetAlpha, ha]
  · simp [OrientedGaussianInterpolateImageFunction.SetSigma]
  · simp [OrientedGaussianInterpolateImageFunction.SetCovariance]
  · simp [OrientedGaussianInterpolateImageFunction.SetAlpha]
  · intro input himage
    simp [GaussianInterpolateImageFunction.ComputeBoundingBox, himage]

/-- Instance of C10 (amended): `SetSigma` with `sigma = -1` and `SetAlpha` with `alpha = -1`
on an interpolator with unit parameters (the bounding-box member left as the identity), and
`ComputeBoundingBox` on the two-voxel line with `sigma = -1`, `alpha = 8`. -/
theorem C10_witness :
    (unitOriented : OrientedGaussianInterpolateImageFunction ℝ 1).m_Sigma ≠ (fun _ => -1) ∧
    (unitOriented : OrientedGaussianInterpolateImageFunction ℝ 1).SetSigma id (fun _ => -1) =
      { (unitOriented : OrientedGaussianInterpolateImageFunction ℝ 1) with
        m_Sigma := fun _ => -1
        m_Covariance := fun i j => if i = j then (-1 : ℝ) * (-1) else 0 } ∧
    (unitOriented : OrientedGaussianInterpolateImageFunction ℝ 1).m_Alpha ≠ -1 ∧
    (unitOriented : OrientedGaussianInterpolateImageFunction ℝ 1).SetAlpha id (-1) =
      { (unitOriented : OrientedGaussianInterpolateImageFunction ℝ 1) with m_Alpha := -1 } ∧
    (lineInterpolatorInit (-1 : ℝ) 8).inputImage = some lineImage ∧
    ((lineInterpolatorInit (-1 : ℝ) 8).ComputeBoundingBox realNumerics).m_CutoffDistance 0 =
      (lineInterpolatorInit (-1 : ℝ) 8).m_Sigma 0 * (lineInterpolatorInit (-1 : ℝ) 8).m_Alpha /
        (lineImage : Image ℝ 1).spacing 0 :=
  have hs : (unitOriented : OrientedGaussianInterpolateImageFunction ℝ 1).m_Sigma ≠
      (fun _ => -1) := by
    intro h
    have h0 := congrFun h 0
    simp [unitOriented] at h0
    norm_num at h0
  have ha : (unitOriented : OrientedGaussianInterpolateImageFunction ℝ 1).m_Alpha ≠ -1 := by
    simp [unitOriented]
    norm_num
  ⟨hs,
    (C10_configuration_unvalidated realNumerics id unitOriented
      (lineInterpolatorInit (-1 : ℝ) 8)).1 _ hs,
    ha,
    (C10_configuration_unvalidated realNumerics id unitOriented
      (lineInterpolatorInit (-1 : ℝ) 8)).2.2.1 _ ha,
    rfl,
    (((C10_configuration_unvalidated realNumerics id unitOriented
      (lineInterpolatorInit (-1 : ℝ) 8)).2.2.2.2.2.2 lineImage rfl).2.2 0).1⟩

end Claims

/-! ## Scheduling of the splatting pass -/

section Scheduling

variable {K : Type} [LinearOrderedField K] [FloorRing K] {D : ℕ}

namespace AdjointOrientedGaussianInterpolateImageFilter

/-- `ThreadedGenerateData` on a list of regions, one after another, is one splatting pass
over the concatenated index lists. -/
theorem foldl_ThreadedGenerateData_pixel (N : Numerics K) (g : Geometry K D)
    (input : Image K D) :
    ∀ (splitRegions : List (ImageRegion D))
      (flt : AdjointOrientedGaussianInterpolateImageFilter K D),
      (splitRegions.foldl (fun f region => f.ThreadedGenerateData N g input region)
          flt).output.pixel =
        flt.splatSamples N g input (splitRegions.flatMap regionIndices) flt.output.pixel
  | [], flt => rfl
  | r :: rest, flt => by
    rw [List.foldl_cons, foldl_ThreadedGenerateData_pixel N g input rest, List.flatMap_cons]
    show (flt.splatSamples N g input (rest.flatMap regionIndices)
      (flt.splatSamples N g input (regionIndices r) flt.output.pixel)) = _
    unfold splatSamples
    rw [List.foldl_append]

/-- The buffer after `GenerateData` as a pass over all indices of the split regions. -/
theorem GenerateData_pixel (N : Numerics K)
    (self : AdjointOrientedGaussianInterpolateImageFilter K D) (g : Geometry K D)
    (input : Image K D) (splitRegions : List (ImageRegion D)) :
    (self.GenerateData N g input splitRegions).output.pixel =
      (self.BeforeThreadedGenerateData).splatSamples N g input
        (splitRegions.flatMap regionIndices) (self.BeforeThreadedGenerateData).output.pixel := by
  unfold GenerateData
  exact foldl_ThreadedGenerateData_pixel N g input splitRegions _

/-- Two passes over index lists that are permutations of each other leave the same
buffer. -/
theorem splatSamples_perm (N : Numerics K)
    (self : AdjointOrientedGaussianInterpolateImageFilter K D) (g : Geometry K D)
    (input : Image K D) (l₁ l₂ : List (Fin D → ℤ)) (h : l₁.Perm l₂)
    (buffer : (Fin D → ℤ) → K) :
    self.splatSamples N g input l₁ buffer = self.splatSamples N g input l₂ buffer := by
  funext v
  rw [splatSamples_apply, splatSamples_apply]
  congr 1
  exact (h.map _).sum_eq

/-- A voxel that lies in no sample's region keeps its value through the pass. -/
theorem splatSamples_untouched (N : Numerics K)
    (self : AdjointOrientedGaussianInterpolateImageFilter K D) (g : Geometry K D)
    (input : Image K D) (samples : List (Fin D → ℤ)) (buffer : (Fin D → ℤ) → K)
    (v : Fin D → ℤ)
    (h : ∀ i ∈ samples, v ∉ regionIndices (self.outputRegion (g.outputCIndex i))) :
    self.splatSamples N g input samples buffer v = buffer v := by
  rw [splatSamples_apply]
  have hz : (samples.map (fun i =>
      if v ∈ regionIndices (outputRegion self (g.outputCIndex i)) then
        input.pixel i * ComputeExponentialFunction N v (g.outputCIndex i) (CovScaledInv self) /
          localSum N self (g.outputCIndex i)
      else 0)) = samples.map (fun _ => (0 : K)) := by
    refine List.map_congr_left (fun i hi => ?_)
    rw [if_neg (h i hi)]
  rw [hz]
  simp

end AdjointOrientedGaussianInterpolateImageFilter

end Scheduling

section SchedulingConcrete

variable {K : Type} [LinearOrderedField K] [FloorRing K]

theorem defaultFilter_origin_end :
    ((defaultFilter (1 / 8 : K) 1 5).BeforeThreadedGenerateData).boxEnd
      (fun _ => (0 : K)) 0 = 1 := by
  have h : ⌈(0 : K) - -(1 / 2) + 1 / 8 * 1 / 1⌉ = 1 := by
    rw [Int.ceil_eq_iff]
    constructor <;> norm_num
  have hs : boundingBoxSize (-(1 / 2) : K) (((2 : ℕ) : K) - 1 / 2) = ((2 : ℕ) : ℤ) :=
    boundingBoxSize_eq_size 2
  simp only [AdjointOrientedGaussianInterpolateImageFilter.boxEnd,
    AdjointOrientedGaussianInterpolateImageFilter.BeforeThreadedGenerateData,
    AdjointOrientedGaussianInterpolateImageFilter.ComputeBoundingBox, defaultFilter, lineFilter,
    lineImage, rangeEnd, h, hs]
  rfl

/-- Voxel `1` is outside the region of the sample landing on the continuous index `0`
when the cutoff is `1/8`. -/
theorem defaultFilter_origin_not_mem :
    (fun _ => 1) ∉ regionIndices (((defaultFilter (1 / 8 : K) 1 5).BeforeThreadedGenerateData
      ).outputRegion (identityGeometry.outputCIndex (fun _ => 0))) := by
  rw [identityGeometry_origin, AdjointOrientedGaussianInterpolateImageFilter.mem_outputRegion]
  intro h
  have h0 := (h 0).2
  rw [defaultFilter_origin_end] at h0
  omega

theorem regionIndices_voxelRegion (j : ℤ) : regionIndices (voxelRegion j) = [fun _ => j] := by
  simp [regionIndices_line, voxelRegion, intRange, List.range_succ]

theorem regionIndices_lineRegion : regionIndices lineRegion = [fun _ => 0, fun _ => 1] := by
  rw [regionIndices_line]
  simp only [lineRegion, intRange_zero_two, List.map_cons, List.map_nil]

end SchedulingConcrete

/-! ## Claims on the default value and on partitioned execution -/

section ClaimsScheduling

variable {K : Type} [LinearOrderedField K] [FloorRing K] {D : ℕ}

/-- C11 (amended): after the adjoint pass every destination voxel that lies in no source
sample's box holds the value zero, whatever default fill value is configured: the buffer
is filled with `NumericTraits::Zero` before the pass and `m_DefaultPixelValue` is never
read. -/
theorem C11_untouched_voxels_hold_zero (N : Numerics K)
    (self : AdjointOrientedGaussianInterpolateImageFilter K D) (g : Geometry K D)
    (input : Image K D) (splitRegions : List (ImageRegion D)) (v : Fin D → ℤ)
    (huntouched : ∀ i ∈ splitRegions.flatMap regionIndices,
      v ∉ regionIndices ((self.BeforeThreadedGenerateData).outputRegion (g.outputCIndex i))) :
    (self.GenerateData N g input splitRegions).output.pixel v = 0 ∧
    ∀ defaultValue : K,
      ({ self with m_DefaultPixelValue := defaultValue }.GenerateData N g input
        splitRegions).output.pixel v = 0 := by
  have h0 : (self.GenerateData N g input splitRegions).output.pixel v = 0 := by
    rw [AdjointOrientedGaussianInterpolateImageFilter.GenerateData_pixel,
      AdjointOrientedGaussianInterpolateImageFilter.splatSamples_untouched N _ g input _ _ v
        huntouched]
    rfl
  refine ⟨h0, fun defaultValue => ?_⟩
  rw [AdjointOrientedGaussianInterpolateImageFilter.GenerateData_pixel]
  rw [AdjointOrientedGaussianInterpolateImageFilter.GenerateData_pixel] at h0
  exact h0

/-- C11 (counterexample): on the two-voxel line with the default pixel value configured
to `5` (`sigma = 1/8`, `alpha = 1`, so cutoff `1/8`), the single source sample landing on
the continuous index `0` touches voxel `0` only; after the pass the untouched voxel `1`
holds `0`, not the configured default value `5`. -/
theorem C11_counterexample :
    (fun _ => 1) ∉ regionIndices (((defaultFilter (1 / 8 : ℝ) 1 5).BeforeThreadedGenerateData
      ).outputRegion (identityGeometry.outputCIndex (fun _ => 0))) ∧
    ((defaultFilter (1 / 8 : ℝ) 1 5).GenerateData realNumerics identityGeometry pointImage
      [voxelRegion 0]).m_DefaultPixelValue = 5 ∧
    ((defaultFilter (1 / 8 : ℝ) 1 5).GenerateData realNumerics identityGeometry pointImage
      [voxelRegion 0]).output.pixel (fun _ => 1) = 0 ∧
    ((defaultFilter (1 / 8 : ℝ) 1 5).GenerateData realNumerics identityGeometry pointImage
        [voxelRegion 0]).output.pixel (fun _ => 1) ≠
      ((defaultFilter (1 / 8 : ℝ) 1 5).GenerateData realNumerics identityGeometry pointImage
        [voxelRegion 0]).m_DefaultPixelValue := by
  have hnot := defaultFilter_origin_not_mem (K := ℝ)
  have hd : ((defaultFilter (1 / 8 : ℝ) 1 5).GenerateData realNumerics identityGeometry
      pointImage [voxelRegion 0]).m_DefaultPixelValue = 5 := rfl
  have h0 : ((defaultFilter (1 / 8 : ℝ) 1 5).GenerateData realNumerics identityGeometry
      pointImage [voxelRegion 0]).output.pixel (fun _ => 1) = 0 := by
    rw [AdjointOrientedGaussianInterpolateImageFilter.GenerateData_pixel,
      AdjointOrientedGaussianInterpolateImageFilter.splatSamples_untouched]
    · rfl
    · intro i hi
      have hi0 : i = fun _ => 0 := by
        simpa only [List.flatMap_cons, List.flatMap_nil, List.append_nil,
        regionIndices_voxelRegion, List.mem_singleton] using hi
      rw [hi0]
      exact hnot
  refine ⟨hnot, hd, h0, ?_⟩
  rw [h0, hd]
  norm_num

/-- Instance of C11 (amended) on the two-voxel line with default value `5`: voxel `1` is
untouched by the sample landing on the continuous index `0`. -/
theorem C11_witness :
    (∀ i ∈ [voxelRegion 0].flatMap regionIndices,
      (fun _ => 1) ∉ regionIndices (((defaultFilter (1 / 8 : ℝ) 1 5).BeforeThreadedGenerateData
        ).outputRegion (identityGeometry.outputCIndex i))) ∧
    ((defaultFilter (1 / 8 : ℝ) 1 5).GenerateData realNumerics identityGeometry pointImage
      [voxelRegion 0]).output.pixel (fun _ => 1) = 0 :=
  have h : ∀ i ∈ [voxelRegion 0].flatMap regionIndices,
      (fun _ => 1) ∉ regionIndices (((defaultFilter (1 / 8 : ℝ) 1 5).BeforeThreadedGenerateData
        ).outputRegion (identityGeometry.outputCIndex i)) := by
    intro i hi
    have hi0 : i = fun _ => 0 := by
      simpa only [List.flatMap_cons, List.flatMap_nil, List.append_nil,
        regionIndices_voxelRegion, List.mem_singleton] using hi
    rw [hi0]
    exact defaultFilter_origin_not_mem
  ⟨h, (C11_untouched_voxels_hold_zero realNumerics (defaultFilter (1 / 8 : ℝ) 1 5)
    identityGeometry pointImage [voxelRegion 0] (fun _ => 1) h).1⟩

/-- C15: single-threaded and partitioned execution agree.  For every list of split regions
whose indices together are, up to order, exactly the indices of the whole source region
(disjoint ranges covering it), running `ThreadedGenerateData` on the split regions one
after another from the zero-filled buffer leaves the same destination buffer as running
it once on the whole region; the same holds for every reordering of the split regions. -/
theorem C15_partitioned_equals_single_pass (N : Numerics K)
    (self : AdjointOrientedGaussianInterpolateImageFilter K D) (g : Geometry K D)
    (input : Image K D) (whole : ImageRegion D) (splitRegions : List (ImageRegion D))
    (hsplit : (splitRegions.flatMap regionIndices).Perm (regionIndices whole)) :
    (self.GenerateData N g input splitRegions).output.pixel =
      (self.GenerateData N g input [whole]).output.pixel ∧
    ∀ reordered : List (ImageRegion D), reordered.Perm splitRegions →
      (self.GenerateData N g input reordered).output.pixel =
        (self.GenerateData N g input [whole]).output.pixel := by
  have hone : ([whole].flatMap regionIndices) = regionIndices whole := by simp
  refine ⟨?_, fun reordered hperm => ?_⟩
  · rw [AdjointOrientedGaussianInterpolateImageFilter.GenerateData_pixel,
      AdjointOrientedGaussianInterpolateImageFilter.GenerateData_pixel, hone]
    exact AdjointOrientedGaussianInterpolateImageFilter.splatSamples_perm N _ g input _ _
      hsplit _
  · rw [AdjointOrientedGaussianInterpolateImageFilter.GenerateData_pixel,
      AdjointOrientedGaussianInterpolateImageFilter.GenerateData_pixel, hone]
    exact AdjointOrientedGaussianInterpolateImageFilter.splatSamples_perm N _ g input _ _
      ((hperm.flatMap_right regionIndices).trans hsplit) _

/-- Instance of C15 on the two-voxel line taken as source: the workers of voxel `1` and of
voxel `0`, run in this order, against one pass over the whole line. -/
theorem C15_witness :
    ([voxelRegion 1, voxelRegion 0].flatMap regionIndices).Perm (regionIndices lineRegion) ∧
    ((lineFilter (1 / 8 : ℝ) 8).GenerateData realNumerics identityGeometry lineImage
        [voxelRegion 1, voxelRegion 0]).output.pixel =
      ((lineFilter (1 / 8 : ℝ) 8).GenerateData realNumerics identityGeometry lineImage
        [lineRegion]).output.pixel :=
  have h : ([voxelRegion 1, voxelRegion 0].flatMap regionIndices).Perm
      (regionIndices lineRegion) := by
    simp only [List.flatMap_cons, List.flatMap_nil, regionIndices_voxelRegion,
      regionIndices_lineRegion, List.append_nil, List.singleton_append]
    exact List.Perm.swap _ _ _
  ⟨h, (C15_partitioned_equals_single_pass realNumerics (lineFilter (1 / 8 : ℝ) 8) identityGeometry
    lineImage lineRegion [voxelRegion 1, voxelRegion 0] h).1⟩

end ClaimsScheduling

/-! ## Cost of the error-function array and the sigma setter -/

section ClaimsCostAndSetters

variable {K : Type} [LinearOrderedField K] [FloorRing K] {D : ℕ}

theorem length_intRange (b sz : ℤ) : (intRange b sz).length = sz.toNat := by
  simp [intRange]

/-- One iteration with the logging `vnl_erf`: the loop state is that of `erfLoopBody`,
and the one call of `vnl_erf` in the body has logged its argument. -/
theorem erfLoopBodyWith_loggedErf (N : Numerics K) (sf : K) (g : Bool)
    (p : GaussianInterpolateImageFunction.ErfLoop K × List K) (i : ℤ) :
    GaussianInterpolateImageFunction.erfLoopBodyWith N
        (GaussianInterpolateImageFunction.loggedErf N) sf g p i =
      (GaussianInterpolateImageFunction.erfLoopBody N sf g p.1 i, p.2 ++ [p.1.t + sf]) := by
  cases g <;> rfl

/-- The loop run with the logging `vnl_erf`: the loop state is that of the plain loop, and
the log has grown by one entry per iteration. -/
theorem foldl_erfLoopBodyWith_loggedErf (N : Numerics K) (sf : K) (g : Bool) :
    ∀ (l : List ℤ) (s0 : GaussianInterpolateImageFunction.ErfLoop K) (log : List K),
      (l.foldl (GaussianInterpolateImageFunction.erfLoopBodyWith N
            (GaussianInterpolateImageFunction.loggedErf N) sf g) (s0, log)).1 =
          l.foldl (GaussianInterpolateImageFunction.erfLoopBody N sf g) s0 ∧
        (l.foldl (GaussianInterpolateImageFunction.erfLoopBodyWith N
            (GaussianInterpolateImageFunction.loggedErf N) sf g) (s0, log)).2.length =
          log.length + l.length
  | [], s0, log => by simp
  | i :: rest, s0, log => by
    simp only [List.foldl_cons, List.length_cons, erfLoopBodyWith_loggedErf]
    obtain ⟨h1, h2⟩ := foldl_erfLoopBodyWith_loggedErf N sf g rest
      (GaussianInterpolateImageFunction.erfLoopBody N sf g s0 i) (log ++ [s0.t + sf])
    refine ⟨h1, ?_⟩
    rw [h2, List.length_append, List.length_singleton]
    ring

/-- Entry to the loop with the logging `vnl_erf` and an empty log: the loop state is
`erfLoopInit`, and the one call before the loop has logged its argument. -/
theorem erfLoopInitWith_loggedErf (N : Numerics K)
    (self : GaussianInterpolateImageFunction K D) (d : Fin D) (c : K) (g : Bool) :
    GaussianInterpolateImageFunction.erfLoopInitWith N
        (GaussianInterpolateImageFunction.loggedErf N) self d c g [] =
      (GaussianInterpolateImageFunction.erfLoopInit N self d c g,
        [(GaussianInterpolateImageFunction.erfLoopInit N self d c g).t]) :=
  rfl

/-- C19: one call of `ComputeErrorFunctionArray` evaluates `vnl_erf` exactly
`1 + max(0, end - begin)` times: run with a `vnl_erf` that logs each of its calls, the
function computes the same arrays and leaves a log of that length; and
`end - begin < 2 * cutoff + 2` whatever the grid size and the centre, so the number of
evaluations is bounded in terms of the cutoff distance alone. -/
theorem C19_erf_call_count (N : Numerics K) (self : GaussianInterpolateImageFunction K D)
    (d : Fin D) (c : K) (g : Bool) :
    (self.erfCalls N d c g).1 = self.ComputeErrorFunctionArray N d c g ∧
    (self.erfCalls N d c g).2.length =
      1 + (max 0 (rangeEnd (boundingBoxSize (self.m_BoundingBoxStart d)
            (self.m_BoundingBoxEnd d)) (self.m_BoundingBoxStart d) (self.m_CutoffDistance d) c -
          rangeBegin (self.m_BoundingBoxStart d) (self.m_CutoffDistance d) c)).toNat ∧
    ((rangeEnd (boundingBoxSize (self.m_BoundingBoxStart d) (self.m_BoundingBoxEnd d))
          (self.m_BoundingBoxStart d) (self.m_CutoffDistance d) c -
        rangeBegin (self.m_BoundingBoxStart d) (self.m_CutoffDistance d) c : ℤ) : K) <
      2 * self.m_CutoffDistance d + 2 := by
  refine ⟨?_, ?_, ?_⟩
  · unfold GaussianInterpolateImageFunction.erfCalls
      GaussianInterpolateImageFunction.ComputeErrorFunctionArrayWith
      GaussianInterpolateImageFunction.ComputeErrorFunctionArray
    rw [erfLoopInitWith_loggedErf]
    exact (foldl_erfLoopBodyWith_loggedErf N (self.m_ScalingFactor d) g _ _ _).1
  · unfold GaussianInterpolateImageFunction.erfCalls
      GaussianInterpolateImageFunction.ComputeErrorFunctionArrayWith
    rw [erfLoopInitWith_loggedErf,
      (foldl_erfLoopBodyWith_loggedErf N (self.m_ScalingFactor d) g _ _ _).2, length_intRange,
      List.length_singleton]
    congr 1
    omega
  · have h1 : ((⌈c - self.m_BoundingBoxStart d + self.m_CutoffDistance d⌉ : ℤ) : K) <
        c - self.m_BoundingBoxStart d + self.m_CutoffDistance d + 1 := Int.ceil_lt_add_one _
    have h2 : c - self.m_BoundingBoxStart d - self.m_CutoffDistance d - 1 <
        ((⌊c - self.m_BoundingBoxStart d - self.m_CutoffDistance d⌋ : ℤ) : K) :=
      Int.sub_one_lt_floor _
    have h3 : rangeEnd (boundingBoxSize (self.m_BoundingBoxStart d) (self.m_BoundingBoxEnd d))
          (self.m_BoundingBoxStart d) (self.m_CutoffDistance d) c -
        rangeBegin (self.m_BoundingBoxStart d) (self.m_CutoffDistance d) c ≤
        ⌈c - self.m_BoundingBoxStart d + self.m_CutoffDistance d⌉ -
          ⌊c - self.m_BoundingBoxStart d - self.m_CutoffDistance d⌋ := by
      unfold rangeEnd rangeBegin
      omega
    have h4 : ((rangeEnd (boundingBoxSize (self.m_BoundingBoxStart d) (self.m_BoundingBoxEnd d))
          (self.m_BoundingBoxStart d) (self.m_CutoffDistance d) c -
        rangeBegin (self.m_BoundingBoxStart d) (self.m_CutoffDistance d) c : ℤ) : K) ≤
        ((⌈c - self.m_BoundingBoxStart d + self.m_CutoffDistance d⌉ -
          ⌊c - self.m_BoundingBoxStart d - self.m_CutoffDistance d⌋ : ℤ) : K) := by
      exact_mod_cast h3
    push_cast at h4 ⊢
    linarith

/-- C20: `SetSigma` misses its covariance reset through its guard.  A planar interpolator
whose covariance was set by `SetCovariance` to the non-diagonal matrix with ones on the
diagonal and `1/2` off it has `m_Sigma = (1, 1)`; `SetSigma( (1, 1) )` then finds
`m_Sigma == s` and skips the whole body (whatever `ComputeBoundingBox` does, it is not
called), the lines `m_Covariance.Fill(0.0)` and `m_Covariance[d*D + d] = s[d]*s[d]`
included: the stored covariance keeps its off-diagonal entry `1/2`. -/
theorem C20_SetSigma_guard_skips_covariance_reset :
    (planarOriented : OrientedGaussianInterpolateImageFunction ℝ 2).SetCovariance realNumerics id
      skewCovariance = skewOriented ∧
    (fun computeBoundingBox =>
        (skewOriented : OrientedGaussianInterpolateImageFunction ℝ 2).SetSigma
          computeBoundingBox (fun _ => 1)) =
      (fun _ => skewOriented) ∧
    ((skewOriented : OrientedGaussianInterpolateImageFunction ℝ 2).SetSigma id
      (fun _ => 1)).m_Covariance 0 1 = 1 / 2 ∧
    ((skewOriented : OrientedGaussianInterpolateImageFunction ℝ 2).SetSigma id
      (fun _ => 1)).m_Covariance 0 1 ≠ 0 := by
  have hset : ∀ computeBoundingBox,
      (skewOriented : OrientedGaussianInterpolateImageFunction ℝ 2).SetSigma
        computeBoundingBox (fun _ => 1) = skewOriented := by
    intro computeBoundingBox
    simp [OrientedGaussianInterpolateImageFunction.SetSigma, skewOriented, planarOriented]
  have hentry : (skewOriented : OrientedGaussianInterpolateImageFunction ℝ 2).m_Covariance 0 1 =
      1 / 2 := by
    simp [skewOriented, skewCovariance]
  refine ⟨?_, funext hset, ?_, ?_⟩
  · have hne : (planarOriented : OrientedGaussianInterpolateImageFunction ℝ 2).m_Covariance ≠
        skewCovariance := by
      intro h
      have h01 := congrFun (congrFun h 0) 1
      simp [planarOriented, skewCovariance] at h01
    have hsqrt : (fun d : Fin 2 => realNumerics.sqrt ((skewCovariance : Matrix _ _ ℝ) d d)) =
        fun _ => 1 := by
      funext d
      simp [skewCovariance, realNumerics]
    simp only [OrientedGaussianInterpolateImageFunction.SetCovariance, if_pos hne, hsqrt, id]
    rfl
  · rw [hset, hentry]
  · rw [hset, hentry]
    norm_num

end ClaimsCostAndSetters

/-! ## Gradient weights -/

section Gradient

variable {K : Type} [LinearOrderedField K] [FloorRing K] {D : ℕ}

namespace GaussianInterpolateImageFunction

/-- Loop invariant of `ComputeErrorFunctionArray` for the derivative array when the
gradient is requested: after `n` iterations from index `b`, exactly the entries
`b ≤ i < b + n` of `gerfArray` have been written, with the differences of
`g(t) = two_over_sqrtpi * exp(-t²)` at the two boundaries of voxel `i`. -/
theorem gerfLoop_invariant (N : Numerics K) (sf : K) (b : ℤ) (s0 : ErfLoop K)
    (hg : s0.g_last = N.two_over_sqrtpi * N.exp (-(s0.t * s0.t))) (n : ℕ) :
    ((intRange b (n : ℤ)).foldl (erfLoopBody N sf true) s0).t = s0.t + (n : K) * sf ∧
    ((intRange b (n : ℤ)).foldl (erfLoopBody N sf true) s0).g_last =
      N.two_over_sqrtpi * N.exp (-((s0.t + (n : K) * sf) * (s0.t + (n : K) * sf))) ∧
    (∀ i : ℤ, ((intRange b (n : ℤ)).foldl (erfLoopBody N sf true) s0).gerfArray i =
      if b ≤ i ∧ i < b + n then
        some (N.two_over_sqrtpi * N.exp (-((s0.t + ((i - b : ℤ) + 1 : K) * sf) *
            (s0.t + ((i - b : ℤ) + 1 : K) * sf))) -
          N.two_over_sqrtpi * N.exp (-((s0.t + ((i - b : ℤ) : K) * sf) *
            (s0.t + ((i - b : ℤ) : K) * sf))))
      else s0.gerfArray i) := by
  induction n with
  | zero =>
    have h0 : intRange b ((0 : ℕ) : ℤ) = [] := by simp [intRange]
    rw [h0]
    simp only [List.foldl_nil]
    refine ⟨by simp, by simp [hg], fun i => ?_⟩
    rw [if_neg]
    omega
  | succ n ih =>
    obtain ⟨ht, hgl, harr⟩ := ih
    have hsplit : intRange b ((n + 1 : ℕ) : ℤ) = intRange b (n : ℤ) ++ [b + (n : ℤ)] := by
      rw [intRange_natCast, intRange_natCast, List.range_succ, List.map_append]
      rfl
    rw [hsplit, List.foldl_append]
    simp only [List.foldl_cons, List.foldl_nil]
    have hbody : ∀ s : ErfLoop K, (erfLoopBody N sf true s (b + (n : ℤ))).t = s.t + sf ∧
        (erfLoopBody N sf true s (b + (n : ℤ))).g_last =
          N.two_over_sqrtpi * N.exp (-((s.t + sf) * (s.t + sf))) ∧
        (erfLoopBody N sf true s (b + (n : ℤ))).gerfArray =
          Function.update s.gerfArray (b + (n : ℤ))
            (some (N.two_over_sqrtpi * N.exp (-((s.t + sf) * (s.t + sf))) - s.g_last)) := by
      intro s
      unfold erfLoopBody
      simp
    obtain ⟨h1, h2, h3⟩ := hbody ((intRange b (n : ℤ)).foldl (erfLoopBody N sf true) s0)
    have et : s0.t + (n : K) * sf + sf = s0.t + ((n + 1 : ℕ) : K) * sf := by
      push_cast
      ring
    refine ⟨?_, ?_, fun i => ?_⟩
    · rw [h1, ht, et]
    · rw [h2, ht, et]
    · rw [h3, ht, hgl, et]
      by_cases hi : i = b + (n : ℤ)
      · subst hi
        have hc : b ≤ b + (n : ℤ) ∧ b + (n : ℤ) < b + ((n + 1 : ℕ) : ℤ) := by
          push_cast
          omega
        rw [Function.update_same, if_pos hc]
        have e1 : (((b + (n : ℤ) - b : ℤ) : K)) = (n : K) := by
          push_cast
          ring
        rw [e1]
        push_cast
        rfl
      · rw [Function.update_noteq hi, harr i]
        have hiff : (b ≤ i ∧ i < b + ((n + 1 : ℕ) : ℤ)) ↔
            (b ≤ i ∧ i < b + (n : ℤ)) := by
          push_cast
          omega
        by_cases hc : b ≤ i ∧ i < b + (n : ℤ)
        · rw [if_pos hc, if_pos (hiff.2 hc)]
        · rw [if_neg hc, if_neg (fun h => hc (hiff.1 h))]

/-- Every entry of the array `gerfArray` returned by `ComputeErrorFunctionArray` when the
gradient is requested: written with the closed-form difference inside `[begin, end)`,
never written outside. -/
theorem gerfArray_closed_form (N : Numerics K) (self : GaussianInterpolateImageFunction K D)
    (d : Fin D) (c : K) (i : ℤ) :
    (ComputeErrorFunctionArray N self d c true).gerfArray i =
      if rangeBegin (self.m_BoundingBoxStart d) (self.m_CutoffDistance d) c ≤ i ∧
          i < rangeEnd (boundingBoxSize (self.m_BoundingBoxStart d) (self.m_BoundingBoxEnd d))
            (self.m_BoundingBoxStart d) (self.m_CutoffDistance d) c then
        some (N.two_over_sqrtpi * N.exp
              (-(((self.m_BoundingBoxStart d - c + (i : K) + 1) * self.m_ScalingFactor d) *
                ((self.m_BoundingBoxStart d - c + (i : K) + 1) * self.m_ScalingFactor d))) -
          N.two_over_sqrtpi * N.exp
              (-(((self.m_BoundingBoxStart d - c + (i : K)) * self.m_ScalingFactor d) *
                ((self.m_BoundingBoxStart d - c + (i : K)) * self.m_ScalingFactor d))))
      else none := by
  unfold ComputeErrorFunctionArray
  simp only []
  rw [intRange_toNat]
  have hinv := gerfLoop_invariant N (self.m_ScalingFactor d)
    (rangeBegin (self.m_BoundingBoxStart d) (self.m_CutoffDistance d) c)
    (erfLoopInit N self d c true) (by simp [erfLoopInit])
    ((rangeEnd (boundingBoxSize (self.m_BoundingBoxStart d) (self.m_BoundingBoxEnd d))
      (self.m_BoundingBoxStart d) (self.m_CutoffDistance d) c -
      rangeBegin (self.m_BoundingBoxStart d) (self.m_CutoffDistance d) c).toNat)
  rw [hinv.2.2 i]
  set b := rangeBegin (self.m_BoundingBoxStart d) (self.m_CutoffDistance d) c with hb
  set e := rangeEnd (boundingBoxSize (self.m_BoundingBoxStart d) (self.m_BoundingBoxEnd d))
      (self.m_BoundingBoxStart d) (self.m_CutoffDistance d) c with he
  have hiff : (b ≤ i ∧ i < b + ((e - b).toNat : ℤ)) ↔ (b ≤ i ∧ i < e) := by
    omega
  by_cases hc : b ≤ i ∧ i < e
  · rw [if_pos hc, if_pos (hiff.2 hc)]
    have e1 : (erfLoopInit N self d c true).t + (((i - b : ℤ) : K) + 1) * self.m_ScalingFactor d =
        (self.m_BoundingBoxStart d - c + (i : K) + 1) * self.m_ScalingFactor d := by
      simp only [erfLoopInit, ← hb]
      push_cast
      ring
    have e2 : (erfLoopInit N self d c true).t + ((i - b : ℤ) : K) * self.m_ScalingFactor d =
        (self.m_BoundingBoxStart d - c + (i : K)) * self.m_ScalingFactor d := by
      simp only [erfLoopInit, ← hb]
      push_cast
      ring
    rw [e1, e2]
  · rw [if_neg hc, if_neg (fun h => hc (hiff.1 h))]
    simp [erfLoopInit]

/-- The array `erfArray` does not depend on whether the gradient is requested. -/
theorem erfArray_flag (N : Numerics K) (self : GaussianInterpolateImageFunction K D)
    (d : Fin D) (c : K) (g : Bool) :
    (ComputeErrorFunctionArray N self d c g).erfArray =
      (ComputeErrorFunctionArray N self d c false).erfArray := by
  funext i
  rw [erfArray_closed_form, erfArray_closed_form]

theorem foldl_gradWeight {ι : Type} [DecidableEq ι] (E G : ι → K) :
    ∀ (l : List ι) (dw : ι → K) (q : ι),
      (l.foldl (fun dw d => fun q => if d = q then dw q * G d else dw q * E d) dw) q =
        dw q * (l.map (fun d => if d = q then G d else E d)).prod
  | [], dw, q => by simp
  | x :: xs, dw, q => by
    simp only [List.foldl_cons, List.map_cons, List.prod_cons]
    rw [foldl_gradWeight E G xs]
    by_cases h : x = q
    · simp only [if_pos h]
      ring
    · simp only [if_neg h]
      ring

/-- The derivative weight the loop builds: the derivative array entry on axis `q` times
the plain array entries on all other axes. -/
theorem voxelGradWeight_eq_prod [NeZero D] (erfArray gerfArray : Fin D → ℤ → Option K)
    (idx : Fin D → ℤ) (q : Fin D) :
    voxelGradWeight erfArray gerfArray idx q =
      readArray (gerfArray q) (idx q) *
        ∏ d in Finset.univ.erase q, readArray (erfArray d) (idx d) := by
  unfold voxelGradWeight
  rw [foldl_gradWeight (fun d => readArray (erfArray d) (idx d))
    (fun d => readArray (gerfArray d) (idx d))]
  have hprod : (∏ d, if d = q then readArray (gerfArray d) (idx d)
      else readArray (erfArray d) (idx d)) =
      readArray (gerfArray q) (idx q) *
        ∏ d in Finset.univ.erase q, readArray (erfArray d) (idx d) := by
    rw [← Finset.mul_prod_erase Finset.univ _ (Finset.mem_univ q), if_pos rfl]
    congr 1
    refine Finset.prod_congr rfl (fun d hd => ?_)
    rw [if_neg (Finset.ne_of_mem_erase hd)]
  rw [← hprod]
  rcases D with _ | n
  · exact absurd rfl (NeZero.ne 0)
  · rw [List.finRange_succ_eq_map, List.tail_cons, Fin.prod_univ_def,
      List.finRange_succ_eq_map, List.map_cons, List.prod_cons]
    congr 1
    by_cases h : q = 0
    · rw [if_pos h, if_pos h.symm]
    · rw [if_neg h, if_neg (fun h' => h h'.symm)]

theorem foldl_voxelBody_dsum_me [NeZero D] (image : Image K D)
    (erfArray gerfArray : Fin D → ℤ → Option K) (l : List (Fin D → ℤ)) (s : Sums K D)
    (q : Fin D) :
    (l.foldl (voxelBody image erfArray gerfArray true) s).dsum_me q =
      s.dsum_me q +
        (l.map (fun idx => image.pixel idx * voxelGradWeight erfArray gerfArray idx q)).sum := by
  induction l generalizing s with
  | nil => simp
  | cons x xs ih =>
    simp only [List.foldl_cons, List.map_cons, List.sum_cons]
    rw [ih]
    simp [voxelBody, add_assoc]

theorem foldl_voxelBody_dsum_m [NeZero D] (image : Image K D)
    (erfArray gerfArray : Fin D → ℤ → Option K) (l : List (Fin D → ℤ)) (s : Sums K D)
    (q : Fin D) :
    (l.foldl (voxelBody image erfArray gerfArray true) s).dsum_m q =
      s.dsum_m q + (l.map (fun idx => voxelGradWeight erfArray gerfArray idx q)).sum := by
  induction l generalizing s with
  | nil => simp
  | cons x xs ih =>
    simp only [List.foldl_cons, List.map_cons, List.sum_cons]
    rw [ih]
    simp [voxelBody, add_assoc]

end GaussianInterpolateImageFunction

end Gradient

section ClaimsGradient

variable {K : Type} [LinearOrderedField K] [FloorRing K] {D : ℕ}

/-- C17: when a gradient is requested, at every continuous index with `begin_d ≤ end_d`
on every axis (the size handed to `region.SetSize` is then non-negative, so the voxel
iterator exists and the function returns), for every axis `q` the evaluator writes
`grad[q] = (dsum_value[q] - value * dsum_weight[q]) / sum_weight / (-sqrt2 * sigma[q])`,
where `dsum_value[q]` is the sum over the active voxels of `V(j) * dW_q(j)`,
`dsum_weight[q]` the sum of `dW_q(j)`, and `dW_q(j)` is the entry `gerfArray[q][j_q]`
(written by `ComputeErrorFunctionArray`) times the entries `erfArray[d][j_d]` of all other
axes `d ≠ q`, in every dimension `D ≥ 1`; the returned value is the same as without
gradient. -/
theorem C17_gradient_formula [NeZero D] (N : Numerics K)
    (self : GaussianInterpolateImageFunction K D) (image : Image K D) (cindex : Fin D → K)
    (q : Fin D)
    (hrange : ∀ d,
      rangeBegin (self.m_BoundingBoxStart d) (self.m_CutoffDistance d) (cindex d) ≤
        rangeEnd (boundingBoxSize (self.m_BoundingBoxStart d) (self.m_BoundingBoxEnd d))
          (self.m_BoundingBoxStart d) (self.m_CutoffDistance d) (cindex d)) :
    (∀ d, 0 ≤ (self.activeRegion cindex).size d) ∧
    self.EvaluateGradient N image cindex q =
      ((∑ j in Fintype.piFinset (fun d => Finset.Ico
            (rangeBegin (self.m_BoundingBoxStart d) (self.m_CutoffDistance d) (cindex d))
            (rangeEnd (boundingBoxSize (self.m_BoundingBoxStart d) (self.m_BoundingBoxEnd d))
              (self.m_BoundingBoxStart d) (self.m_CutoffDistance d) (cindex d))),
          image.pixel j *
            (GaussianInterpolateImageFunction.readArray
                (self.ComputeErrorFunctionArray N q (cindex q) true).gerfArray (j q) *
              ∏ d in Finset.univ.erase q, GaussianInterpolateImageFunction.readArray
                (self.ComputeErrorFunctionArray N d (cindex d) true).erfArray (j d))) -
        self.EvaluateAtContinuousIndex N image cindex true *
          (∑ j in Fintype.piFinset (fun d => Finset.Ico
            (rangeBegin (self.m_BoundingBoxStart d) (self.m_CutoffDistance d) (cindex d))
            (rangeEnd (boundingBoxSize (self.m_BoundingBoxStart d) (self.m_BoundingBoxEnd d))
              (self.m_BoundingBoxStart d) (self.m_CutoffDistance d) (cindex d))),
            (GaussianInterpolateImageFunction.readArray
                (self.ComputeErrorFunctionArray N q (cindex q) true).gerfArray (j q) *
              ∏ d in Finset.univ.erase q, GaussianInterpolateImageFunction.readArray
                (self.ComputeErrorFunctionArray N d (cindex d) true).erfArray (j d)))) /
        (∑ j in Fintype.piFinset (fun d => Finset.Ico
            (rangeBegin (self.m_BoundingBoxStart d) (self.m_CutoffDistance d) (cindex d))
            (rangeEnd (boundingBoxSize (self.m_BoundingBoxStart d) (self.m_BoundingBoxEnd d))
              (self.m_BoundingBoxStart d) (self.m_CutoffDistance d) (cindex d))),
          ∏ d, GaussianInterpolateImageFunction.readArray
            (self.ComputeErrorFunctionArray N d (cindex d) true).erfArray (j d)) /
        (-N.sqrt2 * self.m_Sigma q) ∧
    self.EvaluateAtContinuousIndex N image cindex true =
      self.EvaluateAtContinuousIndex N image cindex false ∧
    ∀ j ∈ Fintype.piFinset (fun d => Finset.Ico
          (rangeBegin (self.m_BoundingBoxStart d) (self.m_CutoffDistance d) (cindex d))
          (rangeEnd (boundingBoxSize (self.m_BoundingBoxStart d) (self.m_BoundingBoxEnd d))
            (self.m_BoundingBoxStart d) (self.m_CutoffDistance d) (cindex d))),
      (self.ComputeErrorFunctionArray N q (cindex q) true).gerfArray (j q) =
        some (GaussianInterpolateImageFunction.readArray
          (self.ComputeErrorFunctionArray N q (cindex q) true).gerfArray (j q)) := by
  refine ⟨fun d => ?_, ?_, ?_, ?_⟩
  · have hd := hrange d
    simp only [GaussianInterpolateImageFunction.activeRegion]
    omega
  · unfold GaussianInterpolateImageFunction.EvaluateGradient
      GaussianInterpolateImageFunction.EvaluateAtContinuousIndex
      GaussianInterpolateImageFunction.evaluateSums
    simp only []
    rw [GaussianInterpolateImageFunction.foldl_voxelBody_dsum_me,
      GaussianInterpolateImageFunction.foldl_voxelBody_dsum_m,
      GaussianInterpolateImageFunction.foldl_voxelBody_sum_me,
      GaussianInterpolateImageFunction.foldl_voxelBody_sum_m, sum_map_regionIndices,
      sum_map_regionIndices, sum_map_regionIndices, sum_map_regionIndices]
    simp only [GaussianInterpolateImageFunction.activeRegion, zero_add, add_sub_cancel,
      GaussianInterpolateImageFunction.voxelWeight_eq_prod,
      GaussianInterpolateImageFunction.voxelGradWeight_eq_prod]
  · unfold GaussianInterpolateImageFunction.EvaluateAtContinuousIndex
      GaussianInterpolateImageFunction.evaluateSums
    simp only []
    rw [GaussianInterpolateImageFunction.foldl_voxelBody_sum_me,
      GaussianInterpolateImageFunction.foldl_voxelBody_sum_m,
      GaussianInterpolateImageFunction.foldl_voxelBody_sum_me,
      GaussianInterpolateImageFunction.foldl_voxelBody_sum_m]
    simp only [GaussianInterpolateImageFunction.erfArray_flag N self _ _ true]
  · intro j hj
    have hjq := (Fintype.mem_piFinset.1 hj) q
    rw [Finset.mem_Ico] at hjq
    rw [GaussianInterpolateImageFunction.readArray,
      GaussianInterpolateImageFunction.gerfArray_closed_form, if_pos hjq]
    rfl

/-- Instance of C17 on the two-voxel line (dimension 1) at the continuous index `0`: the
value with and without gradient. -/
theorem C17_witness :
    (lineInterpolator realNumerics (1 / 8) 8).EvaluateAtContinuousIndex realNumerics lineImage
        (fun _ => (0 : ℝ)) true =
      (lineInterpolator realNumerics (1 / 8) 8).EvaluateAtContinuousIndex realNumerics lineImage
        (fun _ => (0 : ℝ)) false :=
  (C17_gradient_formula realNumerics (lineInterpolator realNumerics (1 / 8) 8) lineImage
    (fun _ => (0 : ℝ)) 0
    (fun d => by
      have hd : d = 0 := Subsingleton.elim _ _
      subst hd
      show rangeBegin _ _ (0 : ℝ) ≤ rangeEnd _ _ _ (0 : ℝ)
      rw [lineInterpolator_origin_begin, lineInterpolator_origin_end]
      norm_num)).2.2.1

end ClaimsGradient

/-! ## Positivity of the weights -/

section Positivity

variable {K : Type} [LinearOrderedField K] [FloorRing K] {D : ℕ}

/-- The real error function is strictly increasing. -/
theorem realErf_strictMono : StrictMono realErf := by
  intro a b hab
  have h := realErf_sub a b
  have hk : 0 < 2 / Real.sqrt Real.pi := by positivity
  have hI : 0 < ∫ x in a..b, Real.exp (-(x * x)) :=
    intervalIntegral.intervalIntegral_pos_of_pos_on (gauss_intervalIntegrable a b)
      (fun x _ => Real.exp_pos _) hab
  have := mul_pos hk hI
  linarith

namespace GaussianInterpolateImageFunction

/-- The evaluator's value as a quotient of two sums over the product of the per-axis
ranges. -/
theorem EvaluateAtContinuousIndex_eq_sums [NeZero D] (N : Numerics K)
    (self : GaussianInterpolateImageFunction K D) (image : Image K D) (cindex : Fin D → K)
    (g : Bool) :
    self.EvaluateAtContinuousIndex N image cindex g =
      (∑ j in Fintype.piFinset (fun d => Finset.Ico
          (rangeBegin (self.m_BoundingBoxStart d) (self.m_CutoffDistance d) (cindex d))
          (rangeEnd (boundingBoxSize (self.m_BoundingBoxStart d) (self.m_BoundingBoxEnd d))
            (self.m_BoundingBoxStart d) (self.m_CutoffDistance d) (cindex d))),
        (∏ d, readArray (self.ComputeErrorFunctionArray N d (cindex d) g).erfArray (j d)) *
          image.pixel j) /
      (∑ j in Fintype.piFinset (fun d => Finset.Ico
          (rangeBegin (self.m_BoundingBoxStart d) (self.m_CutoffDistance d) (cindex d))
          (rangeEnd (boundingBoxSize (self.m_BoundingBoxStart d) (self.m_BoundingBoxEnd d))
            (self.m_BoundingBoxStart d) (self.m_CutoffDistance d) (cindex d))),
        ∏ d, readArray (self.ComputeErrorFunctionArray N d (cindex d) g).erfArray (j d)) := by
  unfold EvaluateAtContinuousIndex evaluateSums
  simp only []
  rw [foldl_voxelBody_sum_me, foldl_voxelBody_sum_m, sum_map_regionIndices,
    sum_map_regionIndices]
  simp only [activeRegion, zero_add, add_sub_cancel, voxelWeight_eq_prod]
  congr 1
  refine Finset.sum_congr rfl (fun j _ => ?_)
  ring

/-- With a strictly increasing error function and a positive scaling factor every entry
written by `ComputeErrorFunctionArray` is strictly positive. -/
theorem readArray_erfArray_pos (N : Numerics K) (self : GaussianInterpolateImageFunction K D)
    (d : Fin D) (c : K) (g : Bool) (i : ℤ) (herf : StrictMono N.erf)
    (hsf : 0 < self.m_ScalingFactor d)
    (hi : rangeBegin (self.m_BoundingBoxStart d) (self.m_CutoffDistance d) c ≤ i ∧
      i < rangeEnd (boundingBoxSize (self.m_BoundingBoxStart d) (self.m_BoundingBoxEnd d))
        (self.m_BoundingBoxStart d) (self.m_CutoffDistance d) c) :
    0 < readArray (self.ComputeErrorFunctionArray N d c g).erfArray i := by
  rw [readArray, erfArray_closed_form, if_pos hi]
  simp only [Option.getD_some]
  have hlt : (self.m_BoundingBoxStart d - c + (i : K)) * self.m_ScalingFactor d <
      (self.m_BoundingBoxStart d - c + (i : K) + 1) * self.m_ScalingFactor d := by
    nlinarith
  have := herf hlt
  linarith

/-- After `ComputeBoundingBox` on a bound image the scaling factor is positive when
`sqrt2`, sigma and spacing are. -/
theorem scalingFactor_pos (N : Numerics K) (self : GaussianInterpolateImageFunction K D)
    (image : Image K D) (d : Fin D) (himage : self.inputImage = some image)
    (hsqrt2 : 0 < N.sqrt2) (hsigma : 0 < self.m_Sigma d) (hspacing : 0 < image.spacing d) :
    0 < (self.ComputeBoundingBox N).m_ScalingFactor d := by
  simp only [ComputeBoundingBox, himage]
  positivity

end GaussianInterpolateImageFunction

/-- At an integer index inside the grid with a cutoff distance in `[0, 1/2)` the per-axis
range is the single index. -/
theorem range_at_grid_point (bbSize j : ℤ) (cutoff : K) (h0 : 0 ≤ cutoff)
    (h1 : cutoff < 1 / 2) (hj0 : 0 ≤ j) (hj1 : j < bbSize) :
    rangeBegin (-(1 / 2) : K) cutoff (j : K) = j ∧
      rangeEnd bbSize (-(1 / 2) : K) cutoff (j : K) = j + 1 := by
  have hfl : ⌊(j : K) - -(1 / 2) - cutoff⌋ = j := by
    rw [Int.floor_eq_iff]
    constructor <;> linarith
  have hcl : ⌈(j : K) - -(1 / 2) + cutoff⌉ = j + 1 := by
    rw [Int.ceil_eq_iff]
    push_cast
    constructor <;> linarith
  unfold rangeBegin rangeEnd
  rw [hfl, hcl]
  constructor <;> omega

end Positivity

section ClaimsNearest

variable {K : Type} [LinearOrderedField K] [FloorRing K] {D : ℕ}

/-- C13: nearest-neighbour limit.  For every grid, every integer index `j` inside the grid
and every `sigma > 0`, `alpha ≥ 0`, `spacing > 0` with `sigma_d * alpha / spacing_d < 1/2`
on every axis (and a strictly increasing error function, `sqrt2 > 0`), after
`ComputeBoundingBox` the active region at the continuous index `j` is exactly the single
voxel `j`, and `EvaluateAtContinuousIndex` returns the stored intensity of voxel `j`. -/
theorem C13_nearest_neighbour [NeZero D] (N : Numerics K)
    (self : GaussianInterpolateImageFunction K D) (image : Image K D) (j : Fin D → ℤ)
    (g : Bool) (himage : self.inputImage = some image) (herf : StrictMono N.erf)
    (hsqrt2 : 0 < N.sqrt2) (hj : ∀ d, 0 ≤ j d ∧ j d < (image.size d : ℤ))
    (hsigma : ∀ d, 0 < self.m_Sigma d) (halpha : 0 ≤ self.m_Alpha)
    (hspacing : ∀ d, 0 < image.spacing d)
    (hcut : ∀ d, self.m_Sigma d * self.m_Alpha / image.spacing d < 1 / 2) :
    (∀ v, v ∈ regionIndices ((self.ComputeBoundingBox N).activeRegion (fun d => (j d : K))) ↔
      v = j) ∧
    (self.ComputeBoundingBox N).EvaluateAtContinuousIndex N image (fun d => (j d : K)) g =
      image.pixel j := by
  have hstart : ∀ d, (self.ComputeBoundingBox N).m_BoundingBoxStart d = -(1 / 2) := by
    intro d
    simp [GaussianInterpolateImageFunction.ComputeBoundingBox, himage]
  have hend : ∀ d, (self.ComputeBoundingBox N).m_BoundingBoxEnd d =
      (image.size d : K) - 1 / 2 := by
    intro d
    simp [GaussianInterpolateImageFunction.ComputeBoundingBox, himage]
  have hcutoff : ∀ d, (self.ComputeBoundingBox N).m_CutoffDistance d =
      self.m_Sigma d * self.m_Alpha / image.spacing d := by
    intro d
    simp [GaussianInterpolateImageFunction.ComputeBoundingBox, himage]
  have hcut0 : ∀ d, 0 ≤ self.m_Sigma d * self.m_Alpha / image.spacing d := fun d =>
    div_nonneg (mul_nonneg (hsigma d).le halpha) (hspacing d).le
  have hrange : ∀ d,
      rangeBegin ((self.ComputeBoundingBox N).m_BoundingBoxStart d)
        ((self.ComputeBoundingBox N).m_CutoffDistance d) ((j d : ℤ) : K) = j d ∧
      rangeEnd (boundingBoxSize ((self.ComputeBoundingBox N).m_BoundingBoxStart d)
          ((self.ComputeBoundingBox N).m_BoundingBoxEnd d))
        ((self.ComputeBoundingBox N).m_BoundingBoxStart d)
        ((self.ComputeBoundingBox N).m_CutoffDistance d) ((j d : ℤ) : K) = j d + 1 := by
    intro d
    rw [hstart, hend, hcutoff, boundingBoxSize_eq_size]
    exact range_at_grid_point _ _ _ (hcut0 d) (hcut d) (hj d).1 (hj d).2
  have hbox : Fintype.piFinset (fun d => Finset.Ico
      (rangeBegin ((self.ComputeBoundingBox N).m_BoundingBoxStart d)
        ((self.ComputeBoundingBox N).m_CutoffDistance d) ((j d : ℤ) : K))
      (rangeEnd (boundingBoxSize ((self.ComputeBoundingBox N).m_BoundingBoxStart d)
          ((self.ComputeBoundingBox N).m_BoundingBoxEnd d))
        ((self.ComputeBoundingBox N).m_BoundingBoxStart d)
        ((self.ComputeBoundingBox N).m_CutoffDistance d) ((j d : ℤ) : K))) = {j} := by
    ext v
    simp only [Fintype.mem_piFinset, Finset.mem_Ico, Finset.mem_singleton]
    constructor
    · intro h
      funext d
      have hd := h d
      rw [(hrange d).1, (hrange d).2] at hd
      omega
    · rintro rfl d
      rw [(hrange d).1, (hrange d).2]
      omega
  refine ⟨fun v => ?_, ?_⟩
  · rw [mem_regionIndices]
    simp only [GaussianInterpolateImageFunction.activeRegion]
    constructor
    · intro h
      funext d
      have hd := h d
      rw [(hrange d).1, (hrange d).2] at hd
      omega
    · rintro rfl d
      rw [(hrange d).1, (hrange d).2]
      omega
  · rw [GaussianInterpolateImageFunction.EvaluateAtContinuousIndex_eq_sums, hbox,
      Finset.sum_singleton, Finset.sum_singleton]
    have hW : (∏ d, GaussianInterpolateImageFunction.readArray
        ((self.ComputeBoundingBox N).ComputeErrorFunctionArray N d ((j d : ℤ) : K) g).erfArray
        (j d)) ≠ 0 := by
      refine ne_of_gt (Finset.prod_pos (fun d _ => ?_))
      refine GaussianInterpolateImageFunction.readArray_erfArray_pos N _ d _ g _ herf
        (GaussianInterpolateImageFunction.scalingFactor_pos N self image d himage hsqrt2
          (hsigma d) (hspacing d)) ?_
      rw [(hrange d).1, (hrange d).2]
      omega
    exact mul_div_cancel_left₀ _ hW

/-- Instance of C13 on the two-voxel line at the grid point `1` with `sigma = 1/8`,
`alpha = 1` (cutoff `1/8`) and the real error function. -/
theorem C13_witness :
    (lineInterpolatorInit (1 / 8 : ℝ) 1).inputImage = some lineImage ∧
    StrictMono realNumerics.erf ∧
    0 < realNumerics.sqrt2 ∧
    (0 : ℝ) < 1 / 8 ∧
    (1 / 8 : ℝ) * 1 / 1 < 1 / 2 ∧
    ((lineInterpolatorInit (1 / 8 : ℝ) 1).ComputeBoundingBox realNumerics
      ).EvaluateAtContinuousIndex realNumerics lineImage
        (fun d => (((fun _ => 1 : Fin 1 → ℤ) d : ℤ) : ℝ)) false =
      (lineImage : Image ℝ 1).pixel (fun _ => 1) :=
  have hsqrt2 : 0 < realNumerics.sqrt2 := Real.sqrt_pos.2 (by norm_num)
  have h8 : (0 : ℝ) < 1 / 8 := by norm_num
  have hcut : (1 / 8 : ℝ) * 1 / 1 < 1 / 2 := by norm_num
  ⟨rfl, realErf_strictMono, hsqrt2, h8, hcut,
    (C13_nearest_neighbour realNumerics (lineInterpolatorInit (1 / 8 : ℝ) 1) lineImage
      (fun _ => 1) false rfl realErf_strictMono hsqrt2
      (fun _ => by simp [lineImage])
      (fun _ => h8) (by simp [lineInterpolatorInit])
      (fun _ => by simp [lineImage])
      (fun _ => hcut)).2⟩

end ClaimsNearest

section ClaimsWrittenEntries

variable {K : Type} [LinearOrderedField K] [FloorRing K] {D : ℕ}

/-- On the two-voxel line with cutoff `1/8` the range at the continuous index `0` is the
single index `0`. -/
theorem lineInterpolator_narrow_range (N : Numerics K) :
    rangeBegin ((lineInterpolator N (1 / 8) 1).m_BoundingBoxStart 0)
        ((lineInterpolator N (1 / 8) 1).m_CutoffDistance 0) (0 : K) = 0 ∧
      rangeEnd (boundingBoxSize ((lineInterpolator N (1 / 8) 1).m_BoundingBoxStart 0)
          ((lineInterpolator N (1 / 8) 1).m_BoundingBoxEnd 0))
        ((lineInterpolator N (1 / 8) 1).m_BoundingBoxStart 0)
        ((lineInterpolator N (1 / 8) 1).m_CutoffDistance 0) (0 : K) = 1 := by
  have hs : boundingBoxSize (-(1 / 2) : K) (((2 : ℕ) : K) - 1 / 2) = ((2 : ℕ) : ℤ) :=
    boundingBoxSize_eq_size 2
  have h := range_at_grid_point (K := K) 2 0 (1 / 8 * 1 / 1) (by norm_num) (by norm_num)
    (by norm_num) (by norm_num)
  simp only [Int.cast_zero, zero_add] at h
  simp only [lineInterpolator, lineInterpolatorInit,
    GaussianInterpolateImageFunction.ComputeBoundingBox, lineImage, hs]
  exact h

/-- On a row of four voxels with `sigma = 1/8`, `alpha = 16` (cutoff `2`) the range at the
continuous index `0` is `[0, 3)`. -/
theorem rowInterpolator_wide_range (N : Numerics K) :
    rangeBegin ((rowInterpolator N 4 (1 / 8) 16).m_BoundingBoxStart 0)
        ((rowInterpolator N 4 (1 / 8) 16).m_CutoffDistance 0) (0 : K) = 0 ∧
      rangeEnd (boundingBoxSize ((rowInterpolator N 4 (1 / 8) 16).m_BoundingBoxStart 0)
          ((rowInterpolator N 4 (1 / 8) 16).m_BoundingBoxEnd 0))
        ((rowInterpolator N 4 (1 / 8) 16).m_BoundingBoxStart 0)
        ((rowInterpolator N 4 (1 / 8) 16).m_CutoffDistance 0) (0 : K) = 3 := by
  have hfloor : ⌊(0 : K) - -(1 / 2) - 1 / 8 * 16 / 1⌋ = -2 := by
    rw [Int.floor_eq_iff]
    constructor <;> norm_num
  have hceil : ⌈(0 : K) - -(1 / 2) + 1 / 8 * 16 / 1⌉ = 3 := by
    rw [Int.ceil_eq_iff]
    constructor <;> norm_num
  have hs : boundingBoxSize (-(1 / 2) : K) (((4 : ℕ) : K) - 1 / 2) = ((4 : ℕ) : ℤ) :=
    boundingBoxSize_eq_size 4
  simp only [rowInterpolator, rowImage, GaussianInterpolateImageFunction.ComputeBoundingBox,
    rangeBegin, rangeEnd, hfloor, hceil, hs]
  constructor <;> rfl

/-- C18 (counterexample): two inputs with `sigma = 1/8 > 0` and unit spacing.  On the
two-voxel line with `alpha = 1` the weight array for the continuous index `0` has length
`2` and range `[0, 1)`; its entry `1` is never written by `ComputeErrorFunctionArray`, so
it does not hold the value `0`.  On a row of four voxels with `alpha = 16` the range for
the continuous index `0` is `[0, 3)`, and with a `vnl_erf` that has reached `1` at `6` the
written entry `2` is `erf(20/√2) - erf(12/√2) = 0`: an entry inside the range that is not
strictly positive. -/
theorem C18_counterexample :
    boundingBoxSize ((lineInterpolator realNumerics (1 / 8) 1).m_BoundingBoxStart 0)
      ((lineInterpolator realNumerics (1 / 8) 1).m_BoundingBoxEnd 0) = 2 ∧
    rangeEnd (boundingBoxSize ((lineInterpolator realNumerics (1 / 8) 1).m_BoundingBoxStart 0)
        ((lineInterpolator realNumerics (1 / 8) 1).m_BoundingBoxEnd 0))
      ((lineInterpolator realNumerics (1 / 8) 1).m_BoundingBoxStart 0)
      ((lineInterpolator realNumerics (1 / 8) 1).m_CutoffDistance 0) (0 : ℝ) = 1 ∧
    ((lineInterpolator realNumerics (1 / 8) 1).ComputeErrorFunctionArray realNumerics 0 0
      false).erfArray 1 = none ∧
    ((lineInterpolator realNumerics (1 / 8) 1).ComputeErrorFunctionArray realNumerics 0 0
      false).erfArray 1 ≠ some 0 ∧
    rangeBegin ((rowInterpolator doubleRangeNumerics 4 (1 / 8) 16).m_BoundingBoxStart 0)
      ((rowInterpolator doubleRangeNumerics 4 (1 / 8) 16).m_CutoffDistance 0) (0 : ℝ) = 0 ∧
    rangeEnd
      (boundingBoxSize ((rowInterpolator doubleRangeNumerics 4 (1 / 8) 16).m_BoundingBoxStart 0)
        ((rowInterpolator doubleRangeNumerics 4 (1 / 8) 16).m_BoundingBoxEnd 0))
      ((rowInterpolator doubleRangeNumerics 4 (1 / 8) 16).m_BoundingBoxStart 0)
      ((rowInterpolator doubleRangeNumerics 4 (1 / 8) 16).m_CutoffDistance 0) (0 : ℝ) = 3 ∧
    ((rowInterpolator doubleRangeNumerics 4 (1 / 8) 16).ComputeErrorFunctionArray
      doubleRangeNumerics 0 0 false).erfArray 2 = some 0 := by
  have hr := lineInterpolator_narrow_range (K := ℝ) realNumerics
  have hnone : ((lineInterpolator realNumerics (1 / 8) 1).ComputeErrorFunctionArray
      realNumerics 0 0 false).erfArray 1 = none := by
    rw [GaussianInterpolateImageFunction.erfArray_closed_form, if_neg]
    rw [hr.1, hr.2]
    omega
  have hw := rowInterpolator_wide_range (K := ℝ) doubleRangeNumerics
  have hsq : Real.sqrt 2 * Real.sqrt 2 = 2 := Real.mul_self_sqrt (by norm_num)
  have hpos : 0 < Real.sqrt 2 := Real.sqrt_pos.2 (by norm_num)
  have hle : Real.sqrt 2 ≤ 2 := by nlinarith
  have hsf : (rowInterpolator doubleRangeNumerics 4 (1 / 8) 16).m_ScalingFactor 0 =
      8 / Real.sqrt 2 := by
    show (1 : ℝ) / (Real.sqrt 2 * (1 / 8) / 1) = 8 / Real.sqrt 2
    field_simp
  have hstart : (rowInterpolator doubleRangeNumerics 4 (1 / 8) 16).m_BoundingBoxStart 0 =
      -(1 / 2) := rfl
  have hbig : (4 : ℝ) ≤ 8 / Real.sqrt 2 := by
    rw [le_div_iff₀ hpos]
    linarith
  have hsat : ∀ t : ℝ, 6 ≤ t → doubleRangeNumerics.erf t = 1 := by
    intro t ht
    show (if 6 ≤ t then (1 : ℝ) else if t ≤ -6 then -1 else realErf t) = 1
    rw [if_pos ht]
  refine ⟨?_, hr.2, hnone, ?_, hw.1, hw.2, ?_⟩
  · simp only [lineInterpolator, lineInterpolatorInit,
      GaussianInterpolateImageFunction.ComputeBoundingBox, lineImage]
    exact boundingBoxSize_eq_size 2
  · rw [hnone]
    simp
  · rw [GaussianInterpolateImageFunction.erfArray_closed_form, if_pos (by rw [hw.1, hw.2]; omega),
      hstart, hsf, hsat _ (by push_cast; nlinarith), hsat _ (by push_cast; nlinarith), sub_self]

/-- C18 (amended): after `ComputeBoundingBox` with `sigma > 0` and `spacing > 0`
(`sqrt2 > 0`), on every axis every entry of the weight array with `begin ≤ i < end` is
written and holds `erf(t + sf) - erf(t)` for two loop arguments `t < t + sf`: it is `≥ 0`
for a non-decreasing error function and `> 0` for a strictly increasing one (so it is `0`
where the library function has reached its limit value); every entry with `i < begin` or
`i ≥ end` is never written by `ComputeErrorFunctionArray` (it holds no defined value, in
particular not a guaranteed zero) and is never read by the evaluator: the voxel loop, run
over a region of non-negative size, leaves the same accumulators whatever the arrays hold
outside `[begin, end)`. -/
theorem C18_written_entries [NeZero D] (N : Numerics K)
    (self : GaussianInterpolateImageFunction K D) (image : Image K D) (c : Fin D → K)
    (g : Bool) (himage : self.inputImage = some image) (hsqrt2 : 0 < N.sqrt2)
    (hsigma : ∀ d, 0 < self.m_Sigma d) (hspacing : ∀ d, 0 < image.spacing d) :
    (∀ (d : Fin D) (i : ℤ),
      rangeBegin ((self.ComputeBoundingBox N).m_BoundingBoxStart d)
        ((self.ComputeBoundingBox N).m_CutoffDistance d) (c d) ≤ i →
      i < rangeEnd (boundingBoxSize ((self.ComputeBoundingBox N).m_BoundingBoxStart d)
          ((self.ComputeBoundingBox N).m_BoundingBoxEnd d))
        ((self.ComputeBoundingBox N).m_BoundingBoxStart d)
        ((self.ComputeBoundingBox N).m_CutoffDistance d) (c d) →
      ((self.ComputeBoundingBox N).ComputeErrorFunctionArray N d (c d) g).erfArray i =
        some (N.erf (((self.ComputeBoundingBox N).m_BoundingBoxStart d - c d + (i : K) + 1) *
            (self.ComputeBoundingBox N).m_ScalingFactor d) -
          N.erf (((self.ComputeBoundingBox N).m_BoundingBoxStart d - c d + (i : K)) *
            (self.ComputeBoundingBox N).m_ScalingFactor d)) ∧
      ((self.ComputeBoundingBox N).m_BoundingBoxStart d - c d + (i : K)) *
          (self.ComputeBoundingBox N).m_ScalingFactor d <
        ((self.ComputeBoundingBox N).m_BoundingBoxStart d - c d + (i : K) + 1) *
          (self.ComputeBoundingBox N).m_ScalingFactor d ∧
      (Monotone N.erf → 0 ≤ GaussianInterpolateImageFunction.readArray
        ((self.ComputeBoundingBox N).ComputeErrorFunctionArray N d (c d) g).erfArray i) ∧
      (StrictMono N.erf → 0 < GaussianInterpolateImageFunction.readArray
        ((self.ComputeBoundingBox N).ComputeErrorFunctionArray N d (c d) g).erfArray i)) ∧
    (∀ (d : Fin D) (i : ℤ),
      (i < rangeBegin ((self.ComputeBoundingBox N).m_BoundingBoxStart d)
          ((self.ComputeBoundingBox N).m_CutoffDistance d) (c d) ∨
        rangeEnd (boundingBoxSize ((self.ComputeBoundingBox N).m_BoundingBoxStart d)
            ((self.ComputeBoundingBox N).m_BoundingBoxEnd d))
          ((self.ComputeBoundingBox N).m_BoundingBoxStart d)
          ((self.ComputeBoundingBox N).m_CutoffDistance d) (c d) ≤ i) →
      ((self.ComputeBoundingBox N).ComputeErrorFunctionArray N d (c d) g).erfArray i = none) ∧
    (∀ erfArray gerfArray : Fin D → ℤ → Option K,
      (∀ (d : Fin D) (i : ℤ),
        rangeBegin ((self.ComputeBoundingBox N).m_BoundingBoxStart d)
          ((self.ComputeBoundingBox N).m_CutoffDistance d) (c d) ≤ i →
        i < rangeEnd (boundingBoxSize ((self.ComputeBoundingBox N).m_BoundingBoxStart d)
            ((self.ComputeBoundingBox N).m_BoundingBoxEnd d))
          ((self.ComputeBoundingBox N).m_BoundingBoxStart d)
          ((self.ComputeBoundingBox N).m_CutoffDistance d) (c d) →
        erfArray d i =
            ((self.ComputeBoundingBox N).ComputeErrorFunctionArray N d (c d) g).erfArray i ∧
          gerfArray d i =
            ((self.ComputeBoundingBox N).ComputeErrorFunctionArray N d (c d) g).gerfArray i) →
      (∀ d, 0 ≤ ((self.ComputeBoundingBox N).activeRegion c).size d) →
      (regionIndices ((self.ComputeBoundingBox N).activeRegion c)).foldl
          (GaussianInterpolateImageFunction.voxelBody image erfArray gerfArray g)
          { sum_me := 0, sum_m := 0, dsum_me := fun _ => 0, dsum_m := fun _ => 0 } =
        (self.ComputeBoundingBox N).evaluateSums N image c g) := by
  have hsf : ∀ d, 0 < (self.ComputeBoundingBox N).m_ScalingFactor d := fun d =>
    GaussianInterpolateImageFunction.scalingFactor_pos N self image d himage hsqrt2 (hsigma d)
      (hspacing d)
  refine ⟨fun d i hb he => ?_, fun d i hout => ?_, fun erfArray gerfArray hsame _ => ?_⟩
  · have hlt : ((self.ComputeBoundingBox N).m_BoundingBoxStart d - c d + (i : K)) *
          (self.ComputeBoundingBox N).m_ScalingFactor d <
        ((self.ComputeBoundingBox N).m_BoundingBoxStart d - c d + (i : K) + 1) *
          (self.ComputeBoundingBox N).m_ScalingFactor d := by
      have := hsf d
      nlinarith
    have hentry : ((self.ComputeBoundingBox N).ComputeErrorFunctionArray N d (c d) g).erfArray i =
        some (N.erf (((self.ComputeBoundingBox N).m_BoundingBoxStart d - c d + (i : K) + 1) *
            (self.ComputeBoundingBox N).m_ScalingFactor d) -
          N.erf (((self.ComputeBoundingBox N).m_BoundingBoxStart d - c d + (i : K)) *
            (self.ComputeBoundingBox N).m_ScalingFactor d)) := by
      rw [GaussianInterpolateImageFunction.erfArray_closed_form, if_pos ⟨hb, he⟩]
    refine ⟨hentry, hlt, fun hmono => ?_, fun hstrict => ?_⟩
    · rw [GaussianInterpolateImageFunction.readArray, hentry, Option.getD_some]
      exact sub_nonneg.2 (hmono hlt.le)
    · rw [GaussianInterpolateImageFunction.readArray, hentry, Option.getD_some]
      exact sub_pos.2 (hstrict hlt)
  · rw [GaussianInterpolateImageFunction.erfArray_closed_form, if_neg]
    intro h
    rcases hout with h1 | h1 <;> omega
  · unfold GaussianInterpolateImageFunction.evaluateSums
    refine List.foldl_ext _ _ _ (fun s j hj => ?_)
    have hjd : ∀ d,
        rangeBegin ((self.ComputeBoundingBox N).m_BoundingBoxStart d)
            ((self.ComputeBoundingBox N).m_CutoffDistance d) (c d) ≤ j d ∧
          j d < rangeEnd (boundingBoxSize ((self.ComputeBoundingBox N).m_BoundingBoxStart d)
              ((self.ComputeBoundingBox N).m_BoundingBoxEnd d))
            ((self.ComputeBoundingBox N).m_BoundingBoxStart d)
            ((self.ComputeBoundingBox N).m_CutoffDistance d) (c d) := by
      intro d
      have h := (mem_regionIndices _ _).1 hj d
      simpa only [GaussianInterpolateImageFunction.activeRegion, add_sub_cancel] using h
    have hW : GaussianInterpolateImageFunction.voxelWeight erfArray j =
        GaussianInterpolateImageFunction.voxelWeight
          (fun d => ((self.ComputeBoundingBox N).ComputeErrorFunctionArray N d (c d)
            g).erfArray) j := by
      rw [GaussianInterpolateImageFunction.voxelWeight_eq_prod,
        GaussianInterpolateImageFunction.voxelWeight_eq_prod]
      refine Finset.prod_congr rfl (fun d _ => ?_)
      rw [GaussianInterpolateImageFunction.readArray, (hsame d (j d) (hjd d).1 (hjd d).2).1]
      rfl
    have hG : GaussianInterpolateImageFunction.voxelGradWeight erfArray gerfArray j =
        GaussianInterpolateImageFunction.voxelGradWeight
          (fun d => ((self.ComputeBoundingBox N).ComputeErrorFunctionArray N d (c d)
            g).erfArray)
          (fun d => ((self.ComputeBoundingBox N).ComputeErrorFunctionArray N d (c d)
            g).gerfArray) j := by
      funext q
      rw [GaussianInterpolateImageFunction.voxelGradWeight_eq_prod,
        GaussianInterpolateImageFunction.voxelGradWeight_eq_prod]
      congr 1
      · rw [GaussianInterpolateImageFunction.readArray,
          (hsame q (j q) (hjd q).1 (hjd q).2).2]
        rfl
      · refine Finset.prod_congr rfl (fun d _ => ?_)
        rw [GaussianInterpolateImageFunction.readArray,
          (hsame d (j d) (hjd d).1 (hjd d).2).1]
        rfl
    simp only [GaussianInterpolateImageFunction.voxelBody, hW, hG]

/-- Instance of C18 (amended) on the two-voxel line with `sigma = 1/8`, `alpha = 1` at the
continuous index `0`: entry `1` lies outside the range `[0, 1)` and is not written. -/
theorem C18_witness :
    (lineInterpolatorInit (1 / 8 : ℝ) 1).inputImage = some lineImage ∧
    0 < realNumerics.sqrt2 ∧
    rangeEnd (boundingBoxSize ((lineInterpolator realNumerics (1 / 8) 1).m_BoundingBoxStart 0)
        ((lineInterpolator realNumerics (1 / 8) 1).m_BoundingBoxEnd 0))
      ((lineInterpolator realNumerics (1 / 8) 1).m_BoundingBoxStart 0)
      ((lineInterpolator realNumerics (1 / 8) 1).m_CutoffDistance 0) (0 : ℝ) ≤ 1 ∧
    ((lineInterpolator realNumerics (1 / 8) 1).ComputeErrorFunctionArray realNumerics 0 0
      true).erfArray 1 = none :=
  have hsqrt2 : 0 < realNumerics.sqrt2 := Real.sqrt_pos.2 (by norm_num)
  have hend : rangeEnd
      (boundingBoxSize ((lineInterpolator realNumerics (1 / 8) 1).m_BoundingBoxStart 0)
        ((lineInterpolator realNumerics (1 / 8) 1).m_BoundingBoxEnd 0))
      ((lineInterpolator realNumerics (1 / 8) 1).m_BoundingBoxStart 0)
      ((lineInterpolator realNumerics (1 / 8) 1).m_CutoffDistance 0) (0 : ℝ) ≤ 1 :=
    le_of_eq (lineInterpolator_narrow_range realNumerics).2
  ⟨rfl, hsqrt2, hend,
    (C18_written_entries realNumerics (lineInterpolatorInit (1 / 8 : ℝ) 1) lineImage
      (fun _ => (0 : ℝ)) true rfl hsqrt2 (fun _ => by simp [lineInterpolatorInit])
      (fun _ => by simp [lineImage])).2.1 0 1 (Or.inr hend)⟩

end ClaimsWrittenEntries

/-! ## Concurrent writes of two workers -/

section Workers

variable {K : Type} [LinearOrderedField K] [FloorRing K] {D : ℕ}

namespace AdjointOrientedGaussianInterpolateImageFilter

/-- The second loop of a sample is, at every voxel of the region, the read
`value = outIt.Get() + inIt.Get()*w/sum_m` followed by the write `outIt.Set( value )`. -/
theorem splatSample_eq_read_write (N : Numerics K)
    (self : AdjointOrientedGaussianInterpolateImageFilter K D) (c : Fin D → K) (x : K)
    (buffer : (Fin D → ℤ) → K) :
    self.splatSample N c x buffer =
      (regionIndices (self.outputRegion c)).foldl
        (fun buf idx => writeBack buf idx
          (readModify buf idx x (ComputeExponentialFunction N idx c self.CovScaledInv)
            (self.localSum N c)))
        buffer :=
  rfl

/-- With a positive exponential the local sum of a non-empty region is positive. -/
theorem localSum_pos (N : Numerics K)
    (self : AdjointOrientedGaussianInterpolateImageFilter K D) (c : Fin D → K)
    (hexp : ∀ t, 0 < N.exp t) (v : Fin D → ℤ) (hv : v ∈ regionIndices (self.outputRegion c)) :
    0 < self.localSum N c := by
  rw [localSum_eq_sum]
  refine List.sum_pos _ ?_ ?_
  · intro w hw
    rw [List.mem_map] at hw
    obtain ⟨u, _, rfl⟩ := hw
    exact hexp _
  · intro hmap
    rw [List.map_eq_nil_iff] at hmap
    rw [hmap] at hv
    exact List.not_mem_nil _ hv

end AdjointOrientedGaussianInterpolateImageFilter

theorem identityGeometry_one :
    (identityGeometry : Geometry K 1).outputCIndex (fun _ => 1) = fun _ => (1 : K) := by
  funext d
  simp [identityGeometry, Geometry.outputCIndex]

theorem lineFilter_one_begin :
    ((lineFilter (1 / 8 : K) 8).BeforeThreadedGenerateData).boxBegin (fun _ => (1 : K)) 0 = 0 := by
  have h : ⌊(1 : K) - -(1 / 2) - 1 / 8 * 8 / 1⌋ = 0 := by
    rw [Int.floor_eq_iff]
    constructor <;> norm_num
  have hs : boundingBoxSize (-(1 / 2) : K) (((2 : ℕ) : K) - 1 / 2) = ((2 : ℕ) : ℤ) :=
    boundingBoxSize_eq_size 2
  simp only [AdjointOrientedGaussianInterpolateImageFilter.boxBegin,
    AdjointOrientedGaussianInterpolateImageFilter.BeforeThreadedGenerateData,
    AdjointOrientedGaussianInterpolateImageFilter.ComputeBoundingBox, lineFilter, lineImage,
    rangeBegin, h, hs]
  rfl

theorem lineFilter_one_end :
    ((lineFilter (1 / 8 : K) 8).BeforeThreadedGenerateData).boxEnd (fun _ => (1 : K)) 0 = 2 := by
  have h : ⌈(1 : K) - -(1 / 2) + 1 / 8 * 8 / 1⌉ = 3 := by
    rw [Int.ceil_eq_iff]
    constructor <;> norm_num
  have hs : boundingBoxSize (-(1 / 2) : K) (((2 : ℕ) : K) - 1 / 2) = ((2 : ℕ) : ℤ) :=
    boundingBoxSize_eq_size 2
  simp only [AdjointOrientedGaussianInterpolateImageFilter.boxEnd,
    AdjointOrientedGaussianInterpolateImageFilter.BeforeThreadedGenerateData,
    AdjointOrientedGaussianInterpolateImageFilter.ComputeBoundingBox, lineFilter, lineImage,
    rangeEnd, h, hs]
  rfl

/-- Voxel `0` lies in the region of the sample landing on the continuous index `0`. -/
theorem lineFilter_origin_mem :
    (fun _ => 0) ∈ regionIndices (((lineFilter (1 / 8 : K) 8).BeforeThreadedGenerateData
      ).outputRegion (identityGeometry.outputCIndex (fun _ => 0))) := by
  rw [identityGeometry_origin, lineFilter_origin_region]
  simp

/-- Voxel `0` lies in the region of the sample landing on the continuous index `1`. -/
theorem lineFilter_one_mem :
    (fun _ => 0) ∈ regionIndices (((lineFilter (1 / 8 : K) 8).BeforeThreadedGenerateData
      ).outputRegion (identityGeometry.outputCIndex (fun _ => 1))) := by
  rw [identityGeometry_one, AdjointOrientedGaussianInterpolateImageFilter.mem_outputRegion]
  intro d
  have hd : d = 0 := Subsingleton.elim _ _
  subst hd
  rw [lineFilter_one_begin, lineFilter_one_end]
  omega

end Workers

/-! ## Claim C16 -/

section ClaimsWorkers

/-- C16: on the two-voxel line with `sigma = 1/8`, `alpha = 8` and the identity geometry,
the worker of source voxel `0` and the worker of source voxel `1` both update destination
voxel `0`; each update is the plain read `outIt.Get() + inIt.Get()*w/sum_m` followed by the
plain write `outIt.Set( value )` on the shared buffer, and when both workers read before
either writes, the buffer ends with a value different from the one every sequential
schedule gives: the update of the first worker is lost. -/
theorem C16_unsynchronised_read_modify_write :
    ((fun _ => 0) ∈ regionIndices (((lineFilter (1 / 8 : ℝ) 8).BeforeThreadedGenerateData
        ).outputRegion (identityGeometry.outputCIndex (fun _ => 0)))) ∧
    ((fun _ => 0) ∈ regionIndices (((lineFilter (1 / 8 : ℝ) 8).BeforeThreadedGenerateData
        ).outputRegion (identityGeometry.outputCIndex (fun _ => 1)))) ∧
    AdjointOrientedGaussianInterpolateImageFilter.writeBack
        (AdjointOrientedGaussianInterpolateImageFilter.writeBack
          ((lineFilter (1 / 8 : ℝ) 8).BeforeThreadedGenerateData).output.pixel (fun _ => 0)
          (AdjointOrientedGaussianInterpolateImageFilter.readModify
            ((lineFilter (1 / 8 : ℝ) 8).BeforeThreadedGenerateData).output.pixel (fun _ => 0)
            ((onesImage : Image ℝ 1).pixel (fun _ => 0))
            (AdjointOrientedGaussianInterpolateImageFilter.ComputeExponentialFunction
              realNumerics (fun _ => 0) (identityGeometry.outputCIndex (fun _ => 0))
              ((lineFilter (1 / 8 : ℝ) 8).BeforeThreadedGenerateData).CovScaledInv)
            (((lineFilter (1 / 8 : ℝ) 8).BeforeThreadedGenerateData).localSum realNumerics
              (identityGeometry.outputCIndex (fun _ => 0)))))
        (fun _ => 0)
        (AdjointOrientedGaussianInterpolateImageFilter.readModify
          ((lineFilter (1 / 8 : ℝ) 8).BeforeThreadedGenerateData).output.pixel (fun _ => 0)
          ((onesImage : Image ℝ 1).pixel (fun _ => 1))
          (AdjointOrientedGaussianInterpolateImageFilter.ComputeExponentialFunction
            realNumerics (fun _ => 0) (identityGeometry.outputCIndex (fun _ => 1))
            ((lineFilter (1 / 8 : ℝ) 8).BeforeThreadedGenerateData).CovScaledInv)
          (((lineFilter (1 / 8 : ℝ) 8).BeforeThreadedGenerateData).localSum realNumerics
            (identityGeometry.outputCIndex (fun _ => 1))))
        (fun _ => 0) ≠
      ((lineFilter (1 / 8 : ℝ) 8).GenerateData realNumerics identityGeometry onesImage
        [voxelRegion 0, voxelRegion 1]).output.pixel (fun _ => 0) := by
  have hA := lineFilter_origin_mem (K := ℝ)
  have hB := lineFilter_one_mem (K := ℝ)
  refine ⟨hA, hB, ?_⟩
  have hexp : ∀ t, 0 < (realNumerics).exp t := fun t => Real.exp_pos t
  have hsA := AdjointOrientedGaussianInterpolateImageFilter.localSum_pos realNumerics
    ((lineFilter (1 / 8 : ℝ) 8).BeforeThreadedGenerateData) _ hexp _ hA
  have hwA : 0 <
      AdjointOrientedGaussianInterpolateImageFilter.ComputeExponentialFunction
        realNumerics (fun _ => 0) (identityGeometry.outputCIndex (fun _ => 0))
        ((lineFilter (1 / 8 : ℝ) 8).BeforeThreadedGenerateData).CovScaledInv := hexp _
  rw [AdjointOrientedGaussianInterpolateImageFilter.GenerateData_pixel,
    AdjointOrientedGaussianInterpolateImageFilter.splatSamples_apply]
  simp only [List.flatMap_cons, List.flatMap_nil, List.append_nil, regionIndices_voxelRegion,
    List.singleton_append, List.map_cons, List.map_nil, List.sum_cons, List.sum_nil,
    if_pos hA, if_pos hB, AdjointOrientedGaussianInterpolateImageFilter.writeBack,
    AdjointOrientedGaussianInterpolateImageFilter.readModify, Function.update_same]
  have hpos := div_pos (mul_pos (show (0 : ℝ) < (onesImage : Image ℝ 1).pixel (fun _ => 0) from
    one_pos) hwA) hsA
  intro h
  linarith

end ClaimsWorkers

/-! ## Separable weights as cell integrals -/

section CellIntegrals

/-- A difference of error-function values over one step of the loop is the integral of a
Gaussian factor over one cell of the grid. -/
theorem realErf_cell (start c sf i : ℝ) :
    realErf ((start - c + i + 1) * sf) - realErf ((start - c + i) * sf) =
      2 / Real.sqrt Real.pi *
        (sf * ∫ x in (start + i)..(start + i + 1),
          Real.exp (-(((x - c) * sf) * ((x - c) * sf)))) := by
  rw [realErf_sub]
  congr 1
  have h := intervalIntegral.mul_integral_comp_mul_sub (a := start + i) (b := start + i + 1)
    (f := fun u : ℝ => Real.exp (-(u * u))) sf (c * sf)
  have e1 : sf * (start + i) - c * sf = (start - c + i) * sf := by ring
  have e2 : sf * (start + i + 1) - c * sf = (start - c + i + 1) * sf := by ring
  rw [e1, e2] at h
  rw [← h]
  congr 1
  refine intervalIntegral.integral_congr (fun x _ => ?_)
  show Real.exp (-((sf * x - c * sf) * (sf * x - c * sf))) =
    Real.exp (-(((x - c) * sf) * ((x - c) * sf)))
  congr 1
  ring

/-- The square of a displacement scaled by `1 / (√2 σ / spacing)` is half the square of
the displacement in units of `σ`. -/
theorem scaled_sq (u spacing sigma : ℝ) :
    (u * (1 / (Real.sqrt 2 * sigma / spacing))) * (u * (1 / (Real.sqrt 2 * sigma / spacing))) =
      1 / 2 * (u * spacing / sigma) ^ 2 := by
  have hsq : Real.sqrt 2 * Real.sqrt 2 = 2 := Real.mul_self_sqrt (by norm_num)
  have hpos : Real.sqrt 2 ≠ 0 := (Real.sqrt_pos.2 (by norm_num)).ne'
  by_cases hs : sigma = 0
  · subst hs
    simp
  by_cases hp : spacing = 0
  · subst hp
    simp
  field_simp
  have e : (u * spacing) ^ 2 * (Real.sqrt 2 * sigma * (Real.sqrt 2 * sigma)) =
      (u * spacing) ^ 2 * ((Real.sqrt 2 * Real.sqrt 2) * sigma ^ 2) := by ring
  rw [e, hsq]
  ring

end CellIntegrals

/-! ## Claim C14 -/

section ClaimsSeparable

variable {D : ℕ}

/-- The two separable weights of the interpolator on the two-voxel line at the continuous
index `0` (`sigma = 1/8`, `alpha = 8`). -/
theorem lineInterpolator_origin_weights (N : Numerics ℝ) :
    GaussianInterpolateImageFunction.voxelWeight
        (fun d => ((lineInterpolator N (1 / 8) 8).ComputeErrorFunctionArray N d
          ((fun _ => (0 : ℝ)) d) false).erfArray) (fun _ => 0) =
      N.erf (1 / 2 * (1 / (N.sqrt2 * (1 / 8) / 1))) -
        N.erf (-(1 / 2) * (1 / (N.sqrt2 * (1 / 8) / 1))) ∧
    GaussianInterpolateImageFunction.voxelWeight
        (fun d => ((lineInterpolator N (1 / 8) 8).ComputeErrorFunctionArray N d
          ((fun _ => (0 : ℝ)) d) false).erfArray) (fun _ => 1) =
      N.erf (3 / 2 * (1 / (N.sqrt2 * (1 / 8) / 1))) -
        N.erf (1 / 2 * (1 / (N.sqrt2 * (1 / 8) / 1))) := by
  constructor
  · simp only [GaussianInterpolateImageFunction.voxelWeight_eq_prod, Fin.prod_univ_one,
      GaussianInterpolateImageFunction.readArray,
      GaussianInterpolateImageFunction.erfArray_closed_form, lineInterpolator_origin_begin,
      lineInterpolator_origin_end]
    norm_num [lineImage, lineInterpolator, lineInterpolatorInit,
      GaussianInterpolateImageFunction.ComputeBoundingBox]
  · simp only [GaussianInterpolateImageFunction.voxelWeight_eq_prod, Fin.prod_univ_one,
      GaussianInterpolateImageFunction.readArray,
      GaussianInterpolateImageFunction.erfArray_closed_form, lineInterpolator_origin_begin,
      lineInterpolator_origin_end]
    norm_num [lineImage, lineInterpolator, lineInterpolatorInit,
      GaussianInterpolateImageFunction.ComputeBoundingBox]

/-- C14 (counterexample): on the two-voxel line with unit spacing, `sigma = 1/8`,
`alpha = 8` (diagonal covariance `sigma²`) and the centre `0`, both voxels are in the
active box, and the separable weights `W(0)`, `W(1)` of the forward evaluator are not
proportional to the weights `w(0) = exp(0)`, `w(1) = exp(-32)` of the anisotropic
evaluator: `W(0) * w(1) ≠ W(1) * w(0)`, so no constant `C` gives `W = C * w` on both
voxels. -/
theorem C14_counterexample :
    regionIndices ((lineInterpolator realNumerics (1 / 8) 8).activeRegion
        (fun _ => (0 : ℝ))) = [fun _ => 0, fun _ => 1] ∧
    (lineFilter (1 / 8 : ℝ) 8).m_Covariance =
      Matrix.diagonal (fun _ : Fin 1 => (1 / 8 : ℝ) ^ 2) ∧
    GaussianInterpolateImageFunction.voxelWeight
        (fun d => ((lineInterpolator realNumerics (1 / 8) 8).ComputeErrorFunctionArray
          realNumerics d ((fun _ => (0 : ℝ)) d) false).erfArray) (fun _ => 0) *
      AdjointOrientedGaussianInterpolateImageFilter.ComputeExponentialFunction realNumerics
        (fun _ => 1) (fun _ => (0 : ℝ))
        ((lineFilter (1 / 8 : ℝ) 8).BeforeThreadedGenerateData).CovScaledInv ≠
    GaussianInterpolateImageFunction.voxelWeight
        (fun d => ((lineInterpolator realNumerics (1 / 8) 8).ComputeErrorFunctionArray
          realNumerics d ((fun _ => (0 : ℝ)) d) false).erfArray) (fun _ => 1) *
      AdjointOrientedGaussianInterpolateImageFilter.ComputeExponentialFunction realNumerics
        (fun _ => 0) (fun _ => (0 : ℝ))
        ((lineFilter (1 / 8 : ℝ) 8).BeforeThreadedGenerateData).CovScaledInv := by
  refine ⟨lineInterpolator_origin_region realNumerics, lineFilter_covariance, ?_⟩
  rw [(lineInterpolator_origin_weights realNumerics).1,
    (lineInterpolator_origin_weights realNumerics).2, lineFilter_weight, lineFilter_weight]
  have hsq : Real.sqrt 2 * Real.sqrt 2 = 2 := Real.mul_self_sqrt (by norm_num)
  have hpos : 0 < Real.sqrt 2 := Real.sqrt_pos.2 (by norm_num)
  have hlo : 4 / 3 ≤ Real.sqrt 2 := by nlinarith
  have hhi : Real.sqrt 2 ≤ 3 := by nlinarith
  have hs : (1 : ℝ) / (Real.sqrt 2 * (1 / 8) / 1) = 8 / Real.sqrt 2 := by
    field_simp
  have hs1 : 8 / 3 ≤ 8 / Real.sqrt 2 := by
    rw [le_div_iff₀ hpos]
    linarith
  have hs2 : 8 / Real.sqrt 2 ≤ 6 := by
    rw [div_le_iff₀ hpos]
    linarith
  have hgap := erf_gap (8 / Real.sqrt 2) hs1 hs2
  have he0 : Real.exp (-(1 / 2) * ((((0 : ℤ) : ℝ)) * 8) ^ 2) = 1 := by norm_num
  have he1 : Real.exp (-(1 / 2) * ((((1 : ℤ) : ℝ)) * 8) ^ 2) = Real.exp (-32) := by norm_num
  show (realErf (1 / 2 * (1 / (Real.sqrt 2 * (1 / 8) / 1))) -
        realErf (-(1 / 2) * (1 / (Real.sqrt 2 * (1 / 8) / 1)))) *
      Real.exp (-(1 / 2) * ((((1 : ℤ) : ℝ)) * 8) ^ 2) ≠
    (realErf (3 / 2 * (1 / (Real.sqrt 2 * (1 / 8) / 1))) -
        realErf (1 / 2 * (1 / (Real.sqrt 2 * (1 / 8) / 1)))) *
      Real.exp (-(1 / 2) * ((((0 : ℤ) : ℝ)) * 8) ^ 2)
  rw [he0, he1, hs]
  intro h
  linarith

/-- C14 (amended): for a diagonal covariance `diag(sigma_d²)`, every centre `c` and every
voxel `j` of the active box, the separable weight of the forward evaluator is the product
over the axes of `(2/√π) * ScalingFactor_d * ∫ f_d` over the cell
`[j_d - 1/2, j_d + 1/2]`, where `f_d(x) = exp(-0.5 * ((x - c_d) * spacing_d / sigma_d)²)`;
the anisotropic weight `exp(-0.5 * diffᵀ M diff)` is the product over the axes of the same
`f_d` sampled at the cell centre `j_d`.  The factor `(2/√π) * ScalingFactor_d` is shared
by all voxels; the cell integral in place of the centre sample is not. -/
theorem C14_separable_weight_integrates_kernel [NeZero D]
    (self : GaussianInterpolateImageFunction ℝ D) (image : Image ℝ D)
    (flt : AdjointOrientedGaussianInterpolateImageFilter ℝ D) (c : Fin D → ℝ)
    (j : Fin D → ℤ) (himage : self.inputImage = some image)
    (hsigma : ∀ d, self.m_Sigma d ≠ 0)
    (hcov : flt.m_Covariance = Matrix.diagonal (fun d => self.m_Sigma d ^ 2))
    (hspacing : flt.output.spacing = image.spacing)
    (hj : j ∈ regionIndices ((self.ComputeBoundingBox realNumerics).activeRegion c)) :
    GaussianInterpolateImageFunction.voxelWeight
        (fun d => ((self.ComputeBoundingBox realNumerics).ComputeErrorFunctionArray
          realNumerics d (c d) false).erfArray) j =
      ∏ d, (2 / Real.sqrt Real.pi *
        ((self.ComputeBoundingBox realNumerics).m_ScalingFactor d *
          ∫ x in ((j d : ℝ) - 1 / 2)..((j d : ℝ) + 1 / 2),
            Real.exp (-(1 / 2) * ((x - c d) * image.spacing d / self.m_Sigma d) ^ 2))) ∧
    AdjointOrientedGaussianInterpolateImageFilter.ComputeExponentialFunction realNumerics
        j c flt.CovScaledInv =
      ∏ d, Real.exp (-(1 / 2) * (((j d : ℝ) - c d) * image.spacing d / self.m_Sigma d) ^ 2) := by
  constructor
  · rw [GaussianInterpolateImageFunction.voxelWeight_eq_prod]
    refine Finset.prod_congr rfl (fun d _ => ?_)
    have hjd := (mem_regionIndices _ _).1 hj d
    simp only [GaussianInterpolateImageFunction.activeRegion, add_sub_cancel] at hjd
    rw [GaussianInterpolateImageFunction.readArray,
      GaussianInterpolateImageFunction.erfArray_closed_form, if_pos hjd]
    have hstart : (self.ComputeBoundingBox realNumerics).m_BoundingBoxStart d = -(1 / 2) := by
      simp [GaussianInterpolateImageFunction.ComputeBoundingBox, himage]
    have hsf : (self.ComputeBoundingBox realNumerics).m_ScalingFactor d =
        1 / (Real.sqrt 2 * self.m_Sigma d / image.spacing d) := by
      simp [GaussianInterpolateImageFunction.ComputeBoundingBox, himage, realNumerics]
    simp only [Option.getD_some, hstart]
    show realErf _ - realErf _ = _
    rw [realErf_cell]
    have e1 : (-(1 / 2) : ℝ) + (j d : ℝ) = (j d : ℝ) - 1 / 2 := by ring
    have e2 : (j d : ℝ) - 1 / 2 + 1 = (j d : ℝ) + 1 / 2 := by ring
    rw [e1, e2]
    congr 2
    refine intervalIntegral.integral_congr (fun x _ => ?_)
    show Real.exp _ = Real.exp _
    rw [hsf, scaled_sq]
    congr 1
    ring
  · rw [(kernel_weight_forms realNumerics flt j c).2 self.m_Sigma hsigma hcov, hspacing]
    show Real.exp _ = _
    rw [Finset.mul_sum, Real.exp_sum]

/-- Instance of C14 (amended) on the two-voxel line at the centre `0` and voxel `1`. -/
theorem C14_witness :
    GaussianInterpolateImageFunction.voxelWeight
        (fun d => (((lineInterpolatorInit (1 / 8 : ℝ) 8).ComputeBoundingBox realNumerics
          ).ComputeErrorFunctionArray realNumerics d ((fun _ => (0 : ℝ)) d) false).erfArray)
        (fun _ => 1) =
      ∏ d : Fin 1, (2 / Real.sqrt Real.pi *
        (((lineInterpolatorInit (1 / 8 : ℝ) 8).ComputeBoundingBox realNumerics
            ).m_ScalingFactor d *
          ∫ x in ((((fun _ => 1 : Fin 1 → ℤ) d : ℤ) : ℝ) - 1 / 2)..(
              (((fun _ => 1 : Fin 1 → ℤ) d : ℤ) : ℝ) + 1 / 2),
            Real.exp (-(1 / 2) * ((x - (fun _ => (0 : ℝ)) d) *
              (lineImage : Image ℝ 1).spacing d /
              (lineInterpolatorInit (1 / 8 : ℝ) 8).m_Sigma d) ^ 2))) :=
  (C14_separable_weight_integrates_kernel (lineInterpolatorInit (1 / 8 : ℝ) 8) lineImage
    (lineFilter (1 / 8 : ℝ) 8) (fun _ => (0 : ℝ)) (fun _ => 1) rfl
    (fun _ => by norm_num [lineInterpolatorInit])
    (by rw [lineFilter_covariance]; rfl)
    rfl
    (by
      have h := lineInterpolator_origin_region realNumerics
      unfold lineInterpolator at h
      rw [h]
      simp)).1

end ClaimsSeparable

/-! ## The sum of the weights on one axis -/

section WeightSum

variable {K : Type} [LinearOrderedField K] [FloorRing K] {D : ℕ}

theorem sum_intRange_telescope (f : ℤ → K) (b : ℤ) (n : ℕ) :
    ((intRange b (n : ℤ)).map (fun i => f (i + 1) - f i)).sum = f (b + n) - f b := by
  rw [intRange_natCast, List.map_map]
  induction n with
  | zero => simp
  | succ n ih =>
    rw [List.range_succ, List.map_append, List.sum_append, ih]
    simp only [List.map_cons, List.map_nil, List.sum_cons, List.sum_nil, Function.comp,
      add_zero]
    have e : b + ((n + 1 : ℕ) : ℤ) = b + (n : ℤ) + 1 := by
      push_cast
      ring
    rw [e]
    ring

namespace GaussianInterpolateImageFunction

/-- The entries written by `ComputeErrorFunctionArray` are consecutive differences of the
error function, so their sum telescopes to the difference between the last and the first
argument of the loop. -/
theorem weightArraySum_telescope (N : Numerics K) (self : GaussianInterpolateImageFunction K D)
    (d : Fin D) (c : K)
    (h : rangeBegin (self.m_BoundingBoxStart d) (self.m_CutoffDistance d) c ≤
      rangeEnd (boundingBoxSize (self.m_BoundingBoxStart d) (self.m_BoundingBoxEnd d))
        (self.m_BoundingBoxStart d) (self.m_CutoffDistance d) c) :
    self.weightArraySum N d c =
      N.erf ((self.m_BoundingBoxStart d - c +
        ((rangeEnd (boundingBoxSize (self.m_BoundingBoxStart d) (self.m_BoundingBoxEnd d))
          (self.m_BoundingBoxStart d) (self.m_CutoffDistance d) c : ℤ) : K)) *
          self.m_ScalingFactor d) -
      N.erf ((self.m_BoundingBoxStart d - c +
        ((rangeBegin (self.m_BoundingBoxStart d) (self.m_CutoffDistance d) c : ℤ) : K)) *
          self.m_ScalingFactor d) := by
  unfold weightArraySum
  have hcongr : ∀ i ∈ intRange
      (rangeBegin (self.m_BoundingBoxStart d) (self.m_CutoffDistance d) c)
      (rangeEnd (boundingBoxSize (self.m_BoundingBoxStart d) (self.m_BoundingBoxEnd d))
          (self.m_BoundingBoxStart d) (self.m_CutoffDistance d) c -
        rangeBegin (self.m_BoundingBoxStart d) (self.m_CutoffDistance d) c),
      readArray (self.ComputeErrorFunctionArray N d c false).erfArray i =
        (fun k : ℤ => N.erf ((self.m_BoundingBoxStart d - c + (k : K)) *
          self.m_ScalingFactor d)) (i + 1) -
        (fun k : ℤ => N.erf ((self.m_BoundingBoxStart d - c + (k : K)) *
          self.m_ScalingFactor d)) i := by
    intro i hi
    rw [mem_intRange] at hi
    have hi2 : rangeBegin (self.m_BoundingBoxStart d) (self.m_CutoffDistance d) c ≤ i ∧
        i < rangeEnd (boundingBoxSize (self.m_BoundingBoxStart d) (self.m_BoundingBoxEnd d))
          (self.m_BoundingBoxStart d) (self.m_CutoffDistance d) c := ⟨hi.1, by omega⟩
    rw [readArray, erfArray_closed_form, if_pos hi2]
    simp only [Option.getD_some]
    push_cast
    rw [add_assoc]
  rw [List.map_congr_left hcongr, intRange_toNat]
  refine (sum_intRange_telescope (fun k : ℤ => N.erf ((self.m_BoundingBoxStart d - c + (k : K)) *
    self.m_ScalingFactor d)) _ _).trans ?_
  have e : rangeBegin (self.m_BoundingBoxStart d) (self.m_CutoffDistance d) c +
      (((rangeEnd (boundingBoxSize (self.m_BoundingBoxStart d) (self.m_BoundingBoxEnd d))
          (self.m_BoundingBoxStart d) (self.m_CutoffDistance d) c -
        rangeBegin (self.m_BoundingBoxStart d) (self.m_CutoffDistance d) c).toNat : ℕ) : ℤ) =
      rangeEnd (boundingBoxSize (self.m_BoundingBoxStart d) (self.m_BoundingBoxEnd d))
          (self.m_BoundingBoxStart d) (self.m_CutoffDistance d) c := by
    omega
  rw [e]

end GaussianInterpolateImageFunction

end WeightSum

section GaussianTail

open MeasureTheory Set

theorem gauss_integrableOn (s : Set ℝ) :
    IntegrableOn (fun x : ℝ => Real.exp (-(x * x))) s := by
  have h := (integrable_exp_neg_mul_sq (b := 1) one_pos).integrableOn (s := s)
  have e : (fun x : ℝ => Real.exp (-(x * x))) = fun x => Real.exp (-1 * x ^ 2) := by
    funext x
    congr 1
    ring
  rw [e]
  exact h

theorem gauss_Ioi_zero : ∫ x in Ioi (0 : ℝ), Real.exp (-(x * x)) = Real.sqrt Real.pi / 2 := by
  have h := integral_gaussian_Ioi 1
  simp only [div_one] at h
  rw [← h]
  congr 1
  funext x
  congr 1
  ring

theorem gauss_split (a : ℝ) (ha : 0 ≤ a) :
    (∫ x in (0 : ℝ)..a, Real.exp (-(x * x))) + ∫ x in Ioi a, Real.exp (-(x * x)) =
      Real.sqrt Real.pi / 2 := by
  rw [intervalIntegral.integral_of_le ha, ← gauss_Ioi_zero,
    ← setIntegral_union (Ioc_disjoint_Ioi le_rfl) measurableSet_Ioi (gauss_integrableOn _)
      (gauss_integrableOn _), Ioc_union_Ioi_eq_Ioi ha]

theorem gauss_tail (a : ℝ) (ha : 0 < a) :
    ∫ x in Ioi a, Real.exp (-(x * x)) ≤ Real.exp (-(a * a)) / (2 * a) := by
  have hint : IntegrableOn (fun x : ℝ => Real.exp (a * a) * Real.exp (-(2 * a) * x)) (Ioi a) :=
    (exp_neg_integrableOn_Ioi a (b := 2 * a) (by positivity)).const_mul _
  have hle := setIntegral_mono_on (gauss_integrableOn (Ioi a)) hint measurableSet_Ioi
    (fun x _ => by
      rw [← Real.exp_add]
      apply Real.exp_le_exp.2
      nlinarith [sq_nonneg (x - a)])
  refine hle.trans (le_of_eq ?_)
  rw [integral_mul_left]
  have h2 := integral_comp_mul_left_Ioi (fun y : ℝ => Real.exp (-y)) a (b := 2 * a) (by positivity)
  simp only [integral_exp_neg_Ioi, smul_eq_mul] at h2
  have h3 : (fun x : ℝ => Real.exp (-(2 * a) * x)) = fun x => Real.exp (-(2 * a * x)) := by
    funext x
    congr 1
    ring
  rw [h3, h2]
  have h4 : Real.exp (-(2 * a * a)) = Real.exp (-(a * a)) * Real.exp (-(a * a)) := by
    rw [← Real.exp_add]
    congr 1
    ring
  have h5 : Real.exp (a * a) * Real.exp (-(a * a)) = 1 := by
    rw [← Real.exp_add]
    simp
  rw [h4]
  field_simp
  calc Real.exp (a * a) * (Real.exp (-(a * a)) * Real.exp (-(a * a)))
      = (Real.exp (a * a) * Real.exp (-(a * a))) * Real.exp (-(a * a)) := by ring
    _ = Real.exp (-(a * a)) := by rw [h5, one_mul]

theorem realErf_le_one (a : ℝ) (ha : 0 ≤ a) : realErf a ≤ 1 := by
  have hs := gauss_split a ha
  have hpi : 0 < Real.sqrt Real.pi := Real.sqrt_pos.2 Real.pi_pos
  have htail : 0 ≤ ∫ x in Ioi a, Real.exp (-(x * x)) :=
    setIntegral_nonneg measurableSet_Ioi (fun x _ => (Real.exp_pos _).le)
  unfold realErf
  rw [div_mul_eq_mul_div, div_le_one hpi]
  linarith

theorem one_sub_realErf_le (a : ℝ) (ha : 0 < a) :
    1 - realErf a ≤ 2 / Real.sqrt Real.pi * (Real.exp (-(a * a)) / (2 * a)) := by
  have hs := gauss_split a ha.le
  have hpi : 0 < Real.sqrt Real.pi := Real.sqrt_pos.2 Real.pi_pos
  have htail := gauss_tail a ha
  have hk : 0 < 2 / Real.sqrt Real.pi := by positivity
  have h1 : 1 - realErf a = 2 / Real.sqrt Real.pi * ∫ x in Ioi a, Real.exp (-(x * x)) := by
    unfold realErf
    have : (∫ x in Ioi a, Real.exp (-(x * x))) =
        Real.sqrt Real.pi / 2 - ∫ x in (0 : ℝ)..a, Real.exp (-(x * x)) := by linarith
    rw [this]
    field_simp
    ring
  rw [h1]
  exact mul_le_mul_of_nonneg_left htail hk.le

theorem realErf_neg (a : ℝ) : realErf (-a) = -realErf a := by
  unfold realErf
  have h := intervalIntegral.integral_comp_neg (a := 0) (b := a)
    (fun x : ℝ => Real.exp (-(x * x)))
  simp only [neg_mul_neg, neg_zero] at h
  rw [intervalIntegral.integral_symm, ← h]
  ring

theorem exp_neg_nine_halves : Real.exp (-(9 / 2)) ≤ 1 / 89 := by
  have he := Real.exp_one_gt_d9
  have hu : Real.exp (1 / 2) * Real.exp (1 / 2) = Real.exp 1 := by
    rw [← Real.exp_add]
    norm_num
  have hupos := Real.exp_pos (1 / 2)
  have hu1 : (1648 / 1000 : ℝ) ≤ Real.exp (1 / 2) := by
    by_contra hlt
    push_neg at hlt
    nlinarith
  have h4 : Real.exp (9 / 2) = Real.exp 1 * Real.exp 1 * Real.exp 1 * Real.exp 1 *
      Real.exp (1 / 2) := by
    rw [← Real.exp_add, ← Real.exp_add, ← Real.exp_add, ← Real.exp_add]
    norm_num
  have h2 : (2718 / 1000 : ℝ) ≤ Real.exp 1 := by linarith
  have hbig : (89 : ℝ) ≤ Real.exp (9 / 2) := by
    rw [h4]
    have a1 : (2718 / 1000 : ℝ) * (2718 / 1000) ≤ Real.exp 1 * Real.exp 1 :=
      mul_le_mul h2 h2 (by norm_num) (by linarith)
    have a2 : (2718 / 1000 : ℝ) * (2718 / 1000) * (2718 / 1000) ≤
        Real.exp 1 * Real.exp 1 * Real.exp 1 :=
      mul_le_mul a1 h2 (by norm_num) (by positivity)
    have a3 : (2718 / 1000 : ℝ) * (2718 / 1000) * (2718 / 1000) * (2718 / 1000) ≤
        Real.exp 1 * Real.exp 1 * Real.exp 1 * Real.exp 1 :=
      mul_le_mul a2 h2 (by norm_num) (by positivity)
    have a4 : (2718 / 1000 : ℝ) * (2718 / 1000) * (2718 / 1000) * (2718 / 1000) *
        (1648 / 1000) ≤ Real.exp 1 * Real.exp 1 * Real.exp 1 * Real.exp 1 * Real.exp (1 / 2) :=
      mul_le_mul a3 hu1 (by norm_num) (by positivity)
    refine le_trans ?_ a4
    norm_num
  rw [Real.exp_neg, inv_eq_one_div]
  exact one_div_le_one_div_of_le (by norm_num) hbig

/-- Three standard deviations: `erf(3/√2) ≥ 0.997`. -/
theorem realErf_three_sigma : 997 / 1000 ≤ realErf (3 / Real.sqrt 2) := by
  have hsq : Real.sqrt 2 * Real.sqrt 2 = 2 := Real.mul_self_sqrt (by norm_num)
  have hpos : 0 < Real.sqrt 2 := Real.sqrt_pos.2 (by norm_num)
  have ha : 0 < 3 / Real.sqrt 2 := by positivity
  have h := one_sub_realErf_le (3 / Real.sqrt 2) ha
  have haa : 3 / Real.sqrt 2 * (3 / Real.sqrt 2) = 9 / 2 := by
    field_simp
    nlinarith
  rw [haa] at h
  have hpi : 0 < Real.sqrt Real.pi := Real.sqrt_pos.2 Real.pi_pos
  have hpisq : Real.sqrt Real.pi * Real.sqrt Real.pi = Real.pi :=
    Real.mul_self_sqrt Real.pi_pos.le
  have h2pi : (2505 / 1000 : ℝ) ≤ Real.sqrt 2 * Real.sqrt Real.pi := by
    have hp := Real.pi_gt_d2
    have hprod : (Real.sqrt 2 * Real.sqrt Real.pi) * (Real.sqrt 2 * Real.sqrt Real.pi) =
        2 * Real.pi := by
      calc (Real.sqrt 2 * Real.sqrt Real.pi) * (Real.sqrt 2 * Real.sqrt Real.pi)
          = (Real.sqrt 2 * Real.sqrt 2) * (Real.sqrt Real.pi * Real.sqrt Real.pi) := by ring
        _ = 2 * Real.pi := by rw [hsq, hpisq]
    have hpp : 0 < Real.sqrt 2 * Real.sqrt Real.pi := by positivity
    by_contra hlt
    push_neg at hlt
    nlinarith
  have hrhs : ∀ E : ℝ, 2 / Real.sqrt Real.pi * (E / (2 * (3 / Real.sqrt 2))) =
      2 * E / (3 * (Real.sqrt 2 * Real.sqrt Real.pi)) := by
    intro E
    field_simp
    linear_combination (6 * E * Real.sqrt Real.pi) * hsq
  rw [hrhs] at h
  have he := exp_neg_nine_halves
  have hepos := Real.exp_pos (-(9 / 2))
  have hb : 2 * Real.exp (-(9 / 2)) / (3 * (Real.sqrt 2 * Real.sqrt Real.pi)) ≤ 3 / 1000 := by
    rw [div_le_iff₀ (by positivity)]
    nlinarith
  linarith

end GaussianTail

/-! ## Claim C12 -/

section ClaimsWeightSum

/-- On a row of `n` voxels with unit spacing, `sigma = 1`, `alpha = 3` and the real error
function, when neither end of the range is clamped the sum of the written entries lies
in `[1.994, 2]`. -/
theorem weightArraySum_row_bounds (n : ℕ) (c : ℝ)
    (hlo : 0 ≤ ⌊c - (rowInterpolator realNumerics n 1 3).m_BoundingBoxStart 0 -
      (rowInterpolator realNumerics n 1 3).m_CutoffDistance 0⌋)
    (hhi : ⌈c - (rowInterpolator realNumerics n 1 3).m_BoundingBoxStart 0 +
        (rowInterpolator realNumerics n 1 3).m_CutoffDistance 0⌉ ≤
      boundingBoxSize ((rowInterpolator realNumerics n 1 3).m_BoundingBoxStart 0)
        ((rowInterpolator realNumerics n 1 3).m_BoundingBoxEnd 0)) :
    1994 / 1000 ≤ (rowInterpolator realNumerics n 1 3).weightArraySum realNumerics 0 c ∧
      (rowInterpolator realNumerics n 1 3).weightArraySum realNumerics 0 c ≤ 2 := by
  have hstart : (rowInterpolator realNumerics n 1 3).m_BoundingBoxStart 0 = -(1 / 2) := rfl
  have hend : (rowInterpolator realNumerics n 1 3).m_BoundingBoxEnd 0 =
      ((n : ℕ) : ℝ) - 1 / 2 := rfl
  have hcut : (rowInterpolator realNumerics n 1 3).m_CutoffDistance 0 = 1 * 3 / 1 := rfl
  have hsf : (rowInterpolator realNumerics n 1 3).m_ScalingFactor 0 =
      1 / (Real.sqrt 2 * 1 / 1) := rfl
  rw [hstart, hend, hcut, boundingBoxSize_eq_size] at hhi
  rw [hstart, hcut] at hlo
  have hb : rangeBegin (-(1 / 2) : ℝ) (1 * 3 / 1) c = ⌊c - -(1 / 2) - 1 * 3 / 1⌋ :=
    max_eq_right hlo
  have he : rangeEnd ((n : ℕ) : ℤ) (-(1 / 2) : ℝ) (1 * 3 / 1) c =
      ⌈c - -(1 / 2) + 1 * 3 / 1⌉ := min_eq_right hhi
  have hfl : ((⌊c - -(1 / 2) - 1 * 3 / 1⌋ : ℤ) : ℝ) ≤ c - -(1 / 2) - 1 * 3 / 1 :=
    Int.floor_le _
  have hce : c - -(1 / 2) + 1 * 3 / 1 ≤ ((⌈c - -(1 / 2) + 1 * 3 / 1⌉ : ℤ) : ℝ) :=
    Int.le_ceil _
  have hbe : ⌊c - -(1 / 2) - 1 * 3 / 1⌋ ≤ ⌈c - -(1 / 2) + 1 * 3 / 1⌉ := by
    have : ((⌊c - -(1 / 2) - 1 * 3 / 1⌋ : ℤ) : ℝ) ≤ ((⌈c - -(1 / 2) + 1 * 3 / 1⌉ : ℤ) : ℝ) := by
      linarith
    exact_mod_cast this
  rw [GaussianInterpolateImageFunction.weightArraySum_telescope realNumerics _ 0 c
    (by rw [hstart, hend, hcut, boundingBoxSize_eq_size, hb, he]; exact hbe)]
  rw [hstart, hend, hcut, hsf, boundingBoxSize_eq_size, hb, he]
  show 1994 / 1000 ≤ realErf _ - realErf _ ∧ realErf _ - realErf _ ≤ 2
  have hsq : Real.sqrt 2 * Real.sqrt 2 = 2 := Real.mul_self_sqrt (by norm_num)
  have hpos : 0 < Real.sqrt 2 := Real.sqrt_pos.2 (by norm_num)
  have hk : (1 : ℝ) / (Real.sqrt 2 * 1 / 1) = 1 / Real.sqrt 2 := by
    rw [mul_one, div_one]
  rw [hk]
  have hinv : 0 < 1 / Real.sqrt 2 := by positivity
  have hup : 3 / Real.sqrt 2 ≤
      (-(1 / 2) - c + ((⌈c - -(1 / 2) + 1 * 3 / 1⌉ : ℤ) : ℝ)) * (1 / Real.sqrt 2) := by
    rw [div_eq_mul_one_div]
    exact mul_le_mul_of_nonneg_right (by linarith) hinv.le
  have hdn : (-(1 / 2) - c + ((⌊c - -(1 / 2) - 1 * 3 / 1⌋ : ℤ) : ℝ)) * (1 / Real.sqrt 2) ≤
      -(3 / Real.sqrt 2) := by
    rw [div_eq_mul_one_div (3 : ℝ), ← neg_mul]
    exact mul_le_mul_of_nonneg_right (by linarith) hinv.le
  have h3 := realErf_three_sigma
  have h3pos : 0 ≤ 3 / Real.sqrt 2 := by positivity
  have hU := realErf_strictMono.monotone hup
  have hD := realErf_strictMono.monotone hdn
  rw [realErf_neg] at hD
  have hU1 := realErf_le_one _ (h3pos.trans hup)
  have hD1 : -1 ≤ realErf
      ((-(1 / 2) - c + ((⌊c - -(1 / 2) - 1 * 3 / 1⌋ : ℤ) : ℝ)) * (1 / Real.sqrt 2)) := by
    have hneg := realErf_le_one
      (-((-(1 / 2) - c + ((⌊c - -(1 / 2) - 1 * 3 / 1⌋ : ℤ) : ℝ)) * (1 / Real.sqrt 2)))
      (by linarith)
    rw [realErf_neg] at hneg
    linarith
  constructor <;> linarith

/-- C12 (counterexample): on a row of `10` voxels with unit spacing, `sigma = 1`,
`alpha = 3` and the centre `5`, neither end of the range is clamped and the sum of the
written entries of `erfArray` is not within `1e-3` of `1`. -/
theorem C12_counterexample :
    (0 ≤ ⌊(5 : ℝ) - (rowInterpolator realNumerics 10 1 3).m_BoundingBoxStart 0 -
      (rowInterpolator realNumerics 10 1 3).m_CutoffDistance 0⌋) ∧
    (⌈(5 : ℝ) - (rowInterpolator realNumerics 10 1 3).m_BoundingBoxStart 0 +
        (rowInterpolator realNumerics 10 1 3).m_CutoffDistance 0⌉ ≤
      boundingBoxSize ((rowInterpolator realNumerics 10 1 3).m_BoundingBoxStart 0)
        ((rowInterpolator realNumerics 10 1 3).m_BoundingBoxEnd 0)) ∧
    ¬ |(rowInterpolator realNumerics 10 1 3).weightArraySum realNumerics 0 5 - 1| ≤
      1 / 1000 := by
  have hlo : 0 ≤ ⌊(5 : ℝ) - (rowInterpolator realNumerics 10 1 3).m_BoundingBoxStart 0 -
      (rowInterpolator realNumerics 10 1 3).m_CutoffDistance 0⌋ := by
    show 0 ≤ ⌊(5 : ℝ) - -(1 / 2) - 1 * 3 / 1⌋
    rw [Int.floor_nonneg]
    norm_num
  have hhi : ⌈(5 : ℝ) - (rowInterpolator realNumerics 10 1 3).m_BoundingBoxStart 0 +
        (rowInterpolator realNumerics 10 1 3).m_CutoffDistance 0⌉ ≤
      boundingBoxSize ((rowInterpolator realNumerics 10 1 3).m_BoundingBoxStart 0)
        ((rowInterpolator realNumerics 10 1 3).m_BoundingBoxEnd 0) := by
    show ⌈(5 : ℝ) - -(1 / 2) + 1 * 3 / 1⌉ ≤
      boundingBoxSize (-(1 / 2) : ℝ) (((10 : ℕ) : ℝ) - 1 / 2)
    rw [boundingBoxSize_eq_size, Int.ceil_le]
    norm_num
  refine ⟨hlo, hhi, ?_⟩
  have h := (weightArraySum_row_bounds 10 5 hlo hhi).1
  intro habs
  have := (abs_le.1 habs).2
  linarith

/-- C12 (amended): for a 1-D grid of any length with unit spacing, `sigma = 1`,
`alpha = 3` and the real error function, at every centre whose range `[begin, end)` is
clamped at neither end, the sum of the entries `erfArray[begin .. end-1]` is
`erf(t_end) - erf(t_begin)` for the last and first loop arguments, and it is within
`6e-3` of `2.0` (at least 99.7 % of the full mass `2` of the unnormalised weights, and
never more than `2`). -/
theorem C12_weight_sum_near_two (n : ℕ) (c : ℝ)
    (hlo : 0 ≤ ⌊c - (rowInterpolator realNumerics n 1 3).m_BoundingBoxStart 0 -
      (rowInterpolator realNumerics n 1 3).m_CutoffDistance 0⌋)
    (hhi : ⌈c - (rowInterpolator realNumerics n 1 3).m_BoundingBoxStart 0 +
        (rowInterpolator realNumerics n 1 3).m_CutoffDistance 0⌉ ≤
      boundingBoxSize ((rowInterpolator realNumerics n 1 3).m_BoundingBoxStart 0)
        ((rowInterpolator realNumerics n 1 3).m_BoundingBoxEnd 0)) :
    (rowInterpolator realNumerics n 1 3).weightArraySum realNumerics 0 c =
      realErf (((rowInterpolator realNumerics n 1 3).m_BoundingBoxStart 0 - c +
        ((⌈c - (rowInterpolator realNumerics n 1 3).m_BoundingBoxStart 0 +
          (rowInterpolator realNumerics n 1 3).m_CutoffDistance 0⌉ : ℤ) : ℝ)) *
          (rowInterpolator realNumerics n 1 3).m_ScalingFactor 0) -
      realErf (((rowInterpolator realNumerics n 1 3).m_BoundingBoxStart 0 - c +
        ((⌊c - (rowInterpolator realNumerics n 1 3).m_BoundingBoxStart 0 -
          (rowInterpolator realNumerics n 1 3).m_CutoffDistance 0⌋ : ℤ) : ℝ)) *
          (rowInterpolator realNumerics n 1 3).m_ScalingFactor 0) ∧
    |(rowInterpolator realNumerics n 1 3).weightArraySum realNumerics 0 c - 2| ≤
      6 / 1000 := by
  have hbounds := weightArraySum_row_bounds n c hlo hhi
  refine ⟨?_, ?_⟩
  · have hb : rangeBegin ((rowInterpolator realNumerics n 1 3).m_BoundingBoxStart 0)
        ((rowInterpolator realNumerics n 1 3).m_CutoffDistance 0) c =
        ⌊c - (rowInterpolator realNumerics n 1 3).m_BoundingBoxStart 0 -
          (rowInterpolator realNumerics n 1 3).m_CutoffDistance 0⌋ := max_eq_right hlo
    have he : rangeEnd (boundingBoxSize ((rowInterpolator realNumerics n 1 3).m_BoundingBoxStart 0)
          ((rowInterpolator realNumerics n 1 3).m_BoundingBoxEnd 0))
        ((rowInterpolator realNumerics n 1 3).m_BoundingBoxStart 0)
        ((rowInterpolator realNumerics n 1 3).m_CutoffDistance 0) c =
        ⌈c - (rowInterpolator realNumerics n 1 3).m_BoundingBoxStart 0 +
          (rowInterpolator realNumerics n 1 3).m_CutoffDistance 0⌉ := min_eq_right hhi
    have hfl := Int.floor_le (c - (rowInterpolator realNumerics n 1 3).m_BoundingBoxStart 0 -
      (rowInterpolator realNumerics n 1 3).m_CutoffDistance 0)
    have hce := Int.le_ceil (c - (rowInterpolator realNumerics n 1 3).m_BoundingBoxStart 0 +
      (rowInterpolator realNumerics n 1 3).m_CutoffDistance 0)
    have hcut : (0 : ℝ) ≤ (rowInterpolator realNumerics n 1 3).m_CutoffDistance 0 := by
      show (0 : ℝ) ≤ 1 * 3 / 1
      norm_num
    have hbe : ⌊c - (rowInterpolator realNumerics n 1 3).m_BoundingBoxStart 0 -
          (rowInterpolator realNumerics n 1 3).m_CutoffDistance 0⌋ ≤
        ⌈c - (rowInterpolator realNumerics n 1 3).m_BoundingBoxStart 0 +
          (rowInterpolator realNumerics n 1 3).m_CutoffDistance 0⌉ := by
      have hle : ((⌊c - (rowInterpolator realNumerics n 1 3).m_BoundingBoxStart 0 -
          (rowInterpolator realNumerics n 1 3).m_CutoffDistance 0⌋ : ℤ) : ℝ) ≤
        ((⌈c - (rowInterpolator realNumerics n 1 3).m_BoundingBoxStart 0 +
          (rowInterpolator realNumerics n 1 3).m_CutoffDistance 0⌉ : ℤ) : ℝ) := by linarith
      exact_mod_cast hle
    rw [GaussianInterpolateImageFunction.weightArraySum_telescope realNumerics _ 0 c
      (by rw [hb, he]; exact hbe), hb, he]
    rfl
  · rw [abs_le]
    constructor <;> linarith [hbounds.1, hbounds.2]

/-- Instance of C12 (amended) on a row of `10` voxels at the centre `5`. -/
theorem C12_witness :
    |(rowInterpolator realNumerics 10 1 3).weightArraySum realNumerics 0 5 - 2| ≤ 6 / 1000 :=
  (C12_weight_sum_near_two 10 5
    (by
      show 0 ≤ ⌊(5 : ℝ) - -(1 / 2) - 1 * 3 / 1⌋
      rw [Int.floor_nonneg]
      norm_num)
    (by
      show ⌈(5 : ℝ) - -(1 / 2) + 1 * 3 / 1⌉ ≤
        boundingBoxSize (-(1 / 2) : ℝ) (((10 : ℕ) : ℝ) - 1 / 2)
      rw [boundingBoxSize_eq_size, Int.ceil_le]
      norm_num)).2

end ClaimsWeightSum

/-! ## Conservation of mass in the splatting pass -/

section Mass

variable {K : Type} [LinearOrderedField K] [FloorRing K] {D : ℕ}

namespace AdjointOrientedGaussianInterpolateImageFilter

/-- The normalised weights of a sample with a non-empty box sum to one. -/
theorem normalised_weights_sum (N : Numerics K)
    (self : AdjointOrientedGaussianInterpolateImageFilter K D) (c : Fin D → K)
    (hexp : ∀ t, 0 < N.exp t) (hbox : regionIndices (self.outputRegion c) ≠ []) :
    ((regionIndices (self.outputRegion c)).map
      (fun v => ComputeExponentialFunction N v c self.CovScaledInv / self.localSum N c)).sum =
      1 := by
  obtain ⟨v, hv⟩ := List.exists_mem_of_ne_nil _ hbox
  have hpos := localSum_pos N self c hexp v hv
  have hdiv : ((regionIndices (self.outputRegion c)).map
      (fun v => ComputeExponentialFunction N v c self.CovScaledInv / self.localSum N c)) =
      ((regionIndices (self.outputRegion c)).map
        (fun v => ComputeExponentialFunction N v c self.CovScaledInv)).map
        (fun w => w * (self.localSum N c)⁻¹) := by
    rw [List.map_map]
    refine List.map_congr_left (fun u _ => ?_)
    simp [div_eq_mul_inv]
  rw [hdiv, List.sum_map_mul_right, List.map_id', ← localSum_eq_sum]
  exact mul_inv_cancel₀ hpos.ne'

/-- One sample adds its value to the total over any finite set of voxels that contains its
box, and adds nothing when the box is empty. -/
theorem splatSample_total (N : Numerics K)
    (self : AdjointOrientedGaussianInterpolateImageFilter K D) (c : Fin D → K) (x : K)
    (buffer : (Fin D → ℤ) → K) (G : Finset (Fin D → ℤ))
    (hG : (regionIndices (self.outputRegion c)).toFinset ⊆ G) (hexp : ∀ t, 0 < N.exp t) :
    ∑ v in G, self.splatSample N c x buffer v =
      (∑ v in G, buffer v) +
        if (regionIndices (self.outputRegion c)).isEmpty then 0 else x := by
  have hterm : ∀ v, self.splatSample N c x buffer v =
      buffer v + if v ∈ (regionIndices (self.outputRegion c)).toFinset then
        x * (ComputeExponentialFunction N v c self.CovScaledInv / self.localSum N c) else 0 := by
    intro v
    rw [splatSample_apply]
    by_cases hv : v ∈ regionIndices (self.outputRegion c)
    · rw [if_pos hv, if_pos (List.mem_toFinset.2 hv), mul_div_assoc]
    · rw [if_neg hv, if_neg (fun h => hv (List.mem_toFinset.1 h)), add_zero]
  simp only [hterm]
  rw [Finset.sum_add_distrib, Finset.sum_ite_mem, Finset.inter_eq_right.2 hG, ← Finset.mul_sum,
    List.sum_toFinset
      (fun v => ComputeExponentialFunction N v c self.CovScaledInv / self.localSum N c)
      (nodup_regionIndices _)]
  congr 1
  by_cases hbox : regionIndices (self.outputRegion c) = []
  · rw [hbox]
    simp
  · rw [normalised_weights_sum N self c hexp hbox, mul_one, if_neg]
    simpa [List.isEmpty_iff] using hbox

/-- A pass over a list of samples adds to the total the values of the samples whose box is
not empty. -/
theorem splatSamples_total (N : Numerics K)
    (self : AdjointOrientedGaussianInterpolateImageFilter K D) (g : Geometry K D)
    (input : Image K D) (G : Finset (Fin D → ℤ))
    (hG : ∀ c, (regionIndices (self.outputRegion c)).toFinset ⊆ G)
    (hexp : ∀ t, 0 < N.exp t) :
    ∀ (samples : List (Fin D → ℤ)) (buffer : (Fin D → ℤ) → K),
      ∑ v in G, self.splatSamples N g input samples buffer v =
        (∑ v in G, buffer v) + (samples.map (fun i =>
          if (regionIndices (self.outputRegion (g.outputCIndex i))).isEmpty then 0
          else input.pixel i)).sum
  | [], buffer => by simp [splatSamples]
  | i :: rest, buffer => by
    have h := splatSamples_total N self g input G hG hexp rest
      (self.splatSample N (g.outputCIndex i) (input.pixel i) buffer)
    unfold splatSamples at h ⊢
    rw [List.foldl_cons, h, splatSample_total N self _ _ _ G (hG _) hexp, List.map_cons,
      List.sum_cons]
    ring

end AdjointOrientedGaussianInterpolateImageFilter

end Mass

/-! ## Claim C22 -/

section ClaimsMass

variable {K : Type} [LinearOrderedField K] [FloorRing K] {D : ℕ}

/-- C22: local normalisation conserves mass.  With a positive exponential (every kernel
weight is `> 0`), for every source sample whose clamped destination box is not empty the
normalised weights `w(v) / localSum` over the box sum to `1`, and splatting the sample
into any buffer raises the total over the destination grid by exactly the sample's value;
after a whole pass the sum of all destination voxels equals the sum of the source values
of the samples whose box is not empty. -/
theorem C22_local_normalisation_conserves_mass (N : Numerics K)
    (self : AdjointOrientedGaussianInterpolateImageFilter K D) (g : Geometry K D)
    (input : Image K D) (splitRegions : List (ImageRegion D)) (hexp : ∀ t, 0 < N.exp t) :
    (∀ c : Fin D → K,
      regionIndices ((self.BeforeThreadedGenerateData).outputRegion c) ≠ [] →
      ((regionIndices ((self.BeforeThreadedGenerateData).outputRegion c)).map
        (fun v => AdjointOrientedGaussianInterpolateImageFilter.ComputeExponentialFunction N v c
            (self.BeforeThreadedGenerateData).CovScaledInv /
          (self.BeforeThreadedGenerateData).localSum N c)).sum = 1) ∧
    (∀ (c : Fin D → K) (x : K) (buffer : (Fin D → ℤ) → K),
      regionIndices ((self.BeforeThreadedGenerateData).outputRegion c) ≠ [] →
      ∑ v in Fintype.piFinset (fun d => Finset.Ico (0 : ℤ) (self.output.size d)),
          (self.BeforeThreadedGenerateData).splatSample N c x buffer v =
        (∑ v in Fintype.piFinset (fun d => Finset.Ico (0 : ℤ) (self.output.size d)),
          buffer v) + x) ∧
    ∑ v in Fintype.piFinset (fun d => Finset.Ico (0 : ℤ) (self.output.size d)),
        (self.GenerateData N g input splitRegions).output.pixel v =
      ((splitRegions.flatMap regionIndices).map (fun i =>
        if (regionIndices ((self.BeforeThreadedGenerateData).outputRegion
          (g.outputCIndex i))).isEmpty then 0 else input.pixel i)).sum := by
  have hG : ∀ c, (regionIndices ((self.BeforeThreadedGenerateData).outputRegion c)).toFinset ⊆
      Fintype.piFinset (fun d => Finset.Ico (0 : ℤ) (self.output.size d)) := by
    intro c
    have h := AdjointOrientedGaussianInterpolateImageFilter.outputRegion_subset_grid self c
    rw [regionIndices_toFinset ⟨fun _ => 0, fun d => (self.output.size d : ℤ)⟩] at h
    simpa only [zero_add] using h
  refine ⟨fun c hbox => ?_, fun c x buffer hbox => ?_, ?_⟩
  · exact AdjointOrientedGaussianInterpolateImageFilter.normalised_weights_sum N _ c hexp hbox
  · rw [AdjointOrientedGaussianInterpolateImageFilter.splatSample_total N _ c x buffer _ (hG c)
      hexp, if_neg]
    simpa [List.isEmpty_iff] using hbox
  · rw [AdjointOrientedGaussianInterpolateImageFilter.GenerateData_pixel,
      AdjointOrientedGaussianInterpolateImageFilter.splatSamples_total N _ g input _ hG hexp]
    have hzero : ∑ v in Fintype.piFinset (fun d => Finset.Ico (0 : ℤ) (self.output.size d)),
        (self.BeforeThreadedGenerateData).output.pixel v = 0 :=
      Finset.sum_eq_zero (fun v _ => rfl)
    rw [hzero, zero_add]

/-- Instance of C22 on the two-voxel line (`sigma = 1/8`, `alpha = 8`, identity geometry):
the two source samples of value `1` both have a non-empty box, and after the pass the two
destination voxels sum to `2`. -/
theorem C22_witness :
    (∀ t, 0 < realNumerics.exp t) ∧
    ∑ v in Fintype.piFinset
        (fun d => Finset.Ico (0 : ℤ) ((lineFilter (1 / 8 : ℝ) 8).output.size d)),
        ((lineFilter (1 / 8 : ℝ) 8).GenerateData realNumerics identityGeometry onesImage
          [lineRegion]).output.pixel v = 2 := by
  have hexp : ∀ t, 0 < realNumerics.exp t := fun t => Real.exp_pos t
  refine ⟨hexp, ?_⟩
  rw [(C22_local_normalisation_conserves_mass realNumerics (lineFilter (1 / 8 : ℝ) 8)
    identityGeometry onesImage [lineRegion] hexp).2.2]
  have hA : regionIndices (((lineFilter (1 / 8 : ℝ) 8).BeforeThreadedGenerateData).outputRegion
      (identityGeometry.outputCIndex (fun _ => 0))) ≠ [] :=
    List.ne_nil_of_mem lineFilter_origin_mem
  have hB : regionIndices (((lineFilter (1 / 8 : ℝ) 8).BeforeThreadedGenerateData).outputRegion
      (identityGeometry.outputCIndex (fun _ => 1))) ≠ [] :=
    List.ne_nil_of_mem lineFilter_one_mem
  have hA2 : (regionIndices (((lineFilter (1 / 8 : ℝ) 8).BeforeThreadedGenerateData
      ).outputRegion (identityGeometry.outputCIndex (fun _ => 0)))).isEmpty = false := by
    simpa [List.isEmpty_iff] using hA
  have hB2 : (regionIndices (((lineFilter (1 / 8 : ℝ) 8).BeforeThreadedGenerateData
      ).outputRegion (identityGeometry.outputCIndex (fun _ => 1)))).isEmpty = false := by
    simpa [List.isEmpty_iff] using hB
  simp only [List.flatMap_cons, List.flatMap_nil, List.append_nil, regionIndices_lineRegion,
    List.map_cons, List.map_nil, List.sum_cons, List.sum_nil, hA2, hB2]
  norm_num [onesImage]

end ClaimsMass

/-! ## The forward value as a weighted mean -/

section WeightedMean

variable {K : Type} [LinearOrderedField K] [FloorRing K] {D : ℕ}

/-- A mean with positive weights over a non-empty list lies between any two bounds of the
averaged values. -/
theorem weighted_mean_bounds {ι : Type} (l : List ι) (w V : ι → K)
    (hw : ∀ i ∈ l, 0 < w i) (hne : l ≠ []) (lo hi : K)
    (hV : ∀ i ∈ l, lo ≤ V i ∧ V i ≤ hi) :
    0 < (l.map w).sum ∧
      lo ≤ (l.map (fun i => V i * w i)).sum / (l.map w).sum ∧
      (l.map (fun i => V i * w i)).sum / (l.map w).sum ≤ hi := by
  have hpos : 0 < (l.map w).sum := by
    refine List.sum_pos _ ?_ ?_
    · intro x hx
      rw [List.mem_map] at hx
      obtain ⟨i, hi, rfl⟩ := hx
      exact hw i hi
    · intro h
      exact hne (List.map_eq_nil_iff.1 h)
  refine ⟨hpos, ?_, ?_⟩
  · rw [le_div_iff₀ hpos, ← List.sum_map_mul_left]
    exact List.sum_le_sum (fun i hi => mul_le_mul_of_nonneg_right (hV i hi).1 (hw i hi).le)
  · rw [div_le_iff₀ hpos, ← List.sum_map_mul_left]
    exact List.sum_le_sum (fun i hi => mul_le_mul_of_nonneg_right (hV i hi).2 (hw i hi).le)

/-- In-grid centre with a positive cutoff: the per-axis range lies inside the grid and
contains the voxel nearest to the centre. -/
theorem range_contains_nearest (n : ℕ) (cutoff c : K) (hcut : 0 < cutoff)
    (hc0 : -(1 / 2) ≤ c) (hc1 : c < (n : K) - 1 / 2) :
    0 ≤ rangeBegin (-(1 / 2) : K) cutoff c ∧
      rangeBegin (-(1 / 2) : K) cutoff c ≤ ⌊c + 1 / 2⌋ ∧
      ⌊c + 1 / 2⌋ < rangeEnd (n : ℤ) (-(1 / 2) : K) cutoff c ∧
      rangeEnd (n : ℤ) (-(1 / 2) : K) cutoff c ≤ (n : ℤ) := by
  have h0 : 0 ≤ ⌊c + 1 / 2⌋ := Int.floor_nonneg.2 (by linarith)
  have h1 : ⌊c - -(1 / 2) - cutoff⌋ ≤ ⌊c + 1 / 2⌋ := Int.floor_le_floor (by linarith)
  have h2 : ⌊c + 1 / 2⌋ < ⌈c - -(1 / 2) + cutoff⌉ := by
    rw [Int.lt_ceil]
    have := Int.floor_le (c + 1 / 2)
    linarith
  have h3 : ⌊c + 1 / 2⌋ < (n : ℤ) := by
    rw [Int.floor_lt]
    push_cast
    linarith
  unfold rangeBegin rangeEnd
  refine ⟨le_max_left _ _, max_le h0 h1, lt_min h3 h2, min_le_left _ _⟩

namespace GaussianInterpolateImageFunction

/-- With a strictly increasing error function and positive scaling factors the weight of
every voxel of the active region is strictly positive. -/
theorem voxelWeight_pos [NeZero D] (N : Numerics K)
    (self : GaussianInterpolateImageFunction K D) (c : Fin D → K) (g : Bool)
    (herf : StrictMono N.erf) (hsf : ∀ d, 0 < self.m_ScalingFactor d) (j : Fin D → ℤ)
    (hj : j ∈ regionIndices (self.activeRegion c)) :
    0 < voxelWeight (fun d => (self.ComputeErrorFunctionArray N d (c d) g).erfArray) j := by
  rw [voxelWeight_eq_prod]
  refine Finset.prod_pos (fun d _ => ?_)
  have hjd := (mem_regionIndices _ _).1 hj d
  simp only [activeRegion, add_sub_cancel] at hjd
  exact readArray_erfArray_pos N self d (c d) g (j d) herf (hsf d) hjd

/-- The four accumulators after the voxel loop, as sums over the active region. -/
theorem evaluateSums_eq [NeZero D] (N : Numerics K)
    (self : GaussianInterpolateImageFunction K D) (image : Image K D) (c : Fin D → K)
    (g : Bool) :
    (self.evaluateSums N image c g).sum_me =
      ((regionIndices (self.activeRegion c)).map (fun j => image.pixel j *
        voxelWeight (fun d => (self.ComputeErrorFunctionArray N d (c d) g).erfArray) j)).sum ∧
    (self.evaluateSums N image c g).sum_m =
      ((regionIndices (self.activeRegion c)).map (fun j =>
        voxelWeight (fun d => (self.ComputeErrorFunctionArray N d (c d) g).erfArray) j)).sum := by
  unfold evaluateSums
  simp only []
  rw [foldl_voxelBody_sum_me, foldl_voxelBody_sum_m]
  simp only [zero_add, and_self]

end GaussianInterpolateImageFunction

end WeightedMean

/-! ## Claims C23 and C24 -/

section ClaimsWeightedMean

variable {K : Type} [LinearOrderedField K] [FloorRing K] {D : ℕ}

/-- C24: the division of the forward evaluator is safe for in-grid queries.  After
`ComputeBoundingBox` with `sigma > 0`, `spacing > 0` on every axis and `alpha > 0` (a
strictly increasing error function, `sqrt2 > 0`), for every continuous index `c` with
`-0.5 ≤ c_d < size_d - 0.5` on every axis: the per-axis range satisfies
`0 ≤ begin_d ≤ n_d < end_d ≤ size_d` for the voxel `n_d = ⌊c_d + 0.5⌋` nearest to `c_d`;
every array index read by the evaluator (the coordinates of the voxels of the active
region) lies in `[begin_d, end_d)`, where `ComputeErrorFunctionArray` has written a
positive entry; and the divisor `sum_m` of `sum_me / sum_m` is strictly positive. -/
theorem C24_in_grid_division_safe [NeZero D] (N : Numerics K)
    (self : GaussianInterpolateImageFunction K D) (image : Image K D) (c : Fin D → K)
    (g : Bool) (himage : self.inputImage = some image) (herf : StrictMono N.erf)
    (hsqrt2 : 0 < N.sqrt2) (hsigma : ∀ d, 0 < self.m_Sigma d) (halpha : 0 < self.m_Alpha)
    (hspacing : ∀ d, 0 < image.spacing d)
    (hc : ∀ d, -(1 / 2) ≤ c d ∧ c d < (image.size d : K) - 1 / 2) :
    (∀ d,
      0 ≤ rangeBegin ((self.ComputeBoundingBox N).m_BoundingBoxStart d)
        ((self.ComputeBoundingBox N).m_CutoffDistance d) (c d) ∧
      rangeBegin ((self.ComputeBoundingBox N).m_BoundingBoxStart d)
        ((self.ComputeBoundingBox N).m_CutoffDistance d) (c d) ≤ ⌊c d + 1 / 2⌋ ∧
      ⌊c d + 1 / 2⌋ <
        rangeEnd (boundingBoxSize ((self.ComputeBoundingBox N).m_BoundingBoxStart d)
            ((self.ComputeBoundingBox N).m_BoundingBoxEnd d))
          ((self.ComputeBoundingBox N).m_BoundingBoxStart d)
          ((self.ComputeBoundingBox N).m_CutoffDistance d) (c d) ∧
      rangeEnd (boundingBoxSize ((self.ComputeBoundingBox N).m_BoundingBoxStart d)
            ((self.ComputeBoundingBox N).m_BoundingBoxEnd d))
          ((self.ComputeBoundingBox N).m_BoundingBoxStart d)
          ((self.ComputeBoundingBox N).m_CutoffDistance d) (c d) ≤ (image.size d : ℤ)) ∧
    (∀ j ∈ regionIndices ((self.ComputeBoundingBox N).activeRegion c), ∀ d,
      (rangeBegin ((self.ComputeBoundingBox N).m_BoundingBoxStart d)
          ((self.ComputeBoundingBox N).m_CutoffDistance d) (c d) ≤ j d ∧
        j d < rangeEnd (boundingBoxSize ((self.ComputeBoundingBox N).m_BoundingBoxStart d)
            ((self.ComputeBoundingBox N).m_BoundingBoxEnd d))
          ((self.ComputeBoundingBox N).m_BoundingBoxStart d)
          ((self.ComputeBoundingBox N).m_CutoffDistance d) (c d)) ∧
      ∃ w : K, 0 < w ∧
        ((self.ComputeBoundingBox N).ComputeErrorFunctionArray N d (c d) g).erfArray (j d) =
          some w) ∧
    0 < ((self.ComputeBoundingBox N).evaluateSums N image c g).sum_m ∧
    (self.ComputeBoundingBox N).EvaluateAtContinuousIndex N image c g =
      ((self.ComputeBoundingBox N).evaluateSums N image c g).sum_me /
        ((self.ComputeBoundingBox N).evaluateSums N image c g).sum_m := by
  have hstart : ∀ d, (self.ComputeBoundingBox N).m_BoundingBoxStart d = -(1 / 2) := by
    intro d
    simp [GaussianInterpolateImageFunction.ComputeBoundingBox, himage]
  have hend : ∀ d, (self.ComputeBoundingBox N).m_BoundingBoxEnd d =
      (image.size d : K) - 1 / 2 := by
    intro d
    simp [GaussianInterpolateImageFunction.ComputeBoundingBox, himage]
  have hcutoff : ∀ d, (self.ComputeBoundingBox N).m_CutoffDistance d =
      self.m_Sigma d * self.m_Alpha / image.spacing d := by
    intro d
    simp [GaussianInterpolateImageFunction.ComputeBoundingBox, himage]
  have hsf : ∀ d, 0 < (self.ComputeBoundingBox N).m_ScalingFactor d := fun d =>
    GaussianInterpolateImageFunction.scalingFactor_pos N self image d himage hsqrt2 (hsigma d)
      (hspacing d)
  have hrange : ∀ d,
      0 ≤ rangeBegin ((self.ComputeBoundingBox N).m_BoundingBoxStart d)
        ((self.ComputeBoundingBox N).m_CutoffDistance d) (c d) ∧
      rangeBegin ((self.ComputeBoundingBox N).m_BoundingBoxStart d)
        ((self.ComputeBoundingBox N).m_CutoffDistance d) (c d) ≤ ⌊c d + 1 / 2⌋ ∧
      ⌊c d + 1 / 2⌋ <
        rangeEnd (boundingBoxSize ((self.ComputeBoundingBox N).m_BoundingBoxStart d)
            ((self.ComputeBoundingBox N).m_BoundingBoxEnd d))
          ((self.ComputeBoundingBox N).m_BoundingBoxStart d)
          ((self.ComputeBoundingBox N).m_CutoffDistance d) (c d) ∧
      rangeEnd (boundingBoxSize ((self.ComputeBoundingBox N).m_BoundingBoxStart d)
            ((self.ComputeBoundingBox N).m_BoundingBoxEnd d))
          ((self.ComputeBoundingBox N).m_BoundingBoxStart d)
          ((self.ComputeBoundingBox N).m_CutoffDistance d) (c d) ≤ (image.size d : ℤ) := by
    intro d
    rw [hstart, hend, hcutoff, boundingBoxSize_eq_size]
    exact range_contains_nearest (image.size d) _ (c d)
      (div_pos (mul_pos (hsigma d) halpha) (hspacing d)) (hc d).1 (hc d).2
  have hmem : ∀ j ∈ regionIndices ((self.ComputeBoundingBox N).activeRegion c), ∀ d,
      rangeBegin ((self.ComputeBoundingBox N).m_BoundingBoxStart d)
          ((self.ComputeBoundingBox N).m_CutoffDistance d) (c d) ≤ j d ∧
        j d < rangeEnd (boundingBoxSize ((self.ComputeBoundingBox N).m_BoundingBoxStart d)
            ((self.ComputeBoundingBox N).m_BoundingBoxEnd d))
          ((self.ComputeBoundingBox N).m_BoundingBoxStart d)
          ((self.ComputeBoundingBox N).m_CutoffDistance d) (c d) := by
    intro j hj d
    have hjd := (mem_regionIndices _ _).1 hj d
    simpa only [GaussianInterpolateImageFunction.activeRegion, add_sub_cancel] using hjd
  have hnearest : (fun d => ⌊c d + 1 / 2⌋) ∈
      regionIndices ((self.ComputeBoundingBox N).activeRegion c) := by
    rw [mem_regionIndices]
    intro d
    simp only [GaussianInterpolateImageFunction.activeRegion, add_sub_cancel]
    exact ⟨(hrange d).2.1, (hrange d).2.2.1⟩
  refine ⟨hrange, fun j hj d => ⟨hmem j hj d, ?_⟩, ?_, rfl⟩
  · have hpos := GaussianInterpolateImageFunction.readArray_erfArray_pos N
      (self.ComputeBoundingBox N) d (c d) g (j d) herf (hsf d) (hmem j hj d)
    refine ⟨_, hpos, ?_⟩
    rw [GaussianInterpolateImageFunction.readArray,
      GaussianInterpolateImageFunction.erfArray_closed_form, if_pos (hmem j hj d)]
    rfl
  · rw [(GaussianInterpolateImageFunction.evaluateSums_eq N _ image c g).2]
    exact (weighted_mean_bounds _ _ (fun _ => (0 : K))
      (fun j hj => GaussianInterpolateImageFunction.voxelWeight_pos N _ c g herf hsf j hj)
      (List.ne_nil_of_mem hnearest) 0 0 (fun _ _ => ⟨le_refl _, le_refl _⟩)).1

/-- Instance of C24 on the two-voxel line (`sigma = 1/8`, `alpha = 8`) at the continuous
index `0`: the weight sum is strictly positive. -/
theorem C24_witness :
    0 < (((lineInterpolatorInit (1 / 8 : ℝ) 8).ComputeBoundingBox realNumerics).evaluateSums
      realNumerics lineImage (fun _ => (0 : ℝ)) false).sum_m :=
  (C24_in_grid_division_safe realNumerics (lineInterpolatorInit (1 / 8 : ℝ) 8) lineImage
    (fun _ => (0 : ℝ)) false rfl realErf_strictMono (Real.sqrt_pos.2 (by norm_num))
    (fun _ => by norm_num [lineInterpolatorInit]) (by norm_num [lineInterpolatorInit])
    (fun _ => by simp [lineImage])
    (fun _ => by
      constructor
      · norm_num
      · norm_num [lineImage])).2.2.1

end ClaimsWeightedMean

/-! ## Sequences of setter calls -/

section Setters

variable {K : Type} [LinearOrderedField K] [FloorRing K] {D : ℕ}

namespace OrientedGaussianInterpolateImageFunction

theorem forwardComputeBoundingBox_none (N : Numerics K)
    (self : OrientedGaussianInterpolateImageFunction K D) (h : self.inputImage = none) :
    self.forwardComputeBoundingBox N = self := by
  obtain ⟨image, cov, sigma, alpha, bbStart, bbEnd, cutoff⟩ := self
  dsimp only at h
  subst h
  rfl

theorem forwardComputeBoundingBox_some (N : Numerics K)
    (self : OrientedGaussianInterpolateImageFunction K D) (input : Image K D)
    (h : self.inputImage = some input) :
    self.forwardComputeBoundingBox N =
      { self with
        m_BoundingBoxStart := fun _ => -(1 / 2)
        m_BoundingBoxEnd := fun d => (input.size d : K) - 1 / 2
        m_CutoffDistance := fun d => self.m_Sigma d * self.m_Alpha / input.spacing d } := by
  simp [forwardComputeBoundingBox, sharedMembers,
    GaussianInterpolateImageFunction.ComputeBoundingBox, h]

/-- Running `ComputeBoundingBox` twice is the same as running it once. -/
theorem forwardComputeBoundingBox_idem (N : Numerics K)
    (self : OrientedGaussianInterpolateImageFunction K D) :
    (self.forwardComputeBoundingBox N).forwardComputeBoundingBox N =
      self.forwardComputeBoundingBox N := by
  cases himage : self.inputImage with
  | none =>
    rw [forwardComputeBoundingBox_none N self himage, forwardComputeBoundingBox_none N self himage]
  | some input =>
    rw [forwardComputeBoundingBox_some N self input himage]
    exact forwardComputeBoundingBox_some N _ input himage

/-- A state that `ComputeBoundingBox` leaves as it is stays such a state under every
setter call. -/
theorem call_in_sync (N : Numerics K) (self : OrientedGaussianInterpolateImageFunction K D)
    (c : SetterCall K D) (h : self.forwardComputeBoundingBox N = self) :
    (self.call N (forwardComputeBoundingBox N) c).forwardComputeBoundingBox N =
      self.call N (forwardComputeBoundingBox N) c := by
  have hsigma : ∀ (st : OrientedGaussianInterpolateImageFunction K D) (s : Fin D → K),
      st.forwardComputeBoundingBox N = st →
      (st.SetSigma (forwardComputeBoundingBox N) s).forwardComputeBoundingBox N =
        st.SetSigma (forwardComputeBoundingBox N) s := by
    intro st s hst
    unfold SetSigma
    split
    · exact forwardComputeBoundingBox_idem N _
    · exact hst
  have halpha : ∀ (st : OrientedGaussianInterpolateImageFunction K D) (a : K),
      st.forwardComputeBoundingBox N = st →
      (st.SetAlpha (forwardComputeBoundingBox N) a).forwardComputeBoundingBox N =
        st.SetAlpha (forwardComputeBoundingBox N) a := by
    intro st a hst
    unfold SetAlpha
    split
    · exact forwardComputeBoundingBox_idem N _
    · exact hst
  cases c with
  | SetInputImage image => exact forwardComputeBoundingBox_idem N _
  | SetSigma s => exact hsigma self s h
  | SetCovariance cov =>
    show (self.SetCovariance N (forwardComputeBoundingBox N) cov).forwardComputeBoundingBox N =
      self.SetCovariance N (forwardComputeBoundingBox N) cov
    unfold SetCovariance
    split
    · exact forwardComputeBoundingBox_idem N _
    · exact h
  | SetAlpha a => exact halpha self a h
  | SetParameters sigma alpha => exact halpha _ alpha (hsigma self sigma h)

/-- Every setter call keeps `sigma[d]² = cov[d][d]`, a call of `SetCovariance` provided
its argument has a non-negative diagonal. -/
theorem call_sigma_sq (N : Numerics K) (self : OrientedGaussianInterpolateImageFunction K D)
    (c : SetterCall K D) (hsqrt : ∀ x : K, 0 ≤ x → N.sqrt x ^ 2 = x)
    (hc : ∀ cov, c = SetterCall.SetCovariance cov → ∀ d, 0 ≤ cov d d)
    (h : ∀ d, self.m_Sigma d ^ 2 = self.m_Covariance d d) :
    ∀ d, (self.call N (forwardComputeBoundingBox N) c).m_Sigma d ^ 2 =
      (self.call N (forwardComputeBoundingBox N) c).m_Covariance d d := by
  have hsigma : ∀ (st : OrientedGaussianInterpolateImageFunction K D) (s : Fin D → K),
      (∀ d, st.m_Sigma d ^ 2 = st.m_Covariance d d) →
      ∀ d, (st.SetSigma (forwardComputeBoundingBox N) s).m_Sigma d ^ 2 =
        (st.SetSigma (forwardComputeBoundingBox N) s).m_Covariance d d := by
    intro st s hst d
    unfold SetSigma
    split
    · simp [forwardComputeBoundingBox, pow_two]
    · exact hst d
  have halpha : ∀ (st : OrientedGaussianInterpolateImageFunction K D) (a : K),
      (∀ d, st.m_Sigma d ^ 2 = st.m_Covariance d d) →
      ∀ d, (st.SetAlpha (forwardComputeBoundingBox N) a).m_Sigma d ^ 2 =
        (st.SetAlpha (forwardComputeBoundingBox N) a).m_Covariance d d := by
    intro st a hst d
    unfold SetAlpha
    split
    · simpa [forwardComputeBoundingBox] using hst d
    · exact hst d
  cases c with
  | SetInputImage image =>
    intro d
    simpa [call, SetInputImage, forwardComputeBoundingBox] using h d
  | SetSigma s => exact hsigma self s h
  | SetCovariance cov =>
    intro d
    show (self.SetCovariance N (forwardComputeBoundingBox N) cov).m_Sigma d ^ 2 =
      (self.SetCovariance N (forwardComputeBoundingBox N) cov).m_Covariance d d
    unfold SetCovariance
    split
    · simpa [forwardComputeBoundingBox] using hsqrt _ (hc cov rfl d)
    · exact h d
  | SetAlpha a => exact halpha self a h
  | SetParameters sigma alpha => exact halpha _ alpha (hsigma self sigma h)

/-- Both invariants hold after every sequence of setter calls. -/
theorem calls_invariants (N : Numerics K) (hsqrt : ∀ x : K, 0 ≤ x → N.sqrt x ^ 2 = x) :
    ∀ (l : List (SetterCall K D)) (init : OrientedGaussianInterpolateImageFunction K D),
      init.forwardComputeBoundingBox N = init →
      (∀ d, init.m_Sigma d ^ 2 = init.m_Covariance d d) →
      (∀ cov, SetterCall.SetCovariance cov ∈ l → ∀ d, 0 ≤ cov d d) →
      (init.calls N (forwardComputeBoundingBox N) l).forwardComputeBoundingBox N =
          init.calls N (forwardComputeBoundingBox N) l ∧
        ∀ d, (init.calls N (forwardComputeBoundingBox N) l).m_Sigma d ^ 2 =
          (init.calls N (forwardComputeBoundingBox N) l).m_Covariance d d
  | [], init, h1, h2, _ => ⟨h1, h2⟩
  | c :: rest, init, h1, h2, h3 => by
    have ih := calls_invariants N hsqrt rest (init.call N (forwardComputeBoundingBox N) c)
      (call_in_sync N init c h1)
      (call_sigma_sq N init c hsqrt
        (fun cov hc => h3 cov (by rw [hc]; exact List.mem_cons_self _ _)) h2)
      (fun cov hc => h3 cov (List.mem_cons_of_mem _ hc))
    exact ih

/-- In a state that `ComputeBoundingBox` leaves as it is and that has an image bound, the
derived arrays have the values computed from the current sigma, alpha and image. -/
theorem in_sync_derived (N : Numerics K) (self : OrientedGaussianInterpolateImageFunction K D)
    (image : Image K D) (h : self.forwardComputeBoundingBox N = self)
    (himage : self.inputImage = some image) (d : Fin D) :
    self.m_CutoffDistance d = self.m_Sigma d * self.m_Alpha / image.spacing d ∧
      self.m_BoundingBoxEnd d = (image.size d : K) - 1 / 2 ∧
      self.m_BoundingBoxStart d = -(1 / 2) := by
  rw [forwardComputeBoundingBox_some N self image himage] at h
  refine ⟨?_, ?_, ?_⟩
  · exact (congrFun (congrArg OrientedGaussianInterpolateImageFunction.m_CutoffDistance h) d).symm
  · exact (congrFun (congrArg OrientedGaussianInterpolateImageFunction.m_BoundingBoxEnd h) d).symm
  · exact
      (congrFun (congrArg OrientedGaussianInterpolateImageFunction.m_BoundingBoxStart h) d).symm

end OrientedGaussianInterpolateImageFunction

end Setters

/-! ## Claim C21 -/

section ClaimsSetters

variable {K : Type} [LinearOrderedField K] [FloorRing K] {D : ℕ}

/-- C21: no stale derived state.  The setters call `ComputeBoundingBox` (here with the body
of `GaussianInterpolateImageFunction::ComputeBoundingBox`).  Start from a state in which
`ComputeBoundingBox` would change nothing (every state without a bound image is one) and
in which `sigma[d]² = cov[d][d]`; then after every sequence of `SetInputImage`,
`SetSigma`, `SetCovariance`, `SetAlpha` and `SetParameters` calls (the `SetCovariance`
arguments having a non-negative diagonal, `sqrt(x)² = x` for `x ≥ 0`) that ends with an
input image bound, on every axis `CutoffDistance[d] = Sigma[d] * Alpha / spacing[d]`,
`BoundingBoxEnd[d] = size[d] - 0.5`, `BoundingBoxStart[d] = -0.5` and
`Sigma[d]² = Covariance[d][d]` hold for the current sigma, alpha, covariance and image. -/
theorem C21_no_stale_derived_state (N : Numerics K)
    (init : OrientedGaussianInterpolateImageFunction K D) (l : List (SetterCall K D))
    (image : Image K D) (hsqrt : ∀ x : K, 0 ≤ x → N.sqrt x ^ 2 = x)
    (hinit : init.forwardComputeBoundingBox N = init)
    (hinitcov : ∀ d, init.m_Sigma d ^ 2 = init.m_Covariance d d)
    (hcov : ∀ cov, SetterCall.SetCovariance cov ∈ l → ∀ d, 0 ≤ cov d d)
    (hbound : (init.calls N (OrientedGaussianInterpolateImageFunction.forwardComputeBoundingBox
      N) l).inputImage = some image) :
    ∀ d,
      (init.calls N (OrientedGaussianInterpolateImageFunction.forwardComputeBoundingBox N)
          l).m_CutoffDistance d =
        (init.calls N (OrientedGaussianInterpolateImageFunction.forwardComputeBoundingBox N)
            l).m_Sigma d *
          (init.calls N (OrientedGaussianInterpolateImageFunction.forwardComputeBoundingBox N)
            l).m_Alpha / image.spacing d ∧
      (init.calls N (OrientedGaussianInterpolateImageFunction.forwardComputeBoundingBox N)
          l).m_BoundingBoxEnd d = (image.size d : K) - 1 / 2 ∧
      (init.calls N (OrientedGaussianInterpolateImageFunction.forwardComputeBoundingBox N)
          l).m_BoundingBoxStart d = -(1 / 2) ∧
      (init.calls N (OrientedGaussianInterpolateImageFunction.forwardComputeBoundingBox N)
          l).m_Sigma d ^ 2 =
        (init.calls N (OrientedGaussianInterpolateImageFunction.forwardComputeBoundingBox N)
          l).m_Covariance d d := by
  intro d
  have hinv := OrientedGaussianInterpolateImageFunction.calls_invariants N hsqrt l init hinit
    hinitcov hcov
  have hder := OrientedGaussianInterpolateImageFunction.in_sync_derived N _ image hinv.1 hbound d
  exact ⟨hder.1, hder.2.1, hder.2.2, hinv.2 d⟩

/-- Instance of C21: from the unit interpolator without an image, the calls
`SetAlpha( 3 )`, `SetInputImage( lineImage )`, `SetSigma( 2 )` leave the cutoff distance
`2 * 3 / 1` of the current parameters. -/
theorem C21_witness :
    ((unitOriented : OrientedGaussianInterpolateImageFunction ℝ 1).calls realNumerics
      (OrientedGaussianInterpolateImageFunction.forwardComputeBoundingBox realNumerics)
      [SetterCall.SetAlpha 3, SetterCall.SetInputImage (some lineImage),
        SetterCall.SetSigma (fun _ => 2)]).inputImage = some lineImage ∧
    ((unitOriented : OrientedGaussianInterpolateImageFunction ℝ 1).calls realNumerics
      (OrientedGaussianInterpolateImageFunction.forwardComputeBoundingBox realNumerics)
      [SetterCall.SetAlpha 3, SetterCall.SetInputImage (some lineImage),
        SetterCall.SetSigma (fun _ => 2)]).m_CutoffDistance 0 = 2 * 3 / 1 := by
  have h2 : (fun _ => 1 : Fin 1 → ℝ) ≠ fun _ => 2 := by
    intro h
    have h0 := congrFun h 0
    norm_num at h0
  have hbound : ((unitOriented : OrientedGaussianInterpolateImageFunction ℝ 1).calls
      realNumerics
      (OrientedGaussianInterpolateImageFunction.forwardComputeBoundingBox realNumerics)
      [SetterCall.SetAlpha 3, SetterCall.SetInputImage (some lineImage),
        SetterCall.SetSigma (fun _ => 2)]).inputImage = some lineImage := by
    simp [OrientedGaussianInterpolateImageFunction.calls,
      OrientedGaussianInterpolateImageFunction.call,
      OrientedGaussianInterpolateImageFunction.SetAlpha,
      OrientedGaussianInterpolateImageFunction.SetInputImage,
      OrientedGaussianInterpolateImageFunction.SetSigma,
      OrientedGaussianInterpolateImageFunction.forwardComputeBoundingBox, unitOriented, h2]
  have h := C21_no_stale_derived_state realNumerics
    (unitOriented : OrientedGaussianInterpolateImageFunction ℝ 1)
    [SetterCall.SetAlpha 3, SetterCall.SetInputImage (some lineImage),
      SetterCall.SetSigma (fun _ => 2)] lineImage
    (fun x hx => Real.sq_sqrt hx)
    (OrientedGaussianInterpolateImageFunction.forwardComputeBoundingBox_none realNumerics _ rfl)
    (fun _ => by simp [unitOriented])
    (fun cov hc => by simp at hc)
    hbound 0
  refine ⟨hbound, ?_⟩
  rw [h.1]
  simp [OrientedGaussianInterpolateImageFunction.calls,
    OrientedGaussianInterpolateImageFunction.call,
    OrientedGaussianInterpolateImageFunction.SetAlpha,
    OrientedGaussianInterpolateImageFunction.SetInputImage,
    OrientedGaussianInterpolateImageFunction.SetSigma,
    OrientedGaussianInterpolateImageFunction.forwardComputeBoundingBox, unitOriented, h2,
    lineImage]

end ClaimsSetters

/-! ## Conversion to `int` in the box of the splatter -/

section IntConversion

variable {K : Type} [LinearOrderedField K] [FloorRing K] {D : ℕ}

/-- The conversion is exact on the range of `int`. -/
theorem static_cast_int32_eq (overflow z : ℤ) (h : -2147483648 ≤ z ∧ z ≤ 2147483647) :
    static_cast_int32 overflow z = z := by
  unfold static_cast_int32
  rw [if_pos h]

namespace AdjointOrientedGaussianInterpolateImageFilter

/-- When the floor value fits in an `int`, `begin` is the value of the exact model. -/
theorem boxBeginInt_eq (overflow : ℤ) (self : AdjointOrientedGaussianInterpolateImageFilter K D)
    (c : Fin D → K) (d : Fin D)
    (h : -2147483648 ≤ ⌊c d - self.m_BoundingBoxStart d - self.m_CutoffDistance d⌋ ∧
      ⌊c d - self.m_BoundingBoxStart d - self.m_CutoffDistance d⌋ ≤ 2147483647) :
    self.boxBeginInt overflow c d = self.boxBegin c d := by
  unfold boxBeginInt boxBegin rangeBeginInt rangeBegin
  rw [static_cast_int32_eq overflow _ h]

/-- When the ceiling value fits in an `int`, `end` is the value of the exact model. -/
theorem boxEndInt_eq (overflow : ℤ) (self : AdjointOrientedGaussianInterpolateImageFilter K D)
    (c : Fin D → K) (d : Fin D)
    (h : -2147483648 ≤ ⌈c d - self.m_BoundingBoxStart d + self.m_CutoffDistance d⌉ ∧
      ⌈c d - self.m_BoundingBoxStart d + self.m_CutoffDistance d⌉ ≤ 2147483647) :
    self.boxEndInt overflow c d = self.boxEnd c d := by
  unfold boxEndInt boxEnd rangeEndInt rangeEnd
  rw [static_cast_int32_eq overflow _ h]

end AdjointOrientedGaussianInterpolateImageFilter

/-- As long as the floor and the ceiling value fit in an `int`, the clamps do what their
comments say for every non-negative cutoff distance: `0 ≤ begin ≤ end ≤ size[d]`. -/
theorem boxInt_inside_grid (overflow : ℤ)
    (self : AdjointOrientedGaussianInterpolateImageFilter K D) (c : Fin D → K) (d : Fin D)
    (hcut : 0 ≤ (self.ComputeBoundingBox).m_CutoffDistance d)
    (hfloor : -2147483648 ≤ ⌊c d - (self.ComputeBoundingBox).m_BoundingBoxStart d -
        (self.ComputeBoundingBox).m_CutoffDistance d⌋ ∧
      ⌊c d - (self.ComputeBoundingBox).m_BoundingBoxStart d -
        (self.ComputeBoundingBox).m_CutoffDistance d⌋ ≤ 2147483647)
    (hceil : -2147483648 ≤ ⌈c d - (self.ComputeBoundingBox).m_BoundingBoxStart d +
        (self.ComputeBoundingBox).m_CutoffDistance d⌉ ∧
      ⌈c d - (self.ComputeBoundingBox).m_BoundingBoxStart d +
        (self.ComputeBoundingBox).m_CutoffDistance d⌉ ≤ 2147483647) :
    0 ≤ (self.ComputeBoundingBox).boxBeginInt overflow c d ∧
      (self.ComputeBoundingBox).boxBeginInt overflow c d ≤
        (self.ComputeBoundingBox).boxEndInt overflow c d ∧
      (self.ComputeBoundingBox).boxEndInt overflow c d ≤ (self.output.size d : ℤ) := by
  have h := outputRegion_inside_grid self c d hcut
  rw [AdjointOrientedGaussianInterpolateImageFilter.boxBeginInt_eq overflow _ c d hfloor,
    AdjointOrientedGaussianInterpolateImageFilter.boxEndInt_eq overflow _ c d hceil]
  exact ⟨h.1, h.2.1, h.2.2.2.1 ▸ h.2.2.1⟩

end IntConversion

/-! ## Claim C7 -/

section ClaimsIntConversion

/-- C7 (evaluation at the failing input): the adjoint filter on the two-voxel line
(`sigma = 1/8`, `alpha = 8`, unit spacing, so cutoff `1 ≥ 0`) and the destination
continuous index `c = 2147483647.6`.  The floor `2147483647` of `c + 0.5 - 1` still fits
in an `int`, the ceiling `2147483650` of `c + 0.5 + 1` does not; with the conversion
delivering `INT_MIN` the clamps leave `begin = 2` and `end = 0`, so `begin > end` and the
size handed to `outputRegion.SetSize` is `end - begin = -2`. -/
theorem C7_far_centre_int_overflow :
    0 ≤ ((lineFilter (1 / 8 : ℝ) 8).ComputeBoundingBox).m_CutoffDistance 0 ∧
    ⌊(10737418238 / 5 : ℝ) - ((lineFilter (1 / 8 : ℝ) 8).ComputeBoundingBox).m_BoundingBoxStart 0 -
      ((lineFilter (1 / 8 : ℝ) 8).ComputeBoundingBox).m_CutoffDistance 0⌋ = 2147483647 ∧
    ⌈(10737418238 / 5 : ℝ) - ((lineFilter (1 / 8 : ℝ) 8).ComputeBoundingBox).m_BoundingBoxStart 0 +
      ((lineFilter (1 / 8 : ℝ) 8).ComputeBoundingBox).m_CutoffDistance 0⌉ = 2147483650 ∧
    ((lineFilter (1 / 8 : ℝ) 8).ComputeBoundingBox).boxBeginInt (-2147483648)
      (fun _ => 10737418238 / 5) 0 = 2 ∧
    ((lineFilter (1 / 8 : ℝ) 8).ComputeBoundingBox).boxEndInt (-2147483648)
      (fun _ => 10737418238 / 5) 0 = 0 ∧
    ((lineFilter (1 / 8 : ℝ) 8).ComputeBoundingBox).boxEndInt (-2147483648)
        (fun _ => 10737418238 / 5) 0 -
      ((lineFilter (1 / 8 : ℝ) 8).ComputeBoundingBox).boxBeginInt (-2147483648)
        (fun _ => 10737418238 / 5) 0 = -2 := by
  have hstart : ((lineFilter (1 / 8 : ℝ) 8).ComputeBoundingBox).m_BoundingBoxStart 0 =
      -(1 / 2) := rfl
  have hend : ((lineFilter (1 / 8 : ℝ) 8).ComputeBoundingBox).m_BoundingBoxEnd 0 =
      ((2 : ℕ) : ℝ) - 1 / 2 := rfl
  have hcut : ((lineFilter (1 / 8 : ℝ) 8).ComputeBoundingBox).m_CutoffDistance 0 = 1 :=
    lineFilter_cutoff
  have hfloor : ⌊(10737418238 / 5 : ℝ) - -(1 / 2) - 1⌋ = 2147483647 := by
    rw [Int.floor_eq_iff]
    constructor <;> norm_num
  have hceil : ⌈(10737418238 / 5 : ℝ) - -(1 / 2) + 1⌉ = 2147483650 := by
    rw [Int.ceil_eq_iff]
    constructor <;> norm_num
  have hsize : boundingBoxSize (-(1 / 2) : ℝ) (((2 : ℕ) : ℝ) - 1 / 2) = ((2 : ℕ) : ℤ) :=
    boundingBoxSize_eq_size 2
  have hb : ((lineFilter (1 / 8 : ℝ) 8).ComputeBoundingBox).boxBeginInt (-2147483648)
      (fun _ => 10737418238 / 5) 0 = 2 := by
    unfold AdjointOrientedGaussianInterpolateImageFilter.boxBeginInt rangeBeginInt
    rw [hstart, hend, hcut, hfloor, hsize]
    decide
  have he : ((lineFilter (1 / 8 : ℝ) 8).ComputeBoundingBox).boxEndInt (-2147483648)
      (fun _ => 10737418238 / 5) 0 = 0 := by
    unfold AdjointOrientedGaussianInterpolateImageFilter.boxEndInt rangeEndInt
    rw [hstart, hend, hcut, hceil, hsize]
    decide
  refine ⟨?_, ?_, ?_, hb, he, ?_⟩
  · rw [hcut]
    norm_num
  · rw [hstart, hcut]
    exact hfloor
  · rw [hstart, hcut]
    exact hceil
  · rw [hb, he]
    norm_num

end ClaimsIntConversion

/-! ## Claim C9 -/

section ZeroSum

variable {K : Type} [LinearOrderedField K] [FloorRing K] {D : ℕ}

/-- The box of the sample landing on the continuous index `1/2` of the two-voxel line with
`sigma = 1/100`, `alpha = 100` (cutoff `1`) is the whole line. -/
theorem lineFilter_sharp_region :
    regionIndices (((lineFilter (1 / 100 : K) 100).BeforeThreadedGenerateData).outputRegion
      (fun _ => (1 / 2 : K))) = [fun _ => 0, fun _ => 1] := by
  have hfloor : ⌊(1 / 2 : K) - -(1 / 2) - 1 / 100 * 100 / 1⌋ = 0 := by
    rw [Int.floor_eq_iff]
    constructor <;> norm_num
  have hceil : ⌈(1 / 2 : K) - -(1 / 2) + 1 / 100 * 100 / 1⌉ = 2 := by
    rw [Int.ceil_eq_iff]
    constructor <;> norm_num
  have hs : boundingBoxSize (-(1 / 2) : K) (((2 : ℕ) : K) - 1 / 2) = ((2 : ℕ) : ℤ) :=
    boundingBoxSize_eq_size 2
  have hb : ((lineFilter (1 / 100 : K) 100).BeforeThreadedGenerateData).boxBegin
      (fun _ => (1 / 2 : K)) 0 = 0 := by
    simp only [AdjointOrientedGaussianInterpolateImageFilter.boxBegin,
      AdjointOrientedGaussianInterpolateImageFilter.BeforeThreadedGenerateData,
      AdjointOrientedGaussianInterpolateImageFilter.ComputeBoundingBox, lineFilter, lineImage,
      rangeBegin, hfloor, hs]
    rfl
  have he : ((lineFilter (1 / 100 : K) 100).BeforeThreadedGenerateData).boxEnd
      (fun _ => (1 / 2 : K)) 0 = 2 := by
    simp only [AdjointOrientedGaussianInterpolateImageFilter.boxEnd,
      AdjointOrientedGaussianInterpolateImageFilter.BeforeThreadedGenerateData,
      AdjointOrientedGaussianInterpolateImageFilter.ComputeBoundingBox, lineFilter, lineImage,
      rangeEnd, hceil, hs]
    rfl
  rw [regionIndices_line]
  simp only [AdjointOrientedGaussianInterpolateImageFilter.outputRegion, hb, he]
  norm_num [intRange_zero_two]

/-- The kernel weight on the two-voxel line with `sigma = 1/100` around the continuous
index `1/2`. -/
theorem lineFilter_sharp_weight (N : Numerics K) (p : Fin 1 → ℤ) :
    AdjointOrientedGaussianInterpolateImageFilter.ComputeExponentialFunction N p
        (fun _ => (1 / 2 : K))
        ((lineFilter (1 / 100 : K) 100).BeforeThreadedGenerateData).CovScaledInv =
      N.exp (-(1 / 2) * (((p 0 : K) - 1 / 2) * 100) ^ 2) := by
  have hcov : ((lineFilter (1 / 100 : K) 100).BeforeThreadedGenerateData).m_Covariance =
      Matrix.diagonal (fun _ : Fin 1 => (1 / 100 : K) ^ 2) := by
    ext i j
    have hi : i = 0 := Subsingleton.elim _ _
    have hj : j = 0 := Subsingleton.elim _ _
    subst hi hj
    simp [AdjointOrientedGaussianInterpolateImageFilter.BeforeThreadedGenerateData,
      AdjointOrientedGaussianInterpolateImageFilter.ComputeBoundingBox, lineFilter]
    norm_num
  rw [(kernel_weight_forms N _ p (fun _ => (1 / 2 : K))).2 (fun _ => (1 / 100 : K))
    (fun _ => by norm_num) hcov]
  simp [AdjointOrientedGaussianInterpolateImageFilter.BeforeThreadedGenerateData,
    AdjointOrientedGaussianInterpolateImageFilter.ComputeBoundingBox, lineFilter, lineImage]

end ZeroSum

section ClaimsZeroSum

variable {K : Type} [LinearOrderedField K] [FloorRing K] {D : ℕ}

/-- C9 (counterexample): on the two-voxel line with `sigma = 1/100`, `alpha = 100` (cutoff
`1`) the sample landing on the continuous index `1/2` has the non-empty box `[0, 2)`;
both kernel weights are `exp(-1250)`, which `std::exp` returns as `0`, so the local weight
sum is zero although the box is empty on no axis, and the second loop runs over both
voxels, each time evaluating `inIt.Get()*w/sum_m` with the divisor `sum_m = 0`. -/
theorem C9_counterexample :
    ((lineFilter (1 / 100 : ℝ) 100).BeforeThreadedGenerateData).localSum doubleRangeNumerics
      (fun _ => 1 / 2) = 0 ∧
    regionIndices (((lineFilter (1 / 100 : ℝ) 100).BeforeThreadedGenerateData).outputRegion
      (fun _ => 1 / 2)) = [fun _ => 0, fun _ => 1] ∧
    ((lineFilter (1 / 100 : ℝ) 100).BeforeThreadedGenerateData).boxBegin (fun _ => 1 / 2) 0 <
      ((lineFilter (1 / 100 : ℝ) 100).BeforeThreadedGenerateData).boxEnd (fun _ => 1 / 2) 0 ∧
    ((lineFilter (1 / 100 : ℝ) 100).BeforeThreadedGenerateData).splatSample doubleRangeNumerics
        (fun _ => 1 / 2) 1 (fun _ => 0) =
      [fun _ => 0, fun _ => 1].foldl
        (fun buf idx => AdjointOrientedGaussianInterpolateImageFilter.writeBack buf idx
          (AdjointOrientedGaussianInterpolateImageFilter.readModify buf idx 1
            (AdjointOrientedGaussianInterpolateImageFilter.ComputeExponentialFunction
              doubleRangeNumerics idx (fun _ => 1 / 2)
              ((lineFilter (1 / 100 : ℝ) 100).BeforeThreadedGenerateData).CovScaledInv)
            0))
        (fun _ => 0) := by
  have hregion := lineFilter_sharp_region (K := ℝ)
  have hw : ∀ p : Fin 1 → ℤ, (p 0 = 0 ∨ p 0 = 1) →
      AdjointOrientedGaussianInterpolateImageFilter.ComputeExponentialFunction
        doubleRangeNumerics p (fun _ => (1 / 2 : ℝ))
        ((lineFilter (1 / 100 : ℝ) 100).BeforeThreadedGenerateData).CovScaledInv = 0 := by
    intro p hp
    rw [lineFilter_sharp_weight]
    show (if -(1 / 2) * (((p 0 : ℝ) - 1 / 2) * 100) ^ 2 < -746 then (0 : ℝ)
      else Real.exp (-(1 / 2) * (((p 0 : ℝ) - 1 / 2) * 100) ^ 2)) = 0
    rw [if_pos]
    rcases hp with h | h <;> rw [h] <;> norm_num
  have hsum : ((lineFilter (1 / 100 : ℝ) 100).BeforeThreadedGenerateData).localSum
      doubleRangeNumerics (fun _ => 1 / 2) = 0 := by
    rw [AdjointOrientedGaussianInterpolateImageFilter.localSum_eq_sum, hregion]
    simp only [List.map_cons, List.map_nil, List.sum_cons, List.sum_nil]
    rw [hw _ (Or.inl rfl), hw _ (Or.inr rfl)]
    norm_num
  refine ⟨hsum, hregion, ?_, ?_⟩
  · have hmem : (fun _ => 0 : Fin 1 → ℤ) ∈
        regionIndices (((lineFilter (1 / 100 : ℝ) 100).BeforeThreadedGenerateData).outputRegion
          (fun _ => 1 / 2)) := by
      rw [hregion]
      simp
    have h := (AdjointOrientedGaussianInterpolateImageFilter.mem_outputRegion _ _ _).1 hmem 0
    omega
  · rw [AdjointOrientedGaussianInterpolateImageFilter.splatSample_eq_read_write, hregion, hsum]

/-- C9 (amended): in the adjoint splatter, for a sample whose box has `begin ≤ end` on
every axis (so that the size `end - begin` handed to `outputRegion.SetSize` is `≥ 0`): if
the box is empty on some axis, the local weight sum is zero and the sample contributes
nothing: the region has no voxel, neither loop runs an iteration (no division is
evaluated) and the destination buffer after the sample equals the buffer before it.  With
kernel weights that are all `> 0` this is the only way the local sum is zero.  Whenever
the local sum is zero, every update the second loop performs divides by that zero sum:
nothing guards the division. -/
theorem C9_empty_box_contributes_nothing (N : Numerics K)
    (self : AdjointOrientedGaussianInterpolateImageFilter K D) (c : Fin D → K) (x : K)
    (buffer : (Fin D → ℤ) → K) (hsize : ∀ d, self.boxBegin c d ≤ self.boxEnd c d) :
    (∀ d, 0 ≤ (self.outputRegion c).size d) ∧
    ((∃ d, self.boxEnd c d = self.boxBegin c d) →
      self.localSum N c = 0 ∧ regionIndices (self.outputRegion c) = [] ∧
        self.splatSample N c x buffer = buffer) ∧
    ((∀ t, 0 < N.exp t) →
      (self.localSum N c = 0 ↔ ∃ d, self.boxEnd c d = self.boxBegin c d)) ∧
    (self.localSum N c = 0 →
      self.splatSample N c x buffer =
        (regionIndices (self.outputRegion c)).foldl
          (fun buf idx => AdjointOrientedGaussianInterpolateImageFilter.writeBack buf idx
            (AdjointOrientedGaussianInterpolateImageFilter.readModify buf idx x
              (AdjointOrientedGaussianInterpolateImageFilter.ComputeExponentialFunction N idx c
                self.CovScaledInv)
              0))
          buffer) := by
  have hempty : (∃ d, self.boxEnd c d = self.boxBegin c d) →
      regionIndices (self.outputRegion c) = [] := by
    rintro ⟨d, hd⟩
    refine regionIndices_eq_nil _ d ?_
    simp only [AdjointOrientedGaussianInterpolateImageFilter.outputRegion]
    omega
  have hnil : regionIndices (self.outputRegion c) = [] →
      self.localSum N c = 0 ∧ self.splatSample N c x buffer = buffer := by
    intro h
    unfold AdjointOrientedGaussianInterpolateImageFilter.localSum
      AdjointOrientedGaussianInterpolateImageFilter.splatSample
    rw [h]
    simp
  refine ⟨fun d => ?_, fun h => ⟨(hnil (hempty h)).1, hempty h, (hnil (hempty h)).2⟩,
    fun hexp => ?_, fun h0 => ?_⟩
  · have := hsize d
    simp only [AdjointOrientedGaussianInterpolateImageFilter.outputRegion]
    omega
  · refine ⟨fun h0 => ?_, fun h => (hnil (hempty h)).1⟩
    by_contra hne
    push_neg at hne
    have hmem : (fun d => self.boxBegin c d) ∈ regionIndices (self.outputRegion c) := by
      rw [AdjointOrientedGaussianInterpolateImageFilter.mem_outputRegion]
      intro d
      exact ⟨le_refl _, lt_of_le_of_ne (hsize d) (fun h => hne d h.symm)⟩
    exact absurd h0 (ne_of_gt
      (AdjointOrientedGaussianInterpolateImageFilter.localSum_pos N self c hexp _ hmem))
  · rw [AdjointOrientedGaussianInterpolateImageFilter.splatSample_eq_read_write, h0]

/-- Instance of C9 (amended) on the two-voxel line: a sample landing on the continuous
index `100` has the box `[2, 2)`, of size `0` on its axis, a zero local sum, and leaves
the zero buffer as it is. -/
theorem C9_witness :
    (((lineFilter (1 / 8 : ℝ) 8).BeforeThreadedGenerateData).boxBegin (fun _ => 100) 0 ≤
      ((lineFilter (1 / 8 : ℝ) 8).BeforeThreadedGenerateData).boxEnd (fun _ => 100) 0) ∧
    (((lineFilter (1 / 8 : ℝ) 8).BeforeThreadedGenerateData).boxEnd (fun _ => 100) 0 =
      ((lineFilter (1 / 8 : ℝ) 8).BeforeThreadedGenerateData).boxBegin (fun _ => 100) 0) ∧
    ((lineFilter (1 / 8 : ℝ) 8).BeforeThreadedGenerateData).localSum realNumerics
      (fun _ => 100) = 0 ∧
    regionIndices (((lineFilter (1 / 8 : ℝ) 8).BeforeThreadedGenerateData).outputRegion
      (fun _ => 100)) = [] ∧
    ((lineFilter (1 / 8 : ℝ) 8).BeforeThreadedGenerateData).splatSample realNumerics
      (fun _ => 100) 1 (fun _ => 0) = fun _ => 0 :=
  have hbox : ((lineFilter (1 / 8 : ℝ) 8).BeforeThreadedGenerateData).boxEnd (fun _ => 100) 0 =
      ((lineFilter (1 / 8 : ℝ) 8).BeforeThreadedGenerateData).boxBegin (fun _ => 100) 0 := by
    rw [lineFilter_far_end, lineFilter_far_begin]
  have hsize : ∀ d, ((lineFilter (1 / 8 : ℝ) 8).BeforeThreadedGenerateData).boxBegin
      (fun _ => 100) d ≤
      ((lineFilter (1 / 8 : ℝ) 8).BeforeThreadedGenerateData).boxEnd (fun _ => 100) d := by
    intro d
    have hd : d = 0 := Subsingleton.elim _ _
    rw [hd]
    exact le_of_eq hbox.symm
  ⟨hsize 0, hbox,
    (C9_empty_box_contributes_nothing realNumerics
      ((lineFilter (1 / 8 : ℝ) 8).BeforeThreadedGenerateData) (fun _ => 100) 1 (fun _ => 0)
      hsize).2.1 ⟨0, hbox⟩⟩

end ClaimsZeroSum

end itk
